import Mathlib

/-!
# Block-manager snapshots: `src/block/block_snap.c`

A shallow embedding of the snapshot lifecycle functions of the block manager
(`__wt_block_snap_init`, `__wt_block_snapshot_load`, `__wt_block_snapshot_unload`,
`__wt_block_snapshot`, `__snapshot_process`, `__snapshot_update`,
`__snapshot_string`) together with theorems about them.

Conventions of the embedding.

* Objects reached through pointers (the block, the snapshot array, the output
  buffer of the load) live in one explicit machine state `St`, together with the
  locals `found`, `locked` and `tmp` that steer the control flow of the C code.
* A pointer to a `WT_BLOCK_SNAPSHOT` is a `Si`: either the live snapshot of the
  block or the `bpriv` slot of the entry at some index of the snapshot array.
* The functions the file calls but does not define (extent lists, file I/O,
  cookie codec, verification, scratch buffers) are collaborators.  Every
  collaborator call that returns a status takes its status from the script
  `Env.rc`, indexed by the number of such calls made so far, and is recorded in
  `St.trace`; so every pattern of collaborator failures is covered by
  quantifying over `Env`.  What a collaborator does to the state when it
  succeeds is modelled from the specification.
  A collaborator that fails leaves the state as it found it.
* `WT_ERR` (store the status in `ret`, jump to the `err` label when it is not
  zero) and `WT_RET` (return the status when it is not zero) are the two ways a
  failure leaves a function body; `Flow` keeps them apart.
* Using a null `bpriv` pointer is the outcome `fault`.
* The live lock is the flag `live_lock`; one thread is modelled, so taking the
  lock sets the flag and releasing it clears the flag.

The file has three parts: the embedding of the C functions; the observations,
relations and example data that the statements use; and the theorems, those for
the load and the unload first, then those for the processing of the snapshot
list.
-/

namespace BlockSnap

/-! ## Constants -/

/-- Modelled from the spec: the sentinel `WT_BLOCK_INVALID_OFFSET` (the macro is not
defined in `block_snap.c`); the specification calls it "a distinguished zero form". -/
def WT_BLOCK_INVALID_OFFSET : Nat := 0

/-- Modelled from the spec: the value of `WT_BM_SNAPSHOT_VERSION`, the "current snapshot
version" (the macro is not defined in `block_snap.c`). -/
def WT_BM_SNAPSHOT_VERSION : Nat := 1

/-- The errno value `EINVAL`, reported as `INVALID_ARGUMENT`, `ALREADY_LOADED` and
`NOT_LOADED` by the specification. -/
def EINVAL : Int := 22

/-! ## Data model -/

/-- An extent list handle (`WT_EXTLIST`): name tag, file locator, and the in-memory
range data, kept as the list of file offsets the ranges cover. -/
structure WT_EXTLIST where
  name : String
  offset : Nat
  size : Nat
  cksum : Nat
  bytes : List Nat
deriving DecidableEq, Repr

/-- A snapshot state block (`WT_BLOCK_SNAPSHOT`). -/
structure WT_BLOCK_SNAPSHOT where
  version : Nat
  root_offset : Nat
  root_cksum : Nat
  root_size : Nat
  alloc : WT_EXTLIST
  avail : WT_EXTLIST
  discard : WT_EXTLIST
  file_size : Nat
  write_gen : Nat
deriving DecidableEq, Repr

/-- A buffer (`WT_ITEM`): the data and the size field. -/
structure WT_ITEM where
  data : List Nat
  size : Nat
deriving DecidableEq, Repr

/-- The flag word of a snapshot-list entry, as the set of the three bits
`WT_SNAP_ADD`, `WT_SNAP_DELETE`, `WT_SNAP_UPDATE` (`FLD_ISSET` reads a field,
`FLD_SET` sets one). -/
structure SnapFlags where
  add : Bool
  delete : Bool
  update : Bool
deriving DecidableEq, Repr

/-- A snapshot-list entry (`WT_SNAPSHOT`). -/
structure WT_SNAPSHOT where
  name : String
  raw : WT_ITEM
  flags : SnapFlags
  bpriv : Option WT_BLOCK_SNAPSHOT
deriving DecidableEq, Repr

/-- The block object (`WT_BLOCK`); `fh` is the length of the backing file. -/
structure WT_BLOCK where
  name : String
  fh : Nat
  live_lock : Bool
  live_load : Bool
  live : WT_BLOCK_SNAPSHOT
  verify : Bool
deriving DecidableEq, Repr

/-- A pointer to a snapshot state block. -/
inductive Si where
  | live : Si
  | priv : Nat → Si
deriving DecidableEq, Repr

/-- The collaborator calls that return a status, with the arguments the theorems
look at. -/
inductive Call where
  | scr_alloc : Call
  | buf_fmt : String → Call
  | buf_catfmt : String → Call
  | calloc : Nat → Call
  | buffer_to_snapshot : List Nat → Call
  | verify_snap_load : Call
  | verify_snap_unload : Call
  | verify_dsk : Call
  | read_off : Nat → Nat → Nat → Call
  | extlist_read : WT_EXTLIST → Call
  | ftruncate : Nat → Call
  | write_off : WT_ITEM → Call
  | free_ext : Nat → Nat → Bool → Call
  | extlist_merge : WT_EXTLIST → WT_EXTLIST → Call
  | extlist_match : Si → WT_BLOCK_SNAPSHOT → Call
  | extlist_truncate : Call
  | extlist_check : Si → Call
  | extlist_write : Si → WT_EXTLIST → Call
  | filesize : Call
  | buf_init : Nat → Call
  | snapshot_to_buffer : Nat → WT_BLOCK_SNAPSHOT → Call
  | fsync : Call
deriving DecidableEq, Repr

/-- The parameters of a run: the status script of the collaborators, the two
configuration switches (`WT_VERBOSE_ISSET(session, snapshot)` and the build
option `HAVE_DIAGNOSTIC`), and the data the collaborators produce. -/
structure Env where
  rc : Nat → Int
  verbose : Bool
  diagnostic : Bool
  decode : List Nat → WT_BLOCK_SNAPSHOT → WT_BLOCK_SNAPSHOT
  encode : WT_BLOCK_SNAPSHOT → List Nat
  ondisk : Nat → Nat → List Nat
  place : Nat → Nat → Nat
  cksum : List Nat → Nat

/-- The machine state. -/
structure St where
  block : WT_BLOCK
  snaps : List WT_SNAPSHOT
  dsk : Option WT_ITEM
  ncalls : Nat
  trace : List Call
  found : Bool
  locked : Bool
  tmp : Bool
deriving Repr

/-- How a function body is left. -/
inductive Flow where
  | next : St → Flow
  | err : Int → St → Flow
  | ret : Int → St → Flow
  | fault : St → Flow
deriving Repr

/-- Sequencing: only `next` goes on. -/
def Flow.bind (x : Flow) (k : St → Flow) : Flow :=
  match x with
  | .next s => k s
  | .err r s => .err r s
  | .ret r s => .ret r s
  | .fault s => .fault s

/-- How a function is left: it returns a status, or it used a null pointer. -/
inductive Out where
  | ret : Int → St → Out
  | fault : St → Out
deriving Repr

/-- Run a loop body over the entries with the given indices, in order
(`WT_SNAPSHOT_FOREACH`). -/
def forEach (f : Nat → St → Flow) : List Nat → St → Flow
  | [], s => .next s
  | i :: is, s => (f i s).bind (forEach f is)

/-! ## Collaborators -/

/-- One collaborator call: the status comes from the script, the call is recorded. -/
def St.call (env : Env) (c : Call) (s : St) : Int × St :=
  (env.rc s.ncalls, { s with ncalls := s.ncalls + 1, trace := s.trace ++ [c] })

/-- The `WT_ERR` wrapper around a collaborator call whose success has the effect `eff`. -/
def WT_ERR (env : Env) (c : Call) (eff : St → St) (s : St) : Flow :=
  if (s.call env c).1 = 0 then .next (eff (s.call env c).2) else .err (s.call env c).1 (s.call env c).2

/-- The `WT_RET` wrapper around a collaborator call whose success has the effect `eff`. -/
def WT_RET (env : Env) (c : Call) (eff : St → St) (s : St) : Flow :=
  if (s.call env c).1 = 0 then .next (eff (s.call env c).2) else .ret (s.call env c).1 (s.call env c).2

/-- Read through a snapshot pointer; `none` is the null pointer. -/
def St.getSi (s : St) : Si → Option WT_BLOCK_SNAPSHOT
  | .live => some s.block.live
  | .priv i => (s.snaps[i]?).bind (fun e => e.bpriv)

/-- Write through a snapshot pointer. -/
def St.setSi (s : St) : Si → WT_BLOCK_SNAPSHOT → St
  | .live, v => { s with block := { s.block with live := v } }
  | .priv i, v =>
    match s.snaps[i]? with
    | some e => { s with snaps := s.snaps.set i { e with bpriv := some v } }
    | none => s

/-- Modelled from the spec: `__wt_block_extlist_free`, "free in place": the in-memory
range data of the list is released, the locator stays. -/
def extlist_free (el : WT_EXTLIST) : WT_EXTLIST := { el with bytes := [] }

/-- Modelled from the spec: `__wt_block_extlist_read`: the in-memory range data becomes
what the file holds at the locator; a sentinel locator means the list is empty on
disk and nothing is read. -/
def extlist_read (env : Env) (el : WT_EXTLIST) : WT_EXTLIST :=
  if el.offset = WT_BLOCK_INVALID_OFFSET then el
  else { el with bytes := env.ondisk el.offset el.size }

/-- Modelled from the spec: `__wt_block_extlist_merge`, "merge (union of two disjoint
sets)": the ranges of `a` are added to `b`. -/
def extlist_merge (a b : WT_EXTLIST) : WT_EXTLIST := { b with bytes := b.bytes ++ a.bytes }

/-- Modelled from the spec: `__wt_block_extlist_match`, the reuse-match: "any range
appearing in both `B.alloc` and `B.discard` is removed from both and added to `B.avail`". -/
def extlist_match (b : WT_BLOCK_SNAPSHOT) : WT_BLOCK_SNAPSHOT :=
  { b with
    alloc := { b.alloc with bytes := b.alloc.bytes.filter (fun x => !(b.discard.bytes.contains x)) }
    discard := { b.discard with bytes := b.discard.bytes.filter (fun x => !(b.alloc.bytes.contains x)) }
    avail := { b.avail with bytes := b.avail.bytes ++ b.alloc.bytes.filter (fun x => b.discard.bytes.contains x) } }

/-- Modelled from the spec: `__wt_block_free_ext` on the live snapshot: a free "directly
to avail" adds the region to the live avail list, an ordinary free goes "through
discard accounting". -/
def free_ext (off size : Nat) (free_extent : Bool) (live : WT_BLOCK_SNAPSHOT) : WT_BLOCK_SNAPSHOT :=
  if free_extent then
    { live with avail := { live.avail with bytes := live.avail.bytes ++ (List.range size).map (fun k => off + k) } }
  else
    { live with discard := { live.discard with bytes := live.discard.bytes ++ (List.range size).map (fun k => off + k) } }

/-- The file tail that an avail list covers: the new file length and what is left of
the list. -/
def truncTail : Nat → List Nat → Nat × List Nat
  | 0, av => (0, av)
  | n + 1, av => if av.contains n then truncTail n (av.filter (fun x => x != n)) else (n + 1, av)

/-- Modelled from the spec: `__wt_block_extlist_truncate` on the live avail list: "trim
trailing ranges that cover file tail", shrinking the file. -/
def extlist_truncate (s : St) : St :=
  { s with block := { s.block with
      fh := (truncTail s.block.fh s.block.live.avail.bytes).1
      live := { s.block.live with avail := { s.block.live.avail with
        bytes := (truncTail s.block.fh s.block.live.avail.bytes).2 } } } }

/-- Modelled from the spec: the locator `__wt_block_extlist_write` leaves in the list:
"each write updates its own `(offset, size, cksum)` in place"; an empty list is
not written and gets the sentinel. -/
def extlist_written (env : Env) (fh : Nat) (el : WT_EXTLIST) : WT_EXTLIST :=
  if el.bytes = [] then { el with offset := WT_BLOCK_INVALID_OFFSET, size := 0, cksum := 0 }
  else { el with offset := env.place fh el.bytes.length, size := el.bytes.length, cksum := env.cksum el.bytes }

/-- Modelled from the spec: the file length after `__wt_block_extlist_write`. -/
def extlist_written_fh (env : Env) (fh : Nat) (el : WT_EXTLIST) : Nat :=
  if el.bytes = [] then fh else max fh (env.place fh el.bytes.length + el.bytes.length)

/-! ## `__wt_block_snap_init` -/

/-- The state block `__wt_block_snap_init` leaves behind: zeroed, sentinels in the root
and the three extent-list locators, and the three name tags. -/
def snap_init_value : WT_BLOCK_SNAPSHOT :=
  { version := 0
    root_offset := WT_BLOCK_INVALID_OFFSET
    root_cksum := 0
    root_size := 0
    alloc := { name := "alloc", offset := WT_BLOCK_INVALID_OFFSET, size := 0, cksum := 0, bytes := [] }
    avail := { name := "avail", offset := WT_BLOCK_INVALID_OFFSET, size := 0, cksum := 0, bytes := [] }
    discard := { name := "discard", offset := WT_BLOCK_INVALID_OFFSET, size := 0, cksum := 0, bytes := [] }
    file_size := 0
    write_gen := 0 }

/-- Initialize a snapshot structure (`__wt_block_snap_init`).  With `is_live` the
live lock is taken and released around the test of `live_load`. -/
def __wt_block_snap_init (si : Si) (is_live : Bool) (s : St) : Int × St :=
  if is_live then
    if s.block.live_load then
      (EINVAL, { s with block := { s.block with live_lock := false } })
    else
      (0, ({ s with block := { s.block with live_load := true, live_lock := false } }).setSi si snap_init_value)
  else
    (0, s.setSi si snap_init_value)

/-! ## `__snapshot_string` -/

/-- The text of one locator in the printable form of a cookie. -/
def locator_string (tag : String) (offset size cksum : Nat) : String :=
  if offset = WT_BLOCK_INVALID_OFFSET then ", " ++ tag ++ "=[Empty]"
  else ", " ++ tag ++ "=[" ++ toString offset ++ "-" ++ toString (offset + size) ++ ", "
    ++ toString size ++ ", " ++ toString cksum ++ "]"

/-- Return a printable string representation of a snapshot address cookie
(`__snapshot_string`); every failure is a `WT_RET`.  The local state block is
initialized by `__wt_block_snap_init` with `is_live = 0`, which cannot fail. -/
def __snapshot_string (env : Env) (addr : List Nat) (s : St) : Flow :=
  (WT_RET env (.buffer_to_snapshot addr) id s).bind fun s =>
  (WT_RET env (.buf_fmt ("version=" ++ toString (env.decode addr snap_init_value).version)) id s).bind fun s =>
  (WT_RET env (.buf_catfmt (locator_string "root" (env.decode addr snap_init_value).root_offset
    (env.decode addr snap_init_value).root_size (env.decode addr snap_init_value).root_cksum)) id s).bind fun s =>
  (WT_RET env (.buf_catfmt (locator_string "alloc" (env.decode addr snap_init_value).alloc.offset
    (env.decode addr snap_init_value).alloc.size (env.decode addr snap_init_value).alloc.cksum)) id s).bind fun s =>
  (WT_RET env (.buf_catfmt (locator_string "avail" (env.decode addr snap_init_value).avail.offset
    (env.decode addr snap_init_value).avail.size (env.decode addr snap_init_value).avail.cksum)) id s).bind fun s =>
  (WT_RET env (.buf_catfmt (locator_string "discard" (env.decode addr snap_init_value).discard.offset
    (env.decode addr snap_init_value).discard.size (env.decode addr snap_init_value).discard.cksum)) id s).bind fun s =>
  WT_RET env (.buf_catfmt (", file size=" ++ toString (env.decode addr snap_init_value).file_size
    ++ ", write generation=" ++ toString (env.decode addr snap_init_value).write_gen)) id s

/-- The status a callee that only uses `WT_RET` hands back, as a `WT_ERR` of the caller. -/
def Flow.asErr (x : Flow) : Flow :=
  match x with
  | .next s => .next s
  | .err r s => .err r s
  | .ret r s => .err r s
  | .fault s => .fault s

/-! ## `__wt_block_snapshot_load` -/

/-- The verbose block at the top of the load: format the cookie when there is one. -/
def load_verbose (env : Env) (addr : Option (List Nat)) (s : St) : Flow :=
  if env.verbose then
    match addr with
    | some a =>
      (WT_ERR env .scr_alloc (fun s => { s with tmp := true }) s).bind fun s =>
      (__snapshot_string env a s).asErr
    | none => .next s
  else .next s

/-- The root page part of the load: read the root, and verify it when asked to. -/
def load_root (env : Env) (a : List Nat) (s : St) : Flow :=
  if s.block.live.root_offset ≠ WT_BLOCK_INVALID_OFFSET then
    (WT_ERR env (.read_off s.block.live.root_offset s.block.live.root_size s.block.live.root_cksum)
      (fun s => { s with dsk := s.dsk.map (fun d => { d with size := s.block.live.root_size }) }) s).bind fun s =>
    if s.block.verify then
      (if s.tmp = false then
        (WT_ERR env .scr_alloc (fun s => { s with tmp := true }) s).bind fun s =>
        (__snapshot_string env a s).asErr
       else .next s).bind fun s =>
      WT_ERR env .verify_dsk id s
    else .next s
  else .next s

/-- The part of the load that handles a cookie: crack it, verify, read the root page,
and, when the snapshot can be written, read the avail list and truncate the
file. -/
def load_tail (env : Env) (a : List Nat) (readonly : Bool) (s : St) : Flow :=
  (WT_ERR env (.buffer_to_snapshot a) (fun s => s.setSi .live (env.decode a s.block.live)) s).bind fun s =>
  (if s.block.verify then WT_ERR env .verify_snap_load id s else .next s).bind fun s =>
  (load_root env a s).bind fun s =>
  (if readonly = false then
    WT_ERR env (.extlist_read s.block.live.avail)
      (fun s => s.setSi .live { s.block.live with avail := extlist_read env s.block.live.avail }) s
   else .next s).bind fun s =>
  (if readonly = false then
    WT_ERR env (.ftruncate s.block.live.file_size)
      (fun s => { s with block := { s.block with fh := s.block.live.file_size } }) s
   else .next s)

/-- The body of `__wt_block_snapshot_load`, up to the `err` label. -/
def load_body (env : Env) (addr : Option (List Nat)) (addr_size : Nat) (readonly : Bool) (s : St) : Flow :=
  (load_verbose env addr ({ s with tmp := false, dsk := s.dsk.map (fun d => { d with size := 0 }) })).bind fun s =>
  if (__wt_block_snap_init .live true s).1 ≠ 0 then
    .ret (__wt_block_snap_init .live true s).1 (__wt_block_snap_init .live true s).2
  else
    match addr with
    | none => .ret 0 (__wt_block_snap_init .live true s).2
    | some a =>
      if addr_size = 0 then .ret 0 (__wt_block_snap_init .live true s).2
      else load_tail env a readonly (__wt_block_snap_init .live true s).2

/-- Load a snapshot (`__wt_block_snapshot_load`): the `err` label clears `live_load`,
then the scratch buffer is released and `ret` returned. -/
def __wt_block_snapshot_load (env : Env) (addr : Option (List Nat)) (addr_size : Nat)
    (readonly : Bool) (s : St) : Out :=
  match load_body env addr addr_size readonly s with
  | .next s => .ret 0 { s with tmp := false }
  | .err r s => .ret r { s with block := { s.block with live_load := false }, tmp := false }
  | .ret r s => .ret r s
  | .fault s => .fault s

/-! ## `__wt_block_snapshot_unload` -/

/-- Unload a snapshot (`__wt_block_snapshot_unload`): a failure of the verify cleanup
is kept in `ret` while the lists are discarded and `live_load` cleared. -/
def __wt_block_snapshot_unload (env : Env) (s : St) : Out :=
  if s.block.live_load = false then .ret EINVAL s
  else
    .ret (if s.block.verify then (s.call env .verify_snap_unload).1 else 0)
      { (if s.block.verify then (s.call env .verify_snap_unload).2 else s) with
        block := { s.block with
          live := { s.block.live with
            alloc := extlist_free s.block.live.alloc
            avail := extlist_free s.block.live.avail
            discard := extlist_free s.block.live.discard }
          live_load := false } }

/-! ## `__snapshot_update` -/

/-- One of the three extent lists of a state block. -/
inductive El where
  | alloc : El
  | avail : El
  | discard : El
deriving DecidableEq, Repr

/-- Read the chosen list of a state block. -/
def El.get : El → WT_BLOCK_SNAPSHOT → WT_EXTLIST
  | .alloc, v => v.alloc
  | .avail, v => v.avail
  | .discard, v => v.discard

/-- Replace the chosen list of a state block. -/
def El.set : El → WT_BLOCK_SNAPSHOT → WT_EXTLIST → WT_BLOCK_SNAPSHOT
  | .alloc, v, el => { v with alloc := el }
  | .avail, v, el => { v with avail := el }
  | .discard, v, el => { v with discard := el }

/-- Update the state block behind a pointer; nothing happens behind a null pointer. -/
def St.modSi (s : St) (si : Si) (f : WT_BLOCK_SNAPSHOT → WT_BLOCK_SNAPSHOT) : St :=
  match s.getSi si with
  | some v => s.setSi si (f v)
  | none => s

/-- The effect of a successful `__wt_block_extlist_write` of one list of `si`. -/
def write_effect (env : Env) (si : Si) (w : El) (s : St) : St :=
  match s.getSi si with
  | some v =>
    { (s.setSi si (w.set v (extlist_written env s.block.fh (w.get v)))) with
      block := { (s.setSi si (w.set v (extlist_written env s.block.fh (w.get v)))).block with
        fh := extlist_written_fh env s.block.fh (w.get v) } }
  | none => s

/-- The call `WT_RET(__wt_block_extlist_write(session, block, &si->w))`. -/
def write_list (env : Env) (si : Si) (w : El) (s : St) : Flow :=
  match s.getSi si with
  | none => .fault s
  | some v => WT_RET env (.extlist_write si (w.get v)) (write_effect env si w) s

/-- The diagnostic call `WT_RET(__wt_block_extlist_check(session, si, ...))`, compiled in
with `HAVE_DIAGNOSTIC` only. -/
def check_lists (env : Env) (si : Si) (s : St) : Flow :=
  if env.diagnostic then
    match s.getSi si with
    | none => .fault s
    | some _ => WT_RET env (.extlist_check si) id s
  else .next s

/-- The effect of a successful `__wt_buf_init` on the cookie buffer of entry `j`. -/
def raw_init (j : Nat) (s : St) : St :=
  match s.snaps[j]? with
  | some e => { s with snaps := s.snaps.set j { e with raw := { data := [], size := 0 } } }
  | none => s

/-- The effect of a successful `__wt_block_snapshot_to_buffer` followed by the store of
`raw.size`: the cookie buffer of entry `j` holds the encoding of `v`. -/
def raw_store (env : Env) (j : Nat) (v : WT_BLOCK_SNAPSHOT) (s : St) : St :=
  match s.snaps[j]? with
  | some e => { s with snaps := s.snaps.set j { e with raw := { data := env.encode v, size := (env.encode v).length } } }
  | none => s

/-- The call `WT_RET(__wt_block_snapshot_to_buffer(session, block, &endp, si))` and the
store of `snap->raw.size` for the entry at index `j`. -/
def encode_cookie (env : Env) (j : Nat) (si : Si) (s : St) : Flow :=
  match s.getSi si with
  | none => .fault s
  | some v => WT_RET env (.snapshot_to_buffer j v) (raw_store env j v) s

/-- The verbose block at the end of `__snapshot_update`. -/
def update_verbose (env : Env) (j : Nat) (s : St) : Flow :=
  if env.verbose then
    (WT_RET env .scr_alloc (fun s => { s with tmp := true }) s).bind fun s =>
    match __snapshot_string env ((s.snaps[j]?).elim [] (fun e => e.raw.data)) s with
    | .next s => .next { s with tmp := false }
    | .err r s => .ret r { s with tmp := false }
    | .ret r s => .ret r { s with tmp := false }
    | .fault s => .fault s
  else .next s

/-- Update a snapshot (`__snapshot_update`): write the three lists of `si`, store the
file size in it, and encode it into the cookie of the entry at index `j`.  Every
failure is a `WT_RET`. -/
def __snapshot_update (env : Env) (j : Nat) (si : Si) (s : St) : Flow :=
  (check_lists env si s).bind fun s =>
  (write_list env si .alloc s).bind fun s =>
  (write_list env si .avail s).bind fun s =>
  (write_list env si .discard s).bind fun s =>
  (WT_RET env .filesize (fun s => s.modSi si (fun v => { v with file_size := s.block.fh })) s).bind fun s =>
  (WT_RET env (.buf_init j) (raw_init j) s).bind fun s =>
  (encode_cookie env j si s).bind fun s =>
  update_verbose env j s

/-! ## `__snapshot_process` -/

/-- The entry after the last one: the array ends with an entry whose name is null,
which `WT_SNAPSHOT_FOREACH` stops at; it is zero-filled. -/
def terminator : WT_SNAPSHOT :=
  { name := "", raw := { data := [], size := 0 },
    flags := { add := false, delete := false, update := false }, bpriv := none }

/-- The entry `snap + 1` of the entry at index `i`. -/
def next_entry (s : St) (i : Nat) : WT_SNAPSHOT := (s.snaps[i + 1]?).getD terminator

/-- The test `FLD_ISSET((snap - 1)->flags, WT_SNAP_DELETE)` for the entry at index `i`,
evaluated only when `snap != snapbase`. -/
def prev_delete (s : St) (i : Nat) : Bool :=
  match s.snaps[i - 1]? with
  | some p => p.flags.delete
  | none => false

/-- The memory `__wt_calloc` hands out: a zero-filled state block. -/
def calloc_value : WT_BLOCK_SNAPSHOT :=
  { version := 0, root_offset := 0, root_cksum := 0, root_size := 0
    alloc := { name := "", offset := 0, size := 0, cksum := 0, bytes := [] }
    avail := { name := "", offset := 0, size := 0, cksum := 0, bytes := [] }
    discard := { name := "", offset := 0, size := 0, cksum := 0, bytes := [] }
    file_size := 0, write_gen := 0 }

/-- The effect of a successful `__wt_calloc` into `snap->bpriv` of entry `i`. -/
def calloc_effect (i : Nat) (s : St) : St :=
  match s.snaps[i]? with
  | some e => { s with snaps := s.snaps.set i { e with bpriv := some calloc_value } }
  | none => s

/-- The call `WT_ERR(__wt_block_snap_init(session, block, si, 0))` on the state block of
the entry at index `i`. -/
def init_priv (i : Nat) (s : St) : Flow :=
  if (__wt_block_snap_init (.priv i) false s).1 = 0 then .next (__wt_block_snap_init (.priv i) false s).2
  else .err (__wt_block_snap_init (.priv i) false s).1 (__wt_block_snap_init (.priv i) false s).2

/-- The call `WT_ERR(__wt_block_extlist_read(session, block, &si->w))`. -/
def read_list (env : Env) (si : Si) (w : El) (s : St) : Flow :=
  match s.getSi si with
  | none => .fault s
  | some v => WT_ERR env (.extlist_read (w.get v)) (fun s => s.modSi si (fun v => w.set v (extlist_read env (w.get v)))) s

/-- The body of the first loop of `__snapshot_process` for the entry at index `i`:
skip the entry, or set `found` and load its state block. -/
def preload_step (env : Env) (i : Nat) (s : St) : Flow :=
  match s.snaps[i]? with
  | none => .next s
  | some snap =>
    if !snap.flags.delete && (i == 0 || snap.flags.add || !(prev_delete s i)) then .next s
    else
      (WT_ERR env (.calloc i) (calloc_effect i) { s with found := true }).bind fun s =>
      (init_priv i s).bind fun s =>
      (WT_ERR env (.buffer_to_snapshot snap.raw.data) (fun s => s.modSi (.priv i) (env.decode snap.raw.data)) s).bind fun s =>
      (read_list env (.priv i) .alloc s).bind fun s =>
      (read_list env (.priv i) .avail s).bind fun s =>
      read_list env (.priv i) .discard s

/-- The verbose block of the deletion loop. -/
def delete_verbose (env : Env) (addr : List Nat) (s : St) : Flow :=
  if env.verbose then
    (WT_ERR env .scr_alloc (fun s => { s with tmp := true }) s).bind fun s =>
    match __snapshot_string env addr s with
    | .next s => .next { s with tmp := false }
    | .err r s => .err r { s with tmp := false }
    | .ret r s => .err r { s with tmp := false }
    | .fault s => .fault s
  else .next s

/-- The call `WT_ERR(__wt_block_free_ext(session, block, off, size, free_extent))`, made
when `off` is not the sentinel. -/
def free_region (env : Env) (off size : Nat) (free_extent : Bool) (s : St) : Flow :=
  if off ≠ WT_BLOCK_INVALID_OFFSET then
    WT_ERR env (.free_ext off size free_extent)
      (fun s => s.setSi .live (free_ext off size free_extent s.block.live)) s
  else .next s

/-- Free the blocks that hold the three extent lists of `v` directly to the live
avail list. -/
def free_lists (env : Env) (v : WT_BLOCK_SNAPSHOT) (s : St) : Flow :=
  (free_region env v.alloc.offset v.alloc.size true s).bind fun s =>
  (free_region env v.avail.offset v.avail.size true s).bind fun s =>
  free_region env v.discard.offset v.discard.size true s

/-- The call `WT_ERR(__wt_block_extlist_merge(session, &a->w, &b->w))`, made when the
locator of `a->w` is not the sentinel. -/
def merge_list (env : Env) (a : WT_BLOCK_SNAPSHOT) (b : Si) (w : El) (s : St) : Flow :=
  if (w.get a).offset ≠ WT_BLOCK_INVALID_OFFSET then
    match s.getSi b with
    | none => .fault s
    | some bv =>
      WT_ERR env (.extlist_merge (w.get a) (w.get bv))
        (fun s => s.modSi b (fun bv => w.set bv (extlist_merge (w.get a) (w.get bv)))) s
  else .next s

/-- The call `WT_ERR(__wt_block_extlist_match(session, block, b))`. -/
def match_lists (env : Env) (b : Si) (s : St) : Flow :=
  match s.getSi b with
  | none => .fault s
  | some bv => WT_ERR env (.extlist_match b bv) (fun s => s.modSi b extlist_match) s

/-- The statement `FLD_SET((snap + 1)->flags, WT_SNAP_UPDATE)` for the entry at index `i`. -/
def mark_update (i : Nat) (s : St) : St :=
  match s.snaps[i + 1]? with
  | some e => { s with snaps := s.snaps.set (i + 1) { e with flags := { e.flags with update := true } } }
  | none => s

/-- The "to" pointer of the deletion of the entry at index `i`: the live snapshot when
the next entry is flagged `ADD`, else the `bpriv` of the next entry. -/
def to_si (s : St) (i : Nat) : Si :=
  if (next_entry s i).flags.add then .live else .priv (i + 1)

/-- The body of the deletion loop for the entry at index `i`.  The "from" block `a`
is not written to during the step, so it is read once. -/
def delete_step (env : Env) (i : Nat) (s : St) : Flow :=
  match s.snaps[i]? with
  | none => .next s
  | some snap =>
    if snap.flags.delete = false then .next s
    else
      (delete_verbose env snap.raw.data s).bind fun s =>
      match snap.bpriv with
      | none => .fault s
      | some a =>
        (free_region env a.root_offset a.root_size false s).bind fun s =>
        (free_lists env a s).bind fun s =>
        (merge_list env a (to_si s i) .alloc s).bind fun s =>
        (merge_list env a (to_si s i) .discard s).bind fun s =>
        if (next_entry s i).flags.delete then .next s
        else
          (match_lists env (to_si s i) s).bind fun s =>
          if (next_entry s i).flags.add then .next s
          else
            match s.getSi (to_si s i) with
            | none => .fault s
            | some b => (free_lists env b s).bind fun s => .next (mark_update i s)

/-- The body of the update loop for the entry at index `i`. -/
def update_step (env : Env) (i : Nat) (s : St) : Flow :=
  match s.snaps[i]? with
  | none => .next s
  | some snap =>
    if snap.flags.update = false then .next s
    else (__snapshot_update env i (.priv i) s).asErr

/-- The statements after the update of the live snapshot: discard the live alloc and
discard lists, but not the avail list. -/
def live_discard (s : St) : St :=
  s.setSi .live { s.block.live with
    alloc := extlist_free s.block.live.alloc
    discard := extlist_free s.block.live.discard }

/-- The body of the loop at the `live_update` label for the entry at index `i`; the
truncation of the live avail list is a `WT_RET`. -/
def live_update_step (env : Env) (i : Nat) (s : St) : Flow :=
  match s.snaps[i]? with
  | none => .next s
  | some snap =>
    if snap.flags.add = false then .next s
    else
      (WT_RET env .extlist_truncate extlist_truncate s).bind fun s =>
      ((__snapshot_update env i .live s).asErr).bind fun s =>
      .next (live_discard s)

/-- The deletion loop, the diagnostic check of the live lists (a `WT_RET`) and the update
loop: the part of `__snapshot_process` that `goto live_update` jumps over. -/
def process_found (env : Env) (s : St) : Flow :=
  (forEach (delete_step env) (List.range s.snaps.length) s).bind fun s =>
  (check_lists env .live s).bind fun s =>
  forEach (update_step env) (List.range s.snaps.length) s

/-- The statements `__wt_spin_lock(session, &block->live_lock); locked = 1;`. -/
def take_lock (s : St) : St :=
  { s with block := { s.block with live_lock := true }, locked := true }

/-- The body of `__snapshot_process`, up to the `err` label. -/
def process_body (env : Env) (s : St) : Flow :=
  (forEach (preload_step env) (List.range s.snaps.length)
    { s with tmp := false, locked := false, found := false }).bind fun s =>
  (if (take_lock s).found = false then .next (take_lock s) else process_found env (take_lock s)).bind fun s =>
  forEach (live_update_step env) (List.range s.snaps.length) s

/-- Discard the in-memory extent lists of a loaded state block. -/
def discard_priv (e : WT_SNAPSHOT) : WT_SNAPSHOT :=
  { e with bpriv := e.bpriv.map (fun v =>
      { v with alloc := extlist_free v.alloc, avail := extlist_free v.avail, discard := extlist_free v.discard }) }

/-- The statements at the `err` label: release the live lock when `locked`, and discard
the snapshot information of every entry whose `bpriv` is not null. -/
def process_cleanup (s : St) : St :=
  { s with
    block := { s.block with live_lock := if s.locked then false else s.block.live_lock }
    snaps := s.snaps.map discard_priv }

/-- Process the list of snapshots (`__snapshot_process`). -/
def __snapshot_process (env : Env) (s : St) : Out :=
  match process_body env s with
  | .next s => .ret 0 (process_cleanup s)
  | .err r s => .ret r (process_cleanup s)
  | .ret r s => .ret r s
  | .fault s => .fault s

/-! ## `__wt_block_snapshot` -/

/-- Modelled from the spec: the effect of a successful `__wt_block_write_off` of the root
page: "write it as a normal allocation and record `(root_offset, root_size,
root_cksum)` into the live state block". -/
def write_root (env : Env) (buf : WT_ITEM) (s : St) : St :=
  { s with block := { s.block with
      fh := max s.block.fh (env.place s.block.fh buf.size + buf.size)
      live := { s.block.live with
        root_offset := env.place s.block.fh buf.size
        root_size := buf.size
        root_cksum := env.cksum buf.data
        alloc := { s.block.live.alloc with
          bytes := s.block.live.alloc.bytes ++ (List.range buf.size).map (fun k => env.place s.block.fh buf.size + k) } } } }

/-- The first part of `__wt_block_snapshot`: set the version and write the root page, or
store the sentinel root when there is no page. -/
def snapshot_root (env : Env) (buf : Option WT_ITEM) (s : St) : Flow :=
  match buf with
  | none =>
    .next (s.setSi .live { s.block.live with
      version := WT_BM_SNAPSHOT_VERSION, root_offset := WT_BLOCK_INVALID_OFFSET, root_size := 0, root_cksum := 0 })
  | some b =>
    WT_RET env (.write_off b) (write_root env b)
      (s.setSi .live { s.block.live with version := WT_BM_SNAPSHOT_VERSION })

/-- Create a new snapshot (`__wt_block_snapshot`). -/
def __wt_block_snapshot (env : Env) (buf : Option WT_ITEM) (s : St) : Out :=
  match snapshot_root env buf s with
  | .next s =>
    match __snapshot_process env s with
    | .ret r s =>
      if r ≠ 0 then .ret r s
      else
        if (s.call env .fsync).1 ≠ 0 then .ret (s.call env .fsync).1 (s.call env .fsync).2
        else .ret 0 (s.call env .fsync).2
    | .fault s => .fault s
  | .err r s => .ret r s
  | .ret r s => .ret r s
  | .fault s => .fault s

/-! ## Observations used by the theorems -/

/-- The state an outcome of a function body carries. -/
def Flow.st : Flow → St
  | .next s => s
  | .err _ s => s
  | .ret _ s => s
  | .fault s => s

/-- The state a function leaves. -/
def Out.st : Out → St
  | .ret _ s => s
  | .fault s => s

/-- The status a function returns, if it returns. -/
def Out.rc : Out → Option Int
  | .ret r _ => some r
  | .fault _ => none

/-- The lengths of the `__wt_ftruncate` calls in a trace. -/
def truncs : List Call → List Nat
  | [] => []
  | .ftruncate n :: t => n :: truncs t
  | _ :: t => truncs t

/-- The lists handed to the `__wt_block_extlist_read` calls in a trace. -/
def reads : List Call → List WT_EXTLIST
  | [] => []
  | .extlist_read el :: t => el :: reads t
  | _ :: t => reads t

/-- The `(offset, size, free_extent)` arguments of the `__wt_block_free_ext` calls in a
trace. -/
def frees : List Call → List (Nat × Nat × Bool)
  | [] => []
  | .free_ext off size d :: t => (off, size, d) :: frees t
  | _ :: t => frees t

/-- The state blocks handed to the `__wt_block_snapshot_to_buffer` calls for the entry at
index `j` in a trace: one per `__snapshot_update` of that entry that got to encode
a cookie. -/
def encoded (j : Nat) : List Call → List WT_BLOCK_SNAPSHOT
  | [] => []
  | .snapshot_to_buffer k v :: t => if k = j then v :: encoded j t else encoded j t
  | _ :: t => encoded j t

/-- The state blocks handed to the `__wt_block_extlist_match` calls in a trace, as they
are when the reuse-match starts, with the pointer they are behind. -/
def matched : List Call → List (Si × WT_BLOCK_SNAPSHOT)
  | [] => []
  | .extlist_match b v :: t => (b, v) :: matched t
  | _ :: t => matched t

/-- A call of the load or of the unload. -/
inductive Op where
  | load : Option (List Nat) → Nat → Bool → Op
  | unload : Op
deriving Repr

/-- Run one call. -/
def Op.run (env : Env) : Op → St → Out
  | .load addr addr_size readonly, s => __wt_block_snapshot_load env addr addr_size readonly s
  | .unload, s => __wt_block_snapshot_unload env s

/-- The state after a sequence of calls. -/
def run_ops (env : Env) : List Op → St → St
  | [], s => s
  | op :: ops, s => run_ops env ops (op.run env s).st

/-- The number of successful load calls minus the number of successful unload calls in
a sequence of calls, as the specification counts them. -/
def net_loads (env : Env) : List Op → St → Int
  | [], _ => 0
  | .load addr addr_size readonly :: ops, s =>
    (if (__wt_block_snapshot_load env addr addr_size readonly s).rc = some 0 then 1 else 0)
      + net_loads env ops (__wt_block_snapshot_load env addr addr_size readonly s).st
  | .unload :: ops, s =>
    (if (__wt_block_snapshot_unload env s).rc = some 0 then -1 else 0)
      + net_loads env ops (__wt_block_snapshot_unload env s).st

/-- The number of successful load calls minus the number of unload calls that found a
live snapshot loaded, whatever status they returned. -/
def net_loaded (env : Env) : List Op → St → Int
  | [], _ => 0
  | .load addr addr_size readonly :: ops, s =>
    (if (__wt_block_snapshot_load env addr addr_size readonly s).rc = some 0 then 1 else 0)
      + net_loaded env ops (__wt_block_snapshot_load env addr addr_size readonly s).st
  | .unload :: ops, s =>
    (if s.block.live_load then -1 else 0)
      + net_loaded env ops (__wt_block_snapshot_unload env s).st

/-! ## Example data -/

/-- A cookie codec for the examples: the fifteen numbers of a state block, in order. -/
def ex_decode (c : List Nat) (v : WT_BLOCK_SNAPSHOT) : WT_BLOCK_SNAPSHOT :=
  { v with
    version := c.getD 0 0
    root_offset := c.getD 1 0
    root_size := c.getD 2 0
    root_cksum := c.getD 3 0
    alloc := { v.alloc with offset := c.getD 4 0, size := c.getD 5 0, cksum := c.getD 6 0 }
    avail := { v.avail with offset := c.getD 7 0, size := c.getD 8 0, cksum := c.getD 9 0 }
    discard := { v.discard with offset := c.getD 10 0, size := c.getD 11 0, cksum := c.getD 12 0 }
    file_size := c.getD 13 0
    write_gen := c.getD 14 0 }

/-- The encoder of the example codec. -/
def ex_encode (v : WT_BLOCK_SNAPSHOT) : List Nat :=
  [v.version, v.root_offset, v.root_size, v.root_cksum, v.alloc.offset, v.alloc.size, v.alloc.cksum,
   v.avail.offset, v.avail.size, v.avail.cksum, v.discard.offset, v.discard.size, v.discard.cksum,
   v.file_size, v.write_gen]

/-- The example run parameters: the status script is given, nothing is verbose, writes
land at the end of the file, and the list stored at `(offset, size)` covers the
`size` offsets from `1000 + 10 * offset` on. -/
def ex_env (rc : Nat → Int) : Env :=
  { rc := rc
    verbose := false
    diagnostic := false
    decode := ex_decode
    encode := ex_encode
    ondisk := fun off size => (List.range size).map (fun k => 1000 + 10 * off + k)
    place := fun fh _ => fh
    cksum := fun l => l.length + 7 }

/-- An example block with a file of 100 bytes. -/
def ex_block (live_load verify : Bool) : WT_BLOCK :=
  { name := "f", fh := 100, live_lock := false, live_load := live_load, live := snap_init_value, verify := verify }

/-- An example snapshot-list entry. -/
def ex_entry (name : String) (raw : List Nat) (add delete : Bool) : WT_SNAPSHOT :=
  { name := name, raw := { data := raw, size := raw.length },
    flags := { add := add, delete := delete, update := false }, bpriv := none }

/-- An example machine state. -/
def ex_state (b : WT_BLOCK) (l : List WT_SNAPSHOT) : St :=
  { block := b, snaps := l, dsk := none, ncalls := 0, trace := [], found := false, locked := false, tmp := false }

/-- The cookie of the example snapshot `s1`: three lists on disk, file size 50. -/
def ex_c1 : List Nat := [1, 10, 2, 5, 20, 2, 0, 30, 2, 0, 40, 2, 0, 50, 1]

/-- The cookie of the example snapshot `s2`: an empty alloc list (sentinel locator). -/
def ex_c2 : List Nat := [1, 11, 2, 5, 0, 0, 0, 31, 2, 0, 41, 2, 0, 60, 2]

/-- The cookie of an example snapshot `s2` in whose epoch nothing was allocated and
nothing was freed: its alloc and discard lists have the sentinel locator. -/
def ex_c2_idle : List Nat := [1, 11, 2, 5, 0, 0, 0, 31, 2, 0, 0, 0, 0, 60, 2]

/-- The cookie of the example snapshot `s3`. -/
def ex_c3 : List Nat := [1, 12, 2, 5, 22, 2, 0, 32, 2, 0, 42, 2, 0, 70, 3]

/-- The body ran to its end. -/
def Flow.isNext : Flow → Bool
  | .next _ => true
  | _ => false

/-- The body was left by a `WT_RET`. -/
def Flow.isRet : Flow → Bool
  | .ret _ _ => true
  | _ => false

/-- The body used a null pointer. -/
def Flow.isFault : Flow → Bool
  | .fault _ => true
  | _ => false

/-- A `WT_ERR` exit carries a status that is not zero. -/
def Flow.errNZ : Flow → Prop
  | .err r _ => r ≠ 0
  | _ => True

/-- A `WT_RET` exit carries a status that is not zero. -/
def Flow.retNZ : Flow → Prop
  | .ret r _ => r ≠ 0
  | _ => True

/-- The truncates the load is to issue: one, to the file size in the cookie, when a
cookie is loaded for writing; none otherwise. -/
def load_truncs (env : Env) (addr : Option (List Nat)) (addr_size : Nat) (readonly : Bool) : List Nat :=
  match addr with
  | some a => if addr_size ≠ 0 ∧ readonly = false then [(env.decode a snap_init_value).file_size] else []
  | none => []

/-- The extent lists the load is to read: the avail list of the cookie when a cookie is
loaded for writing; none otherwise. -/
def load_reads (env : Env) (addr : Option (List Nat)) (addr_size : Nat) (readonly : Bool) : List WT_EXTLIST :=
  match addr with
  | some a => if addr_size ≠ 0 ∧ readonly = false then [(env.decode a snap_init_value).avail] else []
  | none => []

/-- The file length the load is to leave: the file size in the cookie when a cookie is
loaded for writing; the length it found otherwise. -/
def load_fh (env : Env) (addr : Option (List Nat)) (addr_size : Nat) (readonly : Bool) (fh : Nat) : Nat :=
  match addr with
  | some a => if addr_size ≠ 0 ∧ readonly = false then (env.decode a snap_init_value).file_size else fh
  | none => fh

/-- The `live_load` flag as the number of loaded live snapshots. -/
def loaded_count (s : St) : Int := if s.block.live_load then 1 else 0

/-- The block is left alone and no truncate and no extent-list read is issued. -/
def Quiet (s s' : St) : Prop :=
  s'.block = s.block ∧ truncs s'.trace = truncs s.trace ∧ reads s'.trace = reads s.trace

/-- The file length is left alone and no truncate and no extent-list read is issued. -/
def NoTrunc (s s' : St) : Prop :=
  s'.block.fh = s.block.fh ∧ truncs s'.trace = truncs s.trace ∧ reads s'.trace = reads s.trace

/-- The example list `[s1 DELETE, s2 ADD]`. -/
def ex_delete_last : List WT_SNAPSHOT :=
  [ex_entry "s1" ex_c1 false true, ex_entry "s2" [] true false]

/-- The example list `[s1 DELETE, s2 DELETE, s3, s4 ADD]`, where the alloc and the discard
list of `s2` have the sentinel locator. -/
def ex_delete_run : List WT_SNAPSHOT :=
  [ex_entry "s1" ex_c1 false true, ex_entry "s2" ex_c2_idle false true, ex_entry "s3" ex_c3 false false,
   ex_entry "s4" [] true false]

/-- The example list `[s1, s2 DELETE, s3, s4 ADD]`. -/
def ex_delete_middle : List WT_SNAPSHOT :=
  [ex_entry "s1" ex_c1 false false, ex_entry "s2" ex_c2 false true, ex_entry "s3" ex_c3 false false,
   ex_entry "s4" [] true false]

/-- The example list `[s1, s2 ADD]`. -/
def ex_keep_first : List WT_SNAPSHOT :=
  [ex_entry "s1" ex_c1 false false, ex_entry "s2" [] true false]

/-- The example list `[s1]`, which lacks the entry to add. -/
def ex_no_add : List WT_SNAPSHOT := [ex_entry "s1" ex_c1 false false]

/-- The in-memory range data of the three lists of the state block of every entry. -/
def priv_bytes (s : St) : List (Option (List Nat × List Nat × List Nat)) :=
  s.snaps.map (fun e => e.bpriv.map (fun v => (v.alloc.bytes, v.avail.bytes, v.discard.bytes)))

/-- The preload pass of `__snapshot_process` as it is run on a state. -/
def preload (env : Env) (s : St) : Flow :=
  forEach (preload_step env) (List.range s.snaps.length) { s with tmp := false, locked := false, found := false }

/-- The load condition of the specification for the entry at index `i`: the entry is
flagged `DELETE`, or `i = 0`, or the entry before it is flagged `DELETE`. -/
def spec_load_cond (l : List WT_SNAPSHOT) (i : Nat) : Bool :=
  ((l[i]?).elim false (fun e => e.flags.delete)) || i == 0
    || ((l[i - 1]?).elim false (fun e => e.flags.delete))

/-! ## Frame conditions of the processing -/

/-- The calls other than `__wt_block_free_ext` and `__wt_block_snapshot_to_buffer`. -/
def Call.plain : Call → Bool
  | .free_ext _ _ _ => false
  | .snapshot_to_buffer _ _ => false
  | _ => true

/-- A step from `s` to `s'` that keeps the length of the snapshot array, changes the
entry at every index `j` within the relation `E j`, and only adds calls that satisfy
`P` to the trace. -/
def Step (E : Nat → WT_SNAPSHOT → WT_SNAPSHOT → Prop) (P : Call → Prop) (s s' : St) : Prop :=
  s'.snaps.length = s.snaps.length ∧
  (∀ j e, s.snaps[j]? = some e → ∃ e', s'.snaps[j]? = some e' ∧ E j e e') ∧
  ∃ t, s'.trace = s.trace ++ t ∧ ∀ c ∈ t, P c

/-- What every step needs of `E` and `P`: `E j` is reflexive and transitive, and `P`
admits the plain calls. -/
structure Frame (E : Nat → WT_SNAPSHOT → WT_SNAPSHOT → Prop) (P : Call → Prop) : Prop where
  refl : ∀ j e, E j e e
  trans : ∀ j a b c, E j a b → E j b c → E j a c
  call : ∀ c, c.plain = true → P c

/-- The relation `E i` admits the store of a state block into `bpriv`. -/
def AdmitsPriv (E : Nat → WT_SNAPSHOT → WT_SNAPSHOT → Prop) (i : Nat) : Prop :=
  ∀ e v, E i e { e with bpriv := some v }

/-- The relation `E j` admits a new cookie in `raw`. -/
def AdmitsRaw (E : Nat → WT_SNAPSHOT → WT_SNAPSHOT → Prop) (j : Nat) : Prop :=
  ∀ e r, E j e { e with raw := r }

/-- The relation `E i` admits setting `WT_SNAP_UPDATE` on an entry that is neither
flagged `ADD` nor `DELETE` and whose `bpriv` is not null. -/
def AdmitsUpdate (E : Nat → WT_SNAPSHOT → WT_SNAPSHOT → Prop) (i : Nat) : Prop :=
  ∀ e, e.bpriv.isSome = true → e.flags.add = false → e.flags.delete = false →
    E i e { e with flags := { e.flags with update := true } }

/-- The relation `E` admits the stores through the pointer `si`. -/
def AdmitsSi (E : Nat → WT_SNAPSHOT → WT_SNAPSHOT → Prop) : Si → Prop
  | .live => True
  | .priv i => AdmitsPriv E i

/-- The predicate `P` admits the frees of regions whose offset is not the sentinel. -/
def AdmitsFree (P : Call → Prop) : Prop :=
  ∀ off size d, off ≠ WT_BLOCK_INVALID_OFFSET → P (.free_ext off size d)

/-- The predicate `P` admits the encoding of a cookie for the entry at index `j`. -/
def AdmitsEncode (P : Call → Prop) (j : Nat) : Prop :=
  ∀ v, P (.snapshot_to_buffer j v)

/-- The entry keeps its `ADD` and `DELETE` flags. -/
def KeepsKind (_ : Nat) (e e' : WT_SNAPSHOT) : Prop :=
  e'.flags.add = e.flags.add ∧ e'.flags.delete = e.flags.delete

/-- The entry keeps its `ADD` and `DELETE` flags, a loaded state block stays loaded,
and `UPDATE` is only set on an entry whose state block is loaded. -/
def KeepsLoaded (_ : Nat) (e e' : WT_SNAPSHOT) : Prop :=
  e'.flags.add = e.flags.add ∧ e'.flags.delete = e.flags.delete ∧
  (e.bpriv.isSome = true → e'.bpriv.isSome = true) ∧
  (e'.flags.update = true → e.flags.update = true ∨ e'.bpriv.isSome = true)

/-- Every entry flagged `DELETE` has its state block loaded, and is followed by an entry
that is flagged `ADD` or has its state block loaded. -/
def DeleteReady (s : St) : Prop :=
  ∀ (i : Nat) (e : WT_SNAPSHOT), s.snaps[i]? = some e → e.flags.delete = true →
    e.bpriv.isSome = true ∧
    ∃ n, s.snaps[i + 1]? = some n ∧ (n.flags.add = true ∨ n.bpriv.isSome = true)

/-- Every entry flagged `UPDATE` has its state block loaded. -/
def UpdateReady (s : St) : Prop :=
  ∀ (i : Nat) (e : WT_SNAPSHOT), s.snaps[i]? = some e → e.flags.update = true → e.bpriv.isSome = true

/-- The test of the first loop of `__snapshot_process` for the entry at index `i`: the
entry is loaded when it is flagged `DELETE`, or when it is not the first entry, is
not flagged `ADD`, and the entry before it is flagged `DELETE`. -/
def load_cond (l : List WT_SNAPSHOT) (i : Nat) : Bool :=
  match l[i]? with
  | none => false
  | some e =>
    e.flags.delete ||
      (i != 0 && !e.flags.add && (match l[i - 1]? with | some p => p.flags.delete | none => false))

/-- The shape the specification gives the snapshot list: exactly one entry is flagged
`ADD` and it is the last, no entry is flagged both `ADD` and `DELETE`, and no entry
is flagged `UPDATE`. -/
def WellFormed (l : List WT_SNAPSHOT) : Prop :=
  (∃ init last, l = init ++ [last] ∧ last.flags.add = true ∧ ∀ e ∈ init, e.flags.add = false) ∧
  (∀ e ∈ l, ¬ (e.flags.add = true ∧ e.flags.delete = true)) ∧
  (∀ e ∈ l, e.flags.update = false)

/-- The invariant of the first loop of `__snapshot_process` started in `s0`, after the
entries with the indices `done`: those of them that meet the load test have their
state block loaded. -/
def PreloadInv (s0 : St) (done : List Nat) (s : St) : Prop :=
  Step KeepsLoaded (fun _ => True) s0 s ∧
  ∀ j ∈ done, load_cond s0.snaps j = true → (s.getSi (.priv j)).isSome = true

/-- The entry at an index that does not meet the load test of the list `l` is left as it
is. -/
def KeepsUnloaded (l : List WT_SNAPSHOT) (j : Nat) (e e' : WT_SNAPSHOT) : Prop :=
  load_cond l j = false → e' = e

/-- The invariant of the first loop of `__snapshot_process` started in `s0`, after the
entries with the indices `done`: the entries that do not meet the load test are as
they were, and `found` is set exactly when one of the entries done meets it. -/
def FoundInv (s0 : St) (done : List Nat) (s : St) : Prop :=
  Step (KeepsUnloaded s0.snaps) (fun _ => True) s0 s ∧
  Step KeepsLoaded (fun _ => True) s0 s ∧
  (s.found = true ↔ ∃ j ∈ done, load_cond s0.snaps j = true)

/-- The free of the root page of a deleted snapshot: an ordinary free, issued when the
root offset is not the sentinel. -/
def root_free (a : WT_BLOCK_SNAPSHOT) : List (Nat × Nat × Bool) :=
  if a.root_offset ≠ WT_BLOCK_INVALID_OFFSET then [(a.root_offset, a.root_size, false)] else []

/-- The free of the region that holds one extent list: a free directly to the avail
list, issued when the offset of the list is not the sentinel. -/
def list_free (el : WT_EXTLIST) : List (Nat × Nat × Bool) :=
  if el.offset ≠ WT_BLOCK_INVALID_OFFSET then [(el.offset, el.size, true)] else []

/-- The frees of the regions that hold the alloc, avail and discard lists of a state
block. -/
def list_frees (v : WT_BLOCK_SNAPSHOT) : List (Nat × Nat × Bool) :=
  list_free v.alloc ++ list_free v.avail ++ list_free v.discard

/-- The frees the deletion loop is to issue for the entry at index `i` in the state `s`:
none when the entry is not flagged `DELETE`; else the root and the three lists of
its state block `A`, and, when the next entry is flagged neither `DELETE` nor `ADD`,
the three lists of the state block `B` of the next entry. -/
def delete_frees (s : St) (i : Nat) : List (Nat × Nat × Bool) :=
  match s.snaps[i]? with
  | none => []
  | some e =>
    if e.flags.delete = false then []
    else
      match e.bpriv with
      | none => []
      | some a =>
        root_free a ++ list_frees a ++
          (if (next_entry s i).flags.delete = true ∨ (next_entry s i).flags.add = true then []
           else (next_entry s i).bpriv.elim [] list_frees)

/-- What the frees of the deletion loop depend on in an entry: the `ADD` and `DELETE`
flags and the locators of the lists of its state block. -/
def entry_obs (e : WT_SNAPSHOT) : Bool × Bool × Option (List (Nat × Nat × Bool)) :=
  (e.flags.add, e.flags.delete, e.bpriv.map list_frees)

/-- A step that changes nothing the frees depend on and issues no free. -/
def SameObs (s s' : St) : Prop :=
  (∀ j : Nat, (s'.snaps[j]?).map entry_obs = (s.snaps[j]?).map entry_obs) ∧
  frees s'.trace = frees s.trace

/-- No free of a region at the sentinel offset. -/
def NoSentinelFree (c : Call) : Prop :=
  ∀ off size d, c = .free_ext off size d → off ≠ WT_BLOCK_INVALID_OFFSET

/-- A failure exit of a body carries a status that is not zero. -/
def Flow.nz : Flow → Prop
  | .err r _ => r ≠ 0
  | .ret r _ => r ≠ 0
  | _ => True

/-! ## Rewritten snapshots -/

/-- The condition under which the entry at index `j` is rewritten: it is not the first
entry, the entry before it is flagged `DELETE`, and it is flagged neither `DELETE`
nor `ADD`. -/
def rewrite_cond (l : List WT_SNAPSHOT) (j : Nat) : Bool :=
  match l[j]? with
  | none => false
  | some e =>
    j != 0 && (match l[j - 1]? with | some p => p.flags.delete | none => false)
      && !e.flags.delete && !e.flags.add

/-- The call does not encode a cookie. -/
def NoEncode (c : Call) : Prop := ∀ k v, c ≠ .snapshot_to_buffer k v

/-- The call does not encode a cookie for the entry at index `j`. -/
def NoEncodeAt (j : Nat) (c : Call) : Prop := ∀ v, c ≠ .snapshot_to_buffer j v

/-- The entry keeps its cookie and its `ADD` and `DELETE` flags. -/
def KeepsRaw (_ : Nat) (e e' : WT_SNAPSHOT) : Prop :=
  e'.raw = e.raw ∧ e'.flags.add = e.flags.add ∧ e'.flags.delete = e.flags.delete

/-- The entry at index `j` is left as it is. -/
def KeepsEntry (j : Nat) (k : Nat) (e e' : WT_SNAPSHOT) : Prop := k = j → e' = e

/-- Only the state block of the entry changes. -/
def KeepsButPriv (_ : Nat) (e e' : WT_SNAPSHOT) : Prop :=
  e'.name = e.name ∧ e'.raw = e.raw ∧ e'.flags = e.flags

/-- The entry is left as it is. -/
def KeepsAll (_ : Nat) (e e' : WT_SNAPSHOT) : Prop := e' = e

/-- An `UPDATE` flag stays set. -/
def UpdateMono (_ : Nat) (e e' : WT_SNAPSHOT) : Prop :=
  e.flags.update = true → e'.flags.update = true

/-- The `ADD` and `DELETE` flags are kept, and `UPDATE` is newly set at most on the entry
after the one at index `i`, and only if that entry is flagged neither `ADD` nor
`DELETE`. -/
def MarksOnly (i : Nat) (k : Nat) (e e' : WT_SNAPSHOT) : Prop :=
  KeepsKind k e e' ∧
  (e'.flags.update = true →
    e.flags.update = true ∨ (k = i + 1 ∧ e.flags.add = false ∧ e.flags.delete = false))

/-- The invariant of the deletion loop started in `s1`: the `ADD` and `DELETE` flags are
those of `s1`, and every entry flagged `UPDATE` meets the rewrite condition. -/
def MarkInv (s1 : St) (_ : List Nat) (s : St) : Prop :=
  Step KeepsKind (fun _ => True) s1 s ∧
  ∀ (k : Nat) (e : WT_SNAPSHOT), s.snaps[k]? = some e → e.flags.update = true →
    rewrite_cond s1.snaps k = true

/-- The invariant of a loop started in `s1` that leaves the entry at index `j` alone and
encodes no cookie for it. -/
def UntouchedInv (j : Nat) (s1 : St) (_ : List Nat) (s : St) : Prop :=
  Step (KeepsEntry j) (NoEncodeAt j) s1 s

/-- The body was left by a `WT_ERR` or a `WT_RET`. -/
def Flow.fails : Flow → Bool
  | .err _ _ => true
  | .ret _ _ => true
  | _ => false

/-! ## What the preload loads -/

/-- A state block after `__wt_block_extlist_read` of one of its lists. -/
def read_one (env : Env) (w : El) (v : WT_BLOCK_SNAPSHOT) : WT_BLOCK_SNAPSHOT :=
  w.set v (extlist_read env (w.get v))

/-- The state block that loading a cookie leaves: the initialized block, with the cookie
decoded into it, and its alloc, avail and discard lists read, in that order. -/
def loaded_block (env : Env) (raw : List Nat) : WT_BLOCK_SNAPSHOT :=
  read_one env .discard (read_one env .avail (read_one env .alloc (env.decode raw snap_init_value)))

/-- The entry with its state block loaded from its cookie. -/
def loaded_entry (env : Env) (e : WT_SNAPSHOT) : WT_SNAPSHOT :=
  { e with bpriv := some (loaded_block env e.raw.data) }

/-- The calls that load the state block of the entry at index `i` from the cookie `raw`:
the allocation of `bpriv`, the decoding of the cookie, and the reads of the alloc,
the avail and the discard list. -/
def preload_calls (env : Env) (i : Nat) (raw : List Nat) : List Call :=
  [.calloc i, .buffer_to_snapshot raw,
   .extlist_read (env.decode raw snap_init_value).alloc,
   .extlist_read (read_one env .alloc (env.decode raw snap_init_value)).avail,
   .extlist_read (read_one env .avail (read_one env .alloc (env.decode raw snap_init_value))).discard]

/-- The calls of the preload pass over the entries with the indices `done` of the list
`l`: the loading calls of every entry that meets the load test, in order. -/
def preload_trace (env : Env) (l : List WT_SNAPSHOT) (done : List Nat) : List Call :=
  done.flatMap (fun j =>
    match l[j]? with
    | some e => if load_cond l j = true then preload_calls env j e.raw.data else []
    | none => [])

/-- The state block of the entry `e` at index `i` was loaded by a pass that made the calls
`t` and ended in `s'`: `bpriv` was allocated, the cookie decoded and the three lists
read (the five calls appear in a row in `t`), and `bpriv` holds the result. -/
def Loaded (env : Env) (i : Nat) (e : WT_SNAPSHOT) (t : List Call) (s' : St) : Prop :=
  List.IsInfix (preload_calls env i e.raw.data) t ∧ s'.snaps[i]? = some (loaded_entry env e)

/-- The invariant of the first loop of `__snapshot_process` started in `s0`, after the
entries with the indices `done`: the entries done that meet the load test are loaded,
the others are as they were, and the calls made are the loading calls of the entries
done. -/
def ExactInv (env : Env) (s0 : St) (done : List Nat) (s : St) : Prop :=
  Step KeepsLoaded (fun _ => True) s0 s ∧
  (∀ j : Nat, s.snaps[j]? =
    (s0.snaps[j]?).map (fun e => if j ∈ done ∧ load_cond s0.snaps j = true then loaded_entry env e else e)) ∧
  s.trace = s0.trace ++ preload_trace env s0.snaps done

/-! ## General lemmas about `Flow` -/

theorem flow_bind_next_iff (x : Flow) (k : St → Flow) (s' : St) :
    x.bind k = .next s' ↔ ∃ s1, x = .next s1 ∧ k s1 = .next s' := by
  cases x <;> simp [Flow.bind]

theorem flow_bind_ret_iff (x : Flow) (k : St → Flow) (r : Int) (s' : St) :
    x.bind k = .ret r s' ↔ x = .ret r s' ∨ ∃ s1, x = .next s1 ∧ k s1 = .ret r s' := by
  cases x <;> simp [Flow.bind]

/-- A transitive relation that holds across `x` and across every continuation holds
across the sequence. -/
theorem flow_bind_rel (R : St → St → Prop) (htrans : ∀ a b c, R a b → R b c → R a c)
    (x : Flow) (k : St → Flow) (s : St) (hx : R s x.st) (hk : ∀ s1, R s1 (k s1).st) :
    R s (x.bind k).st := by
  cases x with
  | next s1 => exact htrans _ _ _ hx (hk s1)
  | err r s1 => exact hx
  | ret r s1 => exact hx
  | fault s1 => exact hx

theorem WT_ERR_rel (R : St → St → Prop) (htrans : ∀ a b c, R a b → R b c → R a c)
    (env : Env) (c : Call) (eff : St → St) (s : St)
    (hcall : R s (s.call env c).2) (heff : ∀ t, R t (eff t)) : R s (WT_ERR env c eff s).st := by
  unfold WT_ERR
  split
  · exact htrans _ _ _ hcall (heff _)
  · exact hcall

theorem WT_RET_rel (R : St → St → Prop) (htrans : ∀ a b c, R a b → R b c → R a c)
    (env : Env) (c : Call) (eff : St → St) (s : St)
    (hcall : R s (s.call env c).2) (heff : ∀ t, R t (eff t)) : R s (WT_RET env c eff s).st := by
  unfold WT_RET
  split
  · exact htrans _ _ _ hcall (heff _)
  · exact hcall

theorem flow_asErr_st (x : Flow) : x.asErr.st = x.st := by
  cases x <;> rfl

theorem truncs_append (a b : List Call) : truncs (a ++ b) = truncs a ++ truncs b := by
  induction a with
  | nil => rfl
  | cons c t ih => cases c <;> simp [truncs, ih]

theorem reads_append (a b : List Call) : reads (a ++ b) = reads a ++ reads b := by
  induction a with
  | nil => rfl
  | cons c t ih => cases c <;> simp [reads, ih]

/-! ## The load and the unload -/

theorem quiet_refl (s : St) : Quiet s s := ⟨rfl, rfl, rfl⟩

theorem quiet_trans (a b c : St) (h1 : Quiet a b) (h2 : Quiet b c) : Quiet a c :=
  ⟨h2.1.trans h1.1, h2.2.1.trans h1.2.1, h2.2.2.trans h1.2.2⟩

theorem snapshot_string_quiet (env : Env) (a : List Nat) (s : St) :
    Quiet s (__snapshot_string env a s).st := by
  unfold __snapshot_string
  repeat (first
    | exact WT_RET_rel Quiet quiet_trans env _ _ _ (by simp [Quiet, St.call, truncs_append, reads_append, truncs, reads]) (fun t => quiet_refl t)
    | refine flow_bind_rel Quiet quiet_trans _ _ _ ?_ (fun s1 => ?_))

theorem load_verbose_quiet (env : Env) (addr : Option (List Nat)) (s : St) :
    Quiet s (load_verbose env addr s).st := by
  unfold load_verbose
  split
  · split
    · refine flow_bind_rel Quiet quiet_trans _ _ _ ?_ (fun s1 => ?_)
      · exact WT_ERR_rel Quiet quiet_trans env _ _ _ (by simp [Quiet, St.call, truncs_append, reads_append, truncs, reads]) (fun t => ⟨rfl, rfl, rfl⟩)
      · rw [flow_asErr_st]; exact snapshot_string_quiet env _ s1
    · exact quiet_refl s
  · exact quiet_refl s

theorem load_root_quiet (env : Env) (a : List Nat) (s : St) :
    Quiet s (load_root env a s).st := by
  unfold load_root
  split
  · refine flow_bind_rel Quiet quiet_trans _ _ _ ?_ (fun s1 => ?_)
    · exact WT_ERR_rel Quiet quiet_trans env _ _ _ (by simp [Quiet, St.call, truncs_append, reads_append, truncs, reads]) (fun t => ⟨rfl, rfl, rfl⟩)
    · split
      · refine flow_bind_rel Quiet quiet_trans _ _ _ ?_ (fun s2 => ?_)
        · split
          · refine flow_bind_rel Quiet quiet_trans _ _ _ ?_ (fun s3 => ?_)
            · exact WT_ERR_rel Quiet quiet_trans env _ _ _ (by simp [Quiet, St.call, truncs_append, reads_append, truncs, reads]) (fun t => ⟨rfl, rfl, rfl⟩)
            · rw [flow_asErr_st]; exact snapshot_string_quiet env _ s3
          · exact quiet_refl s1
        · exact WT_ERR_rel Quiet quiet_trans env _ _ _ (by simp [Quiet, St.call, truncs_append, reads_append, truncs, reads]) (fun t => quiet_refl t)
      · exact quiet_refl s1
  · exact quiet_refl s

theorem flow_bind_isRet (x : Flow) (k : St → Flow) (hx : x.isRet = false)
    (hk : ∀ s1, (k s1).isRet = false) : (x.bind k).isRet = false := by
  cases x with
  | next s1 => exact hk s1
  | err r s1 => rfl
  | ret r s1 => exact hx
  | fault s1 => rfl

theorem flow_bind_isFault (x : Flow) (k : St → Flow) (hx : x.isFault = false)
    (hk : ∀ s1, x = .next s1 → (k s1).isFault = false) : (x.bind k).isFault = false := by
  cases x with
  | next s1 => exact hk s1 rfl
  | err r s1 => rfl
  | ret r s1 => rfl
  | fault s1 => exact hx

theorem WT_ERR_isRet (env : Env) (c : Call) (eff : St → St) (s : St) :
    (WT_ERR env c eff s).isRet = false := by
  unfold WT_ERR; split <;> rfl

theorem WT_ERR_isFault (env : Env) (c : Call) (eff : St → St) (s : St) :
    (WT_ERR env c eff s).isFault = false := by
  unfold WT_ERR; split <;> rfl

theorem WT_RET_isFault (env : Env) (c : Call) (eff : St → St) (s : St) :
    (WT_RET env c eff s).isFault = false := by
  unfold WT_RET; split <;> rfl

theorem flow_asErr_isRet (x : Flow) : x.asErr.isRet = false := by
  cases x <;> rfl

theorem flow_asErr_isFault (x : Flow) : x.asErr.isFault = x.isFault := by
  cases x <;> rfl

theorem snapshot_string_isFault (env : Env) (a : List Nat) (s : St) :
    (__snapshot_string env a s).isFault = false := by
  unfold __snapshot_string
  repeat (first
    | exact WT_RET_isFault env _ _ _
    | refine flow_bind_isFault _ _ ?_ (fun s1 _ => ?_))

theorem load_verbose_isRet (env : Env) (addr : Option (List Nat)) (s : St) :
    (load_verbose env addr s).isRet = false := by
  unfold load_verbose
  split
  · split
    · exact flow_bind_isRet _ _ (WT_ERR_isRet env _ _ _) (fun s1 => flow_asErr_isRet _)
    · rfl
  · rfl

theorem load_verbose_isFault (env : Env) (addr : Option (List Nat)) (s : St) :
    (load_verbose env addr s).isFault = false := by
  unfold load_verbose
  split
  · split
    · refine flow_bind_isFault _ _ (WT_ERR_isFault env _ _ _) (fun s1 _ => ?_)
      rw [flow_asErr_isFault]; exact snapshot_string_isFault env _ _
    · rfl
  · rfl

theorem load_root_isRet (env : Env) (a : List Nat) (s : St) :
    (load_root env a s).isRet = false := by
  unfold load_root
  split
  · refine flow_bind_isRet _ _ (WT_ERR_isRet env _ _ _) (fun s1 => ?_)
    split
    · refine flow_bind_isRet _ _ ?_ (fun s2 => WT_ERR_isRet env _ _ _)
      split
      · exact flow_bind_isRet _ _ (WT_ERR_isRet env _ _ _) (fun s3 => flow_asErr_isRet _)
      · rfl
    · rfl
  · rfl

theorem load_root_isFault (env : Env) (a : List Nat) (s : St) :
    (load_root env a s).isFault = false := by
  unfold load_root
  split
  · refine flow_bind_isFault _ _ (WT_ERR_isFault env _ _ _) (fun s1 _ => ?_)
    split
    · refine flow_bind_isFault _ _ ?_ (fun s2 _ => WT_ERR_isFault env _ _ _)
      split
      · refine flow_bind_isFault _ _ (WT_ERR_isFault env _ _ _) (fun s3 _ => ?_)
        rw [flow_asErr_isFault]; exact snapshot_string_isFault env _ _
      · rfl
    · rfl
  · rfl

theorem load_tail_isRet (env : Env) (a : List Nat) (readonly : Bool) (s : St) :
    (load_tail env a readonly s).isRet = false := by
  unfold load_tail
  refine flow_bind_isRet _ _ (WT_ERR_isRet env _ _ _) (fun s1 => ?_)
  refine flow_bind_isRet _ _ ?_ (fun s2 => ?_)
  · split
    · exact WT_ERR_isRet env _ _ _
    · rfl
  refine flow_bind_isRet _ _ (load_root_isRet env a _) (fun s3 => ?_)
  refine flow_bind_isRet _ _ ?_ (fun s4 => ?_)
  · split
    · exact WT_ERR_isRet env _ _ _
    · rfl
  · split
    · exact WT_ERR_isRet env _ _ _
    · rfl

theorem load_tail_isFault (env : Env) (a : List Nat) (readonly : Bool) (s : St) :
    (load_tail env a readonly s).isFault = false := by
  unfold load_tail
  refine flow_bind_isFault _ _ (WT_ERR_isFault env _ _ _) (fun s1 _ => ?_)
  refine flow_bind_isFault _ _ ?_ (fun s2 _ => ?_)
  · split
    · exact WT_ERR_isFault env _ _ _
    · rfl
  refine flow_bind_isFault _ _ (load_root_isFault env a _) (fun s3 _ => ?_)
  refine flow_bind_isFault _ _ ?_ (fun s4 _ => ?_)
  · split
    · exact WT_ERR_isFault env _ _ _
    · rfl
  · split
    · exact WT_ERR_isFault env _ _ _
    · rfl

/-- What a `WT_RET` exit of the body of the load is: the rejection by
`__wt_block_snap_init` of a load while a snapshot is loaded, or the return of 0
when there is no cookie. -/
theorem load_body_ret (env : Env) (addr : Option (List Nat)) (addr_size : Nat) (readonly : Bool)
    (s : St) (r : Int) (s' : St) (h : load_body env addr addr_size readonly s = .ret r s') :
    (r = EINVAL ∧ s.block.live_load = true ∧ s'.block.live_load = true ∧
        truncs s'.trace = truncs s.trace ∧ s'.block.fh = s.block.fh)
      ∨ (r = 0 ∧ s.block.live_load = false ∧ s'.block.live_load = true ∧
        (addr = none ∨ addr_size = 0) ∧ truncs s'.trace = truncs s.trace ∧ s'.block.fh = s.block.fh) := by
  unfold load_body at h
  rw [flow_bind_ret_iff] at h
  rcases h with h | ⟨s1, h1, h⟩
  · have := load_verbose_isRet env addr { s with tmp := false, dsk := s.dsk.map (fun d => { d with size := 0 }) }
    rw [h] at this; simp [Flow.isRet] at this
  · have hq := load_verbose_quiet env addr { s with tmp := false, dsk := s.dsk.map (fun d => { d with size := 0 }) }
    rw [h1] at hq
    obtain ⟨hb, ht, _⟩ := hq
    simp only [Flow.st] at hb ht
    by_cases hl : s1.block.live_load = true
    · left
      have hl' : s.block.live_load = true := by rw [← hl, hb]
      simp [__wt_block_snap_init, hl, EINVAL] at h
      obtain ⟨hr, hs⟩ := h
      subst hs
      refine ⟨by rw [← hr]; rfl, hl', by simp [hl], ht, ?_⟩
      simp [hb]
    · right
      have hl' : s.block.live_load = false := by
        have : s1.block.live_load = s.block.live_load := by rw [hb]
        rw [← this]; simpa using hl
      simp only [Bool.not_eq_true] at hl
      simp only [__wt_block_snap_init, hl, if_true, St.setSi] at h
      simp only [ne_eq, not_true_eq_false, if_false, Bool.false_eq_true] at h
      cases addr with
      | none =>
        simp at h
        obtain ⟨hr, hs⟩ := h
        subst hs
        exact ⟨hr.symm, hl', rfl, Or.inl rfl, ht, by simp [hb]⟩
      | some a =>
        simp only at h
        by_cases hz : addr_size = 0
        · simp [hz] at h
          obtain ⟨hr, hs⟩ := h
          subst hs
          exact ⟨hr.symm, hl', rfl, Or.inr hz, ht, by simp [hb]⟩
        · simp only [hz, if_false] at h
          have := load_tail_isRet env a readonly
            { s1 with block := { s1.block with live_load := true, live_lock := false, live := snap_init_value } }
          rw [h] at this
          simp [Flow.isRet] at this

theorem flow_bind_errNZ (x : Flow) (k : St → Flow) (hx : x.errNZ)
    (hk : ∀ s1, (k s1).errNZ) : (x.bind k).errNZ := by
  cases x with
  | next s1 => exact hk s1
  | err r s1 => exact hx
  | ret r s1 => trivial
  | fault s1 => trivial

theorem flow_bind_retNZ (x : Flow) (k : St → Flow) (hx : x.retNZ)
    (hk : ∀ s1, (k s1).retNZ) : (x.bind k).retNZ := by
  cases x with
  | next s1 => exact hk s1
  | err r s1 => trivial
  | ret r s1 => exact hx
  | fault s1 => trivial

theorem WT_ERR_errNZ (env : Env) (c : Call) (eff : St → St) (s : St) :
    (WT_ERR env c eff s).errNZ := by
  unfold WT_ERR
  split
  · trivial
  · assumption

theorem WT_RET_retNZ (env : Env) (c : Call) (eff : St → St) (s : St) :
    (WT_RET env c eff s).retNZ := by
  unfold WT_RET
  split
  · trivial
  · assumption

theorem WT_RET_errNZ (env : Env) (c : Call) (eff : St → St) (s : St) :
    (WT_RET env c eff s).errNZ := by
  unfold WT_RET
  split <;> trivial

theorem flow_asErr_errNZ (x : Flow) (h1 : x.errNZ) (h2 : x.retNZ) : x.asErr.errNZ := by
  cases x with
  | next s1 => trivial
  | err r s1 => exact h1
  | ret r s1 => exact h2
  | fault s1 => trivial

theorem snapshot_string_retNZ (env : Env) (a : List Nat) (s : St) :
    (__snapshot_string env a s).retNZ := by
  unfold __snapshot_string
  repeat (first
    | exact WT_RET_retNZ env _ _ _
    | refine flow_bind_retNZ _ _ ?_ (fun s1 => ?_))

theorem snapshot_string_errNZ (env : Env) (a : List Nat) (s : St) :
    (__snapshot_string env a s).errNZ := by
  unfold __snapshot_string
  repeat (first
    | exact WT_RET_errNZ env _ _ _
    | refine flow_bind_errNZ _ _ ?_ (fun s1 => ?_))

theorem load_verbose_errNZ (env : Env) (addr : Option (List Nat)) (s : St) :
    (load_verbose env addr s).errNZ := by
  unfold load_verbose
  split
  · split
    · exact flow_bind_errNZ _ _ (WT_ERR_errNZ env _ _ _)
        (fun s1 => flow_asErr_errNZ _ (snapshot_string_errNZ env _ _) (snapshot_string_retNZ env _ _))
    · trivial
  · trivial

theorem load_root_errNZ (env : Env) (a : List Nat) (s : St) : (load_root env a s).errNZ := by
  unfold load_root
  split
  · refine flow_bind_errNZ _ _ (WT_ERR_errNZ env _ _ _) (fun s1 => ?_)
    split
    · refine flow_bind_errNZ _ _ ?_ (fun s2 => WT_ERR_errNZ env _ _ _)
      split
      · exact flow_bind_errNZ _ _ (WT_ERR_errNZ env _ _ _)
          (fun s3 => flow_asErr_errNZ _ (snapshot_string_errNZ env _ _) (snapshot_string_retNZ env _ _))
      · trivial
    · trivial
  · trivial

theorem load_tail_errNZ (env : Env) (a : List Nat) (readonly : Bool) (s : St) :
    (load_tail env a readonly s).errNZ := by
  unfold load_tail
  refine flow_bind_errNZ _ _ (WT_ERR_errNZ env _ _ _) (fun s1 => ?_)
  refine flow_bind_errNZ _ _ ?_ (fun s2 => ?_)
  · split
    · exact WT_ERR_errNZ env _ _ _
    · trivial
  refine flow_bind_errNZ _ _ (load_root_errNZ env a _) (fun s3 => ?_)
  refine flow_bind_errNZ _ _ ?_ (fun s4 => ?_)
  · split
    · exact WT_ERR_errNZ env _ _ _
    · trivial
  · split
    · exact WT_ERR_errNZ env _ _ _
    · trivial

theorem load_body_errNZ (env : Env) (addr : Option (List Nat)) (addr_size : Nat) (readonly : Bool)
    (s : St) : (load_body env addr addr_size readonly s).errNZ := by
  unfold load_body
  refine flow_bind_errNZ _ _ (load_verbose_errNZ env _ _) (fun s1 => ?_)
  split
  · trivial
  · split
    · trivial
    · split
      · trivial
      · exact load_tail_errNZ env _ _ _

theorem load_body_isFault (env : Env) (addr : Option (List Nat)) (addr_size : Nat) (readonly : Bool)
    (s : St) : (load_body env addr addr_size readonly s).isFault = false := by
  unfold load_body
  refine flow_bind_isFault _ _ (load_verbose_isFault env _ _) (fun s1 _ => ?_)
  split
  · rfl
  · split
    · rfl
    · split
      · rfl
      · exact load_tail_isFault env _ _ _

theorem WT_ERR_next_iff (env : Env) (c : Call) (eff : St → St) (s s' : St) :
    WT_ERR env c eff s = .next s' ↔ env.rc s.ncalls = 0 ∧ s' = eff (s.call env c).2 := by
  unfold WT_ERR
  split
  · rename_i h
    simp only [St.call] at h
    simp [h, eq_comm]
  · rename_i h
    simp only [St.call] at h
    simp [h]

theorem WT_RET_next_iff (env : Env) (c : Call) (eff : St → St) (s s' : St) :
    WT_RET env c eff s = .next s' ↔ env.rc s.ncalls = 0 ∧ s' = eff (s.call env c).2 := by
  unfold WT_RET
  split
  · rename_i h
    simp only [St.call] at h
    simp [h, eq_comm]
  · rename_i h
    simp only [St.call] at h
    simp [h]

/-- What a completed cookie part of the load has done to the file and which
truncates and extent-list reads it has issued. -/
theorem load_tail_next (env : Env) (a : List Nat) (readonly : Bool) (s s' : St)
    (h : load_tail env a readonly s = .next s') :
    (readonly = false →
      s'.block.fh = (env.decode a s.block.live).file_size ∧
      truncs s'.trace = truncs s.trace ++ [(env.decode a s.block.live).file_size] ∧
      reads s'.trace = reads s.trace ++ [(env.decode a s.block.live).avail]) ∧
    (readonly = true →
      s'.block.fh = s.block.fh ∧ truncs s'.trace = truncs s.trace ∧ reads s'.trace = reads s.trace) := by
  unfold load_tail at h
  rw [flow_bind_next_iff] at h
  obtain ⟨s1, h1, h⟩ := h
  rw [flow_bind_next_iff] at h
  obtain ⟨s2, h2, h⟩ := h
  rw [flow_bind_next_iff] at h
  obtain ⟨s3, h3, h⟩ := h
  rw [flow_bind_next_iff] at h
  obtain ⟨s4, h4, h5⟩ := h
  rw [WT_ERR_next_iff] at h1
  obtain ⟨_, h1⟩ := h1
  have e1 : s1.block = { s.block with live := env.decode a s.block.live } := by
    rw [h1]; rfl
  have t1 : truncs s1.trace = truncs s.trace ∧ reads s1.trace = reads s.trace := by
    rw [h1]; simp [St.setSi, St.call, truncs_append, reads_append, truncs, reads]
  have q2 : Quiet s1 s2 := by
    by_cases hv : s1.block.verify = true
    · rw [if_pos hv, WT_ERR_next_iff] at h2
      rw [h2.2]; simp [Quiet, St.call, truncs_append, reads_append, truncs, reads]
    · rw [if_neg hv] at h2
      cases h2; exact quiet_refl _
  have q3 : Quiet s2 s3 := by
    have := load_root_quiet env a s2
    rw [h3] at this; exact this
  have q : Quiet s1 s3 := quiet_trans _ _ _ q2 q3
  obtain ⟨qb, qt, qr⟩ := q
  constructor
  · intro hro
    rw [if_pos hro, WT_ERR_next_iff] at h4 h5
    obtain ⟨_, h4⟩ := h4
    obtain ⟨_, h5⟩ := h5
    have e4 : s4.block = { s3.block with live := { s3.block.live with avail := extlist_read env s3.block.live.avail } } := by
      rw [h4]; rfl
    have t4 : truncs s4.trace = truncs s3.trace ∧ reads s4.trace = reads s3.trace ++ [s3.block.live.avail] := by
      rw [h4]; simp [St.setSi, St.call, truncs_append, reads_append, truncs, reads]
    rw [h5]
    simp only [St.call, truncs_append, reads_append, truncs, reads, e4, t4.1, t4.2, qb, qt, qr, e1, t1.1, t1.2]
    simp
  · intro hro
    have hro' : ¬ (readonly = false) := by simp [hro]
    rw [if_neg hro'] at h4 h5
    cases h4; cases h5
    rw [qb, qt, qr, e1, t1.1, t1.2]
    simp

theorem quiet_noTrunc (s s' : St) (h : Quiet s s') : NoTrunc s s' :=
  ⟨by rw [h.1], h.2.1, h.2.2⟩

theorem load_body_no_cookie (env : Env) (addr : Option (List Nat)) (addr_size : Nat)
    (readonly : Bool) (s : St) (hc : addr = none ∨ addr_size = 0) :
    NoTrunc s (load_body env addr addr_size readonly s).st := by
  unfold load_body
  have hq := load_verbose_quiet env addr { s with tmp := false, dsk := s.dsk.map (fun d => { d with size := 0 }) }
  cases hv : load_verbose env addr { s with tmp := false, dsk := s.dsk.map (fun d => { d with size := 0 }) } with
  | next s1 =>
    rw [hv] at hq
    have hq' := (quiet_noTrunc _ _ hq)
    simp only [Flow.st] at hq'
    simp only [Flow.bind]
    have hi : NoTrunc s (__wt_block_snap_init .live true s1).2 := by
      unfold __wt_block_snap_init
      simp only [if_true]
      split <;> exact ⟨hq'.1, hq'.2.1, hq'.2.2⟩
    split
    · exact hi
    · cases addr with
      | none => exact hi
      | some a =>
        rcases hc with hc | hc
        · cases hc
        · simp only [hc, if_true]; exact hi
  | err r s1 => rw [hv] at hq; exact (quiet_noTrunc _ _ hq)
  | ret r s1 => rw [hv] at hq; exact (quiet_noTrunc _ _ hq)
  | fault s1 => rw [hv] at hq; exact (quiet_noTrunc _ _ hq)

theorem load_body_next (env : Env) (addr : Option (List Nat)) (addr_size : Nat) (readonly : Bool)
    (s s' : St) (h : load_body env addr addr_size readonly s = .next s') :
    ∃ a s1, addr = some a ∧ addr_size ≠ 0 ∧ s.block.live_load = false ∧
      s1.block.live = snap_init_value ∧ s1.block.fh = s.block.fh ∧
      truncs s1.trace = truncs s.trace ∧ reads s1.trace = reads s.trace ∧
      s1.block.live_load = true ∧
      load_tail env a readonly s1 = .next s' := by
  unfold load_body at h
  rw [flow_bind_next_iff] at h
  obtain ⟨s0, h0, h⟩ := h
  have hq := load_verbose_quiet env addr { s with tmp := false, dsk := s.dsk.map (fun d => { d with size := 0 }) }
  rw [h0] at hq
  obtain ⟨hb, ht, hr⟩ := hq
  simp only [Flow.st] at hb ht hr
  by_cases hl : s0.block.live_load = true
  · simp [__wt_block_snap_init, hl, EINVAL] at h
  · simp only [Bool.not_eq_true] at hl
    simp only [__wt_block_snap_init, hl, if_true, St.setSi] at h
    simp only [ne_eq, not_true_eq_false, if_false, Bool.false_eq_true] at h
    cases addr with
    | none => simp at h
    | some a =>
      simp only at h
      by_cases hz : addr_size = 0
      · simp [hz] at h
      · simp only [hz, if_false] at h
        refine ⟨a, _, rfl, hz, ?_, ?_, ?_, ?_, ?_, ?_, h⟩
        · rw [← hl, hb]
        · rfl
        · simp [hb]
        · exact ht
        · exact hr
        · rfl

/-- C5.  A load that succeeded, or that was given no cookie (a null address or a zero
length), has issued exactly the truncates `load_truncs` and the extent-list reads
`load_reads` and left the file at the length `load_fh`: with a cookie that decodes
to the file size `F` a writable load (`readonly = false`) truncates the file to
exactly `F` and reads the avail list, a read-only load issues no truncate and no
extent-list read and leaves the file length alone, and without a cookie no truncate
is issued for either value of `readonly`. -/
theorem load_truncate_effect (env : Env) (addr : Option (List Nat)) (addr_size : Nat)
    (readonly : Bool) (s s' : St) (r : Int)
    (h : __wt_block_snapshot_load env addr addr_size readonly s = .ret r s')
    (hr : r = 0 ∨ addr = none ∨ addr_size = 0) :
    truncs s'.trace = truncs s.trace ++ load_truncs env addr addr_size readonly ∧
    reads s'.trace = reads s.trace ++ load_reads env addr addr_size readonly ∧
    s'.block.fh = load_fh env addr addr_size readonly s.block.fh := by
  by_cases hc : addr = none ∨ addr_size = 0
  · have hn := load_body_no_cookie env addr addr_size readonly s hc
    have e1 : load_truncs env addr addr_size readonly = [] := by
      unfold load_truncs
      rcases hc with hc | hc
      · rw [hc]
      · cases addr <;> simp [hc]
    have e2 : load_reads env addr addr_size readonly = [] := by
      unfold load_reads
      rcases hc with hc | hc
      · rw [hc]
      · cases addr <;> simp [hc]
    have e3 : load_fh env addr addr_size readonly s.block.fh = s.block.fh := by
      unfold load_fh
      rcases hc with hc | hc
      · rw [hc]
      · cases addr <;> simp [hc]
    rw [e1, e2, e3]
    unfold __wt_block_snapshot_load at h
    cases hb : load_body env addr addr_size readonly s with
    | next s1 =>
      rw [hb] at h hn
      simp only [Out.ret.injEq] at h
      rw [← h.2]
      simpa [NoTrunc, Flow.st, and_comm, and_left_comm, and_assoc] using hn
    | err r1 s1 =>
      rw [hb] at h hn
      simp only [Out.ret.injEq] at h
      rw [← h.2]
      simpa [NoTrunc, Flow.st, and_comm, and_left_comm, and_assoc] using hn
    | ret r1 s1 =>
      rw [hb] at h hn
      simp only [Out.ret.injEq] at h
      rw [← h.2]
      simpa [NoTrunc, Flow.st, and_comm, and_left_comm, and_assoc] using hn
    | fault s1 => rw [hb] at h; simp at h
  · have hr0 : r = 0 := by
      rcases hr with hr | hr | hr
      · exact hr
      · exact absurd (Or.inl hr) hc
      · exact absurd (Or.inr hr) hc
    subst hr0
    unfold __wt_block_snapshot_load at h
    cases hb : load_body env addr addr_size readonly s with
    | next s1 =>
      rw [hb] at h
      simp only [Out.ret.injEq, true_and] at h
      obtain ⟨a, s0, ha, hz, _, hlive, hfh, ht, hrd, _, htail⟩ := load_body_next env addr addr_size readonly s s1 hb
      have hn := load_tail_next env a readonly s0 s1 htail
      subst ha
      rw [← h]
      cases readonly with
      | false =>
        obtain ⟨h1, h2, h3⟩ := hn.1 rfl
        simp [load_truncs, load_reads, load_fh, hz, h1, h2, h3, hlive, ht, hrd]
      | true =>
        obtain ⟨h1, h2, h3⟩ := hn.2 rfl
        simp [load_truncs, load_reads, load_fh, h1, h2, h3, hfh, ht, hrd]
    | err r1 s1 =>
      rw [hb] at h
      simp only [Out.ret.injEq] at h
      have := load_body_errNZ env addr addr_size readonly s
      rw [hb] at this
      exact absurd h.1 this
    | ret r1 s1 =>
      rw [hb] at h
      simp only [Out.ret.injEq] at h
      obtain ⟨h1, h2⟩ := h
      subst h1
      rcases load_body_ret env addr addr_size readonly s 0 s1 hb with hx | hx
      · simp [EINVAL] at hx
      · exact absurd hx.2.2.2.1 hc
    | fault s1 => rw [hb] at h; simp at h

/-- Witness of `load_truncate_effect`: loading the example cookie `ex_c1` (file size 50)
for writing into a file of 100 bytes. -/
theorem load_truncate_effect_witness :
    __wt_block_snapshot_load (ex_env fun _ => 0) (some ex_c1) 15 false (ex_state (ex_block false false) [])
      = .ret 0 (__wt_block_snapshot_load (ex_env fun _ => 0) (some ex_c1) 15 false
          (ex_state (ex_block false false) [])).st ∧
    truncs (__wt_block_snapshot_load (ex_env fun _ => 0) (some ex_c1) 15 false
      (ex_state (ex_block false false) [])).st.trace = [50] ∧
    (__wt_block_snapshot_load (ex_env fun _ => 0) (some ex_c1) 15 false
      (ex_state (ex_block false false) [])).st.block.fh = 50 :=
  ⟨rfl,
   (load_truncate_effect (ex_env fun _ => 0) (some ex_c1) 15 false (ex_state (ex_block false false) []) _ 0
      rfl (Or.inl rfl)).1,
   (load_truncate_effect (ex_env fun _ => 0) (some ex_c1) 15 false (ex_state (ex_block false false) []) _ 0
      rfl (Or.inl rfl)).2.2⟩

example : (__wt_block_snapshot_load (ex_env fun _ => 0) (some ex_c1) 15 true
      (ex_state (ex_block false false) [])).st.block.fh = 100 := by decide
/-- C6 (as amended).  When the load returns an error, `live_load` is clear on return,
unless the error is the rejection by `__wt_block_snap_init` of a load while a live
snapshot is loaded: that `WT_RET` leaves with `EINVAL` and `live_load` still set. -/
theorem load_error_live_load (env : Env) (addr : Option (List Nat)) (addr_size : Nat)
    (readonly : Bool) (s s' : St) (r : Int)
    (h : __wt_block_snapshot_load env addr addr_size readonly s = .ret r s') (hr : r ≠ 0) :
    s'.block.live_load = false ∨
      (s.block.live_load = true ∧ r = EINVAL ∧ s'.block.live_load = true) := by
  unfold __wt_block_snapshot_load at h
  cases hb : load_body env addr addr_size readonly s with
  | next s1 =>
    rw [hb] at h
    simp only [Out.ret.injEq] at h
    exact absurd h.1.symm hr
  | err r1 s1 =>
    rw [hb] at h
    simp only [Out.ret.injEq] at h
    left; rw [← h.2]
  | ret r1 s1 =>
    rw [hb] at h
    simp only [Out.ret.injEq] at h
    obtain ⟨h1, h2⟩ := h
    subst h1 h2
    rcases load_body_ret env addr addr_size readonly s r1 s1 hb with hx | hx
    · exact Or.inr ⟨hx.2.1, hx.1, hx.2.2.1⟩
    · exact absurd hx.1 hr
  | fault s1 => rw [hb] at h; simp at h

/-- Witness of `load_error_live_load`: a load whose cookie fails to decode. -/
theorem load_error_live_load_witness :
    __wt_block_snapshot_load (ex_env fun _ => 5) (some ex_c1) 15 false (ex_state (ex_block false false) [])
      = .ret 5 (__wt_block_snapshot_load (ex_env fun _ => 5) (some ex_c1) 15 false
          (ex_state (ex_block false false) [])).st ∧
    ((__wt_block_snapshot_load (ex_env fun _ => 5) (some ex_c1) 15 false
        (ex_state (ex_block false false) [])).st.block.live_load = false ∨
      ((ex_state (ex_block false false) []).block.live_load = true ∧ (5 : Int) = EINVAL ∧
        (__wt_block_snapshot_load (ex_env fun _ => 5) (some ex_c1) 15 false
          (ex_state (ex_block false false) [])).st.block.live_load = true)) :=
  ⟨rfl, load_error_live_load (ex_env fun _ => 5) (some ex_c1) 15 false
    (ex_state (ex_block false false) []) _ 5 rfl (by decide)⟩

/-- Counterexample to C6 as stated: a load on a block whose live snapshot is already
loaded returns the error `EINVAL` and `live_load` is still set on return. -/
theorem load_error_keeps_live_load :
    (__wt_block_snapshot_load (ex_env fun _ => 0) (some ex_c1) 15 false
        (ex_state (ex_block true false) [])).rc = some EINVAL ∧
    EINVAL ≠ 0 ∧
    (__wt_block_snapshot_load (ex_env fun _ => 0) (some ex_c1) 15 false
        (ex_state (ex_block true false) [])).st.block.live_load = true := by
  decide

/-- The live-load flag is the same. -/
theorem load_root_live_load (env : Env) (a : List Nat) (s : St) :
    (load_root env a s).st.block.live_load = s.block.live_load := by
  rw [(load_root_quiet env a s).1]

theorem load_tail_live_load (env : Env) (a : List Nat) (readonly : Bool) (s : St) :
    (load_tail env a readonly s).st.block.live_load = s.block.live_load := by
  unfold load_tail
  refine flow_bind_rel (fun a b => b.block.live_load = a.block.live_load)
    (fun a b c h1 h2 => h2.trans h1) _ _ _ ?_ (fun s1 => ?_)
  · exact WT_ERR_rel (fun a b => b.block.live_load = a.block.live_load)
      (fun a b c h1 h2 => h2.trans h1) env _ _ _ rfl (fun t => rfl)
  refine flow_bind_rel (fun a b => b.block.live_load = a.block.live_load)
    (fun a b c h1 h2 => h2.trans h1) _ _ _ ?_ (fun s2 => ?_)
  · split
    · exact WT_ERR_rel (fun a b => b.block.live_load = a.block.live_load)
        (fun a b c h1 h2 => h2.trans h1) env _ _ _ rfl (fun t => rfl)
    · rfl
  refine flow_bind_rel (fun a b => b.block.live_load = a.block.live_load)
    (fun a b c h1 h2 => h2.trans h1) _ _ _ (load_root_live_load env a _) (fun s3 => ?_)
  refine flow_bind_rel (fun a b => b.block.live_load = a.block.live_load)
    (fun a b c h1 h2 => h2.trans h1) _ _ _ ?_ (fun s4 => ?_)
  · split
    · exact WT_ERR_rel (fun a b => b.block.live_load = a.block.live_load)
        (fun a b c h1 h2 => h2.trans h1) env _ _ _ rfl (fun t => rfl)
    · rfl
  · split
    · exact WT_ERR_rel (fun a b => b.block.live_load = a.block.live_load)
        (fun a b c h1 h2 => h2.trans h1) env _ _ _ rfl (fun t => rfl)
    · rfl

/-- The load with the verbose switch off: it returns, a load while a snapshot is
loaded fails and leaves the flag set, and any other load sets the flag exactly
when it succeeds. -/
theorem load_live_load (env : Env) (hv : env.verbose = false) (addr : Option (List Nat))
    (addr_size : Nat) (readonly : Bool) (s : St) :
    ∃ r s', __wt_block_snapshot_load env addr addr_size readonly s = .ret r s' ∧
      (s.block.live_load = true → r ≠ 0 ∧ s'.block.live_load = true) ∧
      (s.block.live_load = false → (s'.block.live_load = true ↔ r = 0)) := by
  unfold __wt_block_snapshot_load
  cases hb : load_body env addr addr_size readonly s with
  | next s1 =>
    obtain ⟨a, s0, _, _, hl, _, _, _, _, hl0, htail⟩ := load_body_next env addr addr_size readonly s s1 hb
    refine ⟨0, _, rfl, ?_, ?_⟩
    · intro h; rw [hl] at h; cases h
    · intro _
      have := load_tail_live_load env a readonly s0
      rw [htail] at this
      simp only [Flow.st] at this
      simp [this, hl0]
  | err r1 s1 =>
    have hnz := load_body_errNZ env addr addr_size readonly s
    rw [hb] at hnz
    refine ⟨r1, _, rfl, ?_, ?_⟩
    · intro hl
      exfalso
      unfold load_body load_verbose at hb
      simp only [hv, Bool.false_eq_true, if_false, Flow.bind] at hb
      simp [__wt_block_snap_init, hl, EINVAL] at hb
    · intro _
      simp only [Flow.errNZ] at hnz
      simp [hnz]
  | ret r1 s1 =>
    refine ⟨r1, _, rfl, ?_, ?_⟩
    · intro hl
      rcases load_body_ret env addr addr_size readonly s r1 s1 hb with hx | hx
      · exact ⟨by rw [hx.1]; decide, hx.2.2.1⟩
      · rw [hx.2.1] at hl; cases hl
    · intro hl
      rcases load_body_ret env addr addr_size readonly s r1 s1 hb with hx | hx
      · rw [hx.2.1] at hl; cases hl
      · simp [hx.1, hx.2.2.1]
  | fault s1 =>
    have := load_body_isFault env addr addr_size readonly s
    rw [hb] at this
    simp [Flow.isFault] at this

/-- The unload returns and leaves `live_load` clear. -/
theorem unload_live_load (env : Env) (s : St) :
    ∃ r s', __wt_block_snapshot_unload env s = .ret r s' ∧ s'.block.live_load = false := by
  unfold __wt_block_snapshot_unload
  by_cases hl : s.block.live_load = false
  · exact ⟨EINVAL, s, by simp [hl], hl⟩
  · exact ⟨_, _, if_neg hl, rfl⟩

theorem run_ops_loaded_count (env : Env) (hv : env.verbose = false) (ops : List Op) (s : St) :
    loaded_count (run_ops env ops s) = loaded_count s + net_loaded env ops s := by
  induction ops generalizing s with
  | nil => simp [run_ops, net_loaded]
  | cons op ops ih =>
    cases op with
    | load addr addr_size readonly =>
      obtain ⟨r, s', h, h1, h2⟩ := load_live_load env hv addr addr_size readonly s
      simp only [run_ops, net_loaded, Op.run, h, Out.st, Out.rc, ih]
      cases hl : s.block.live_load with
      | true =>
        obtain ⟨hr, hl'⟩ := h1 hl
        simp [loaded_count, hl, hl', hr]
      | false =>
        have := h2 hl
        by_cases hr : r = 0
        · simp [loaded_count, hl, this.2 hr, hr]
        · have hl' : s'.block.live_load = false := by
            cases hx : s'.block.live_load
            · rfl
            · exact absurd (this.1 hx) hr
          simp [loaded_count, hl, hl', hr]
    | unload =>
      obtain ⟨r, s', h, h1⟩ := unload_live_load env s
      simp only [run_ops, net_loaded, Op.run, h, Out.st, ih]
      cases hl : s.block.live_load <;> simp [loaded_count, hl, h1]

/-- C7 (as amended).  With the verbose switch off and starting from `live_load` clear,
after every sequence of load and unload calls, whatever the collaborators return,
`live_load` as a number equals the number of successful loads minus the number of
unload calls that found a live snapshot loaded (such a call unloads it even when
it returns the error of the verify cleanup), and that number is 0 or 1. -/
theorem load_unload_single_live (env : Env) (ops : List Op) (s : St)
    (hv : env.verbose = false) (h0 : s.block.live_load = false) :
    loaded_count (run_ops env ops s) = net_loaded env ops s ∧
      (net_loaded env ops s = 0 ∨ net_loaded env ops s = 1) := by
  have h := run_ops_loaded_count env hv ops s
  have hz : loaded_count s = 0 := by simp [loaded_count, h0]
  rw [hz, zero_add] at h
  refine ⟨h, ?_⟩
  rw [← h]
  unfold loaded_count
  split
  · right; rfl
  · left; rfl

/-- Witness of `load_unload_single_live`: a load, an unload whose verify cleanup fails,
an unload with nothing loaded, and a load. -/
theorem load_unload_single_live_witness :
    (ex_env fun n => if n = 0 then 5 else 0).verbose = false ∧
    (ex_state (ex_block false true) []).block.live_load = false ∧
    loaded_count (run_ops (ex_env fun n => if n = 0 then 5 else 0)
      [.load none 0 false, .unload, .unload, .load none 0 false] (ex_state (ex_block false true) []))
      = net_loaded (ex_env fun n => if n = 0 then 5 else 0)
        [.load none 0 false, .unload, .unload, .load none 0 false] (ex_state (ex_block false true) []) ∧
    net_loaded (ex_env fun n => if n = 0 then 5 else 0)
        [.load none 0 false, .unload, .unload, .load none 0 false] (ex_state (ex_block false true) []) = 1 :=
  ⟨rfl, rfl,
   (load_unload_single_live (ex_env fun n => if n = 0 then 5 else 0)
      [.load none 0 false, .unload, .unload, .load none 0 false] (ex_state (ex_block false true) []) rfl rfl).1,
   by decide⟩

/-- Counterexample to C7 as stated: after a successful load and an unload whose verify
cleanup fails, `live_load` is clear, while the number of successful loads minus the
number of successful unloads is 1. -/
theorem unload_failure_unloads :
    (ex_state (ex_block false true) []).block.live_load = false ∧
    loaded_count (run_ops (ex_env fun _ => 5) [.load none 0 false, .unload]
      (ex_state (ex_block false true) [])) = 0 ∧
    net_loads (ex_env fun _ => 5) [.load none 0 false, .unload] (ex_state (ex_block false true) []) = 1 := by
  decide

/-- C1 (the code at the failing input).  On `[s1 DELETE, s2 ADD]`, when every
collaborator succeeds but the truncation of the live avail list in the final `ADD`
step (the thirteenth call), `__snapshot_process` returns the error with the live
lock still held and the extent lists of the state block of `s1` still in memory;
when instead the call before it (the reuse-match) or the call after it (the first
extent-list write of `__snapshot_update`) fails, the lock is released and the lists
are discarded. -/
theorem truncate_failure_skips_cleanup :
    ((__snapshot_process (ex_env fun n => if n = 12 then 5 else 0)
        (ex_state (ex_block true false) ex_delete_last)).rc = some 5 ∧
      (__snapshot_process (ex_env fun n => if n = 12 then 5 else 0)
        (ex_state (ex_block true false) ex_delete_last)).st.trace.getLast? = some .extlist_truncate ∧
      (__snapshot_process (ex_env fun n => if n = 12 then 5 else 0)
        (ex_state (ex_block true false) ex_delete_last)).st.block.live_lock = true ∧
      priv_bytes (__snapshot_process (ex_env fun n => if n = 12 then 5 else 0)
        (ex_state (ex_block true false) ex_delete_last)).st
        = [some ([1200, 1201], [1300, 1301], [1400, 1401]), none]) ∧
    ((__snapshot_process (ex_env fun n => if n = 11 then 5 else 0)
        (ex_state (ex_block true false) ex_delete_last)).rc = some 5 ∧
      (__snapshot_process (ex_env fun n => if n = 11 then 5 else 0)
        (ex_state (ex_block true false) ex_delete_last)).st.block.live_lock = false ∧
      priv_bytes (__snapshot_process (ex_env fun n => if n = 11 then 5 else 0)
        (ex_state (ex_block true false) ex_delete_last)).st = [some ([], [], []), none]) ∧
    ((__snapshot_process (ex_env fun n => if n = 13 then 5 else 0)
        (ex_state (ex_block true false) ex_delete_last)).rc = some 5 ∧
      (__snapshot_process (ex_env fun n => if n = 13 then 5 else 0)
        (ex_state (ex_block true false) ex_delete_last)).st.block.live_lock = false ∧
      priv_bytes (__snapshot_process (ex_env fun n => if n = 13 then 5 else 0)
        (ex_state (ex_block true false) ex_delete_last)).st = [some ([], [], []), none]) := by
  refine ⟨⟨?_, ?_, ?_, ?_⟩, ⟨?_, ?_, ?_⟩, ⟨?_, ?_, ?_⟩⟩ <;> decide

/-- C2 (the code at the failing input).  On `[s1 DELETE, s2 DELETE, s3, s4 ADD]` with
every collaborator succeeding, where the preload reads the alloc list `[1200, 1201]`
and the discard list `[1400, 1401]` for `s1`, neither for `s2` (sentinel locators) and
`[1220, 1221]` and `[1420, 1421]` for `s3`: the processing succeeds, the reuse-match
runs once, on `s3`, and the alloc and discard lists it finds there are those of `s3`
alone; the ranges of `s1`, merged into `s2` in memory, were not carried on into
`s3`. -/
theorem delete_run_drops_alloc :
    priv_bytes (preload (ex_env fun _ => 0) (ex_state (ex_block true false) ex_delete_run)).st
      = [some ([1200, 1201], [1300, 1301], [1400, 1401]), some ([], [1310, 1311], []),
         some ([1220, 1221], [1320, 1321], [1420, 1421]), none] ∧
    (__snapshot_process (ex_env fun _ => 0) (ex_state (ex_block true false) ex_delete_run)).rc = some 0 ∧
    (matched (__snapshot_process (ex_env fun _ => 0)
        (ex_state (ex_block true false) ex_delete_run)).st.trace).map
      (fun p => (p.1, p.2.alloc.bytes, p.2.discard.bytes))
      = [(.priv 2, [1220, 1221], [1420, 1421])] := by
  refine ⟨?_, ?_, ?_⟩ <;> decide

/-- Counterexample to C8 as stated: the snapshot list `[s1]` has no entry flagged `ADD`,
and the snapshot operation on it returns 0. -/
theorem missing_add_returns_success :
    (∀ e ∈ (ex_state (ex_block true false) ex_no_add).snaps, e.flags.add = false) ∧
    (__wt_block_snapshot (ex_env fun _ => 0) none (ex_state (ex_block true false) ex_no_add)).rc = some 0 ∧
    (0 : Int) ≠ EINVAL := by
  refine ⟨?_, ?_, ?_⟩ <;> decide

/-- Counterexample to C9 as stated: on `[s1, s2 ADD]` the preload pass completes, the
entry at index 0 is not flagged `ADD` and satisfies the load condition of the
specification (`i = 0`), and its state block is not loaded. -/
theorem preload_skips_first_entry :
    (preload (ex_env fun _ => 0) (ex_state (ex_block true false) ex_keep_first)).isNext = true ∧
    (ex_keep_first[0]?).map (fun e => e.flags.add) = some false ∧
    spec_load_cond ex_keep_first 0 = true ∧
    (preload (ex_env fun _ => 0) (ex_state (ex_block true false) ex_keep_first)).st.getSi (.priv 0) = none ∧
    (preload (ex_env fun _ => 0) (ex_state (ex_block true false) ex_keep_first)).st.trace = [] := by
  refine ⟨?_, ?_, ?_, ?_, ?_⟩ <;> decide

/-! ## Frame conditions of the processing -/

theorem step_refl {E : Nat → WT_SNAPSHOT → WT_SNAPSHOT → Prop} {P : Call → Prop} (F : Frame E P)
    (s : St) : Step E P s s :=
  ⟨rfl, fun j e h => ⟨e, h, F.refl j e⟩, [], by simp, by simp⟩

theorem step_trans {E : Nat → WT_SNAPSHOT → WT_SNAPSHOT → Prop} {P : Call → Prop} (F : Frame E P)
    (a b c : St) (h1 : Step E P a b) (h2 : Step E P b c) : Step E P a c := by
  obtain ⟨l1, e1, t1, ht1, p1⟩ := h1
  obtain ⟨l2, e2, t2, ht2, p2⟩ := h2
  refine ⟨l2.trans l1, ?_, t1 ++ t2, by rw [ht2, ht1, List.append_assoc], ?_⟩
  · intro j e h
    obtain ⟨e', h', r1⟩ := e1 j e h
    obtain ⟨e'', h'', r2⟩ := e2 j e' h'
    exact ⟨e'', h'', F.trans j _ _ _ r1 r2⟩
  · intro c hc
    rcases List.mem_append.mp hc with hc | hc
    · exact p1 c hc
    · exact p2 c hc

/-- A step that leaves the snapshot array and the trace alone. -/
theorem step_of_eq {E : Nat → WT_SNAPSHOT → WT_SNAPSHOT → Prop} {P : Call → Prop} (F : Frame E P)
    (s s' : St) (h1 : s'.snaps = s.snaps) (h2 : s'.trace = s.trace) : Step E P s s' :=
  ⟨by rw [h1], fun j e h => ⟨e, by rw [h1]; exact h, F.refl j e⟩, [], by simp [h2], by simp⟩

/-- A step that replaces the entry at index `i`. -/
theorem step_of_set {E : Nat → WT_SNAPSHOT → WT_SNAPSHOT → Prop} {P : Call → Prop} (F : Frame E P)
    (s s' : St) (i : Nat) (e e' : WT_SNAPSHOT) (hi : s.snaps[i]? = some e) (hE : E i e e')
    (h1 : s'.snaps = s.snaps.set i e') (h2 : s'.trace = s.trace) : Step E P s s' := by
  refine ⟨by rw [h1, List.length_set], ?_, [], by simp [h2], by simp⟩
  intro j x hx
  rw [h1]
  by_cases hij : i = j
  · subst hij
    rw [hi] at hx
    cases hx
    have hlt : i < s.snaps.length := by
      rcases List.getElem?_eq_some_iff.mp hi with ⟨h, _⟩
      exact h
    exact ⟨e', by simp [List.getElem?_set, hlt], hE⟩
  · exact ⟨x, by simp [List.getElem?_set, hij, hx], F.refl j x⟩

theorem step_call {E : Nat → WT_SNAPSHOT → WT_SNAPSHOT → Prop} {P : Call → Prop} (F : Frame E P)
    (env : Env) (c : Call) (s : St) (hc : P c) : Step E P s (s.call env c).2 :=
  ⟨rfl, fun j e h => ⟨e, h, F.refl j e⟩, [c], rfl, by simpa using hc⟩

theorem step_setSi {E : Nat → WT_SNAPSHOT → WT_SNAPSHOT → Prop} {P : Call → Prop} (F : Frame E P)
    (si : Si) (hsi : AdmitsSi E si) (v : WT_BLOCK_SNAPSHOT) (s : St) : Step E P s (s.setSi si v) := by
  cases si with
  | live => exact step_of_eq F _ _ rfl rfl
  | priv i =>
    simp only [St.setSi]
    cases he : s.snaps[i]? with
    | some e => exact step_of_set F _ _ i e _ he (hsi e v) rfl rfl
    | none => exact step_refl F s

theorem step_modSi {E : Nat → WT_SNAPSHOT → WT_SNAPSHOT → Prop} {P : Call → Prop} (F : Frame E P)
    (si : Si) (hsi : AdmitsSi E si) (f : WT_BLOCK_SNAPSHOT → WT_BLOCK_SNAPSHOT) (s : St) :
    Step E P s (s.modSi si f) := by
  unfold St.modSi
  split
  · exact step_setSi F si hsi _ s
  · exact step_refl F s

theorem step_bind {E : Nat → WT_SNAPSHOT → WT_SNAPSHOT → Prop} {P : Call → Prop} (F : Frame E P)
    (x : Flow) (k : St → Flow) (s : St) (hx : Step E P s x.st)
    (hk : ∀ s1, x = .next s1 → Step E P s1 (k s1).st) : Step E P s (x.bind k).st := by
  cases x with
  | next s1 => exact step_trans F _ _ _ hx (hk s1 rfl)
  | err r s1 => exact hx
  | ret r s1 => exact hx
  | fault s1 => exact hx

theorem step_WT_ERR {E : Nat → WT_SNAPSHOT → WT_SNAPSHOT → Prop} {P : Call → Prop} (F : Frame E P)
    (env : Env) (c : Call) (eff : St → St) (s : St) (hc : P c) (heff : ∀ t, Step E P t (eff t)) :
    Step E P s (WT_ERR env c eff s).st := by
  unfold BlockSnap.WT_ERR
  split
  · exact step_trans F _ _ _ (step_call F env c s hc) (heff _)
  · exact step_call F env c s hc

theorem step_WT_RET {E : Nat → WT_SNAPSHOT → WT_SNAPSHOT → Prop} {P : Call → Prop} (F : Frame E P)
    (env : Env) (c : Call) (eff : St → St) (s : St) (hc : P c) (heff : ∀ t, Step E P t (eff t)) :
    Step E P s (WT_RET env c eff s).st := by
  unfold BlockSnap.WT_RET
  split
  · exact step_trans F _ _ _ (step_call F env c s hc) (heff _)
  · exact step_call F env c s hc

theorem step_forEach {E : Nat → WT_SNAPSHOT → WT_SNAPSHOT → Prop} {P : Call → Prop} (F : Frame E P)
    (f : Nat → St → Flow) (l : List Nat) (hf : ∀ i ∈ l, ∀ s, Step E P s (f i s).st) (s : St) :
    Step E P s (forEach f l s).st := by
  induction l generalizing s with
  | nil => exact step_refl F s
  | cons i is ih =>
    unfold BlockSnap.forEach
    exact step_bind F _ _ _ (hf i (List.mem_cons_self _ _) s)
      (fun s1 _ => ih (fun j hj => hf j (List.mem_cons_of_mem _ hj)) s1)

theorem step_snapshot_string {E : Nat → WT_SNAPSHOT → WT_SNAPSHOT → Prop} {P : Call → Prop}
    (F : Frame E P) (env : Env) (a : List Nat) (s : St) :
    Step E P s (__snapshot_string env a s).st := by
  unfold __snapshot_string
  repeat (first
    | exact step_WT_RET F env _ _ _ (F.call _ rfl) (fun t => step_refl F t)
    | refine step_bind F _ _ _ ?_ (fun s1 _ => ?_))

theorem flow_asErr_next_iff (x : Flow) (s' : St) : x.asErr = .next s' ↔ x = .next s' := by
  cases x <;> simp [Flow.asErr]

theorem step_delete_verbose {E : Nat → WT_SNAPSHOT → WT_SNAPSHOT → Prop} {P : Call → Prop}
    (F : Frame E P) (env : Env) (a : List Nat) (s : St) :
    Step E P s (delete_verbose env a s).st := by
  unfold BlockSnap.delete_verbose
  split
  · refine step_bind F _ _ _ ?_ (fun s1 _ => ?_)
    · exact step_WT_ERR F env _ _ _ (F.call _ rfl) (fun t => step_of_eq F _ _ rfl rfl)
    · have h := step_snapshot_string F env a s1
      cases hx : __snapshot_string env a s1 <;> rw [hx] at h <;>
        exact step_trans F _ _ _ h (step_of_eq F _ _ rfl rfl)
  · exact step_refl F s

theorem step_update_verbose {E : Nat → WT_SNAPSHOT → WT_SNAPSHOT → Prop} {P : Call → Prop}
    (F : Frame E P) (env : Env) (j : Nat) (s : St) :
    Step E P s (update_verbose env j s).st := by
  unfold BlockSnap.update_verbose
  split
  · refine step_bind F _ _ _ ?_ (fun s1 _ => ?_)
    · exact step_WT_RET F env _ _ _ (F.call _ rfl) (fun t => step_of_eq F _ _ rfl rfl)
    · have h := step_snapshot_string F env ((s1.snaps[j]?).elim [] (fun e => e.raw.data)) s1
      cases hx : __snapshot_string env ((s1.snaps[j]?).elim [] (fun e => e.raw.data)) s1 <;>
        rw [hx] at h <;> exact step_trans F _ _ _ h (step_of_eq F _ _ rfl rfl)
  · exact step_refl F s

theorem step_init_priv {E : Nat → WT_SNAPSHOT → WT_SNAPSHOT → Prop} {P : Call → Prop}
    (F : Frame E P) (i : Nat) (hi : AdmitsPriv E i) (s : St) :
    Step E P s (init_priv i s).st := by
  unfold BlockSnap.init_priv __wt_block_snap_init
  simp only [Bool.false_eq_true, if_false, if_true]
  exact step_setSi F (.priv i) hi _ s

theorem step_read_list {E : Nat → WT_SNAPSHOT → WT_SNAPSHOT → Prop} {P : Call → Prop}
    (F : Frame E P) (env : Env) (si : Si) (hsi : AdmitsSi E si) (w : El) (s : St) :
    Step E P s (read_list env si w s).st := by
  unfold BlockSnap.read_list
  split
  · exact step_refl F s
  · exact step_WT_ERR F env _ _ _ (F.call _ rfl) (fun t => step_modSi F si hsi _ t)

theorem step_calloc_effect {E : Nat → WT_SNAPSHOT → WT_SNAPSHOT → Prop} {P : Call → Prop}
    (F : Frame E P) (i : Nat) (hi : AdmitsPriv E i) (s : St) :
    Step E P s (calloc_effect i s) := by
  unfold BlockSnap.calloc_effect
  cases he : s.snaps[i]? with
  | some e => exact step_of_set F _ _ i e _ he (hi e _) rfl rfl
  | none => exact step_refl F s

theorem step_preload_step {E : Nat → WT_SNAPSHOT → WT_SNAPSHOT → Prop} {P : Call → Prop}
    (F : Frame E P) (env : Env) (i : Nat) (hi : AdmitsPriv E i) (s : St) :
    Step E P s (preload_step env i s).st := by
  unfold BlockSnap.preload_step
  split
  · exact step_refl F s
  · split
    · exact step_refl F s
    · refine step_bind F _ _ _ ?_ (fun s1 _ => ?_)
      · exact step_trans F _ _ _ (step_of_eq F s { s with found := true } rfl rfl)
          (step_WT_ERR F env _ _ _ (F.call _ rfl) (fun t => step_calloc_effect F i hi t))
      refine step_bind F _ _ _ (step_init_priv F i hi s1) (fun s2 _ => ?_)
      refine step_bind F _ _ _ ?_ (fun s3 _ => ?_)
      · exact step_WT_ERR F env _ _ _ (F.call _ rfl) (fun t => step_modSi F (.priv i) hi _ t)
      refine step_bind F _ _ _ (step_read_list F env (.priv i) hi _ s3) (fun s4 _ => ?_)
      refine step_bind F _ _ _ (step_read_list F env (.priv i) hi _ s4) (fun s5 _ => ?_)
      exact step_read_list F env (.priv i) hi _ s5

theorem step_free_region {E : Nat → WT_SNAPSHOT → WT_SNAPSHOT → Prop} {P : Call → Prop}
    (F : Frame E P) (hfree : AdmitsFree P) (env : Env) (off size : Nat) (d : Bool) (s : St) :
    Step E P s (free_region env off size d s).st := by
  unfold BlockSnap.free_region
  split
  · rename_i h
    exact step_WT_ERR F env _ _ _ (hfree off size d h) (fun t => step_of_eq F _ _ rfl rfl)
  · exact step_refl F s

theorem step_free_lists {E : Nat → WT_SNAPSHOT → WT_SNAPSHOT → Prop} {P : Call → Prop}
    (F : Frame E P) (hfree : AdmitsFree P) (env : Env) (v : WT_BLOCK_SNAPSHOT) (s : St) :
    Step E P s (free_lists env v s).st := by
  unfold BlockSnap.free_lists
  refine step_bind F _ _ _ (step_free_region F hfree env _ _ _ s) (fun s1 _ => ?_)
  refine step_bind F _ _ _ (step_free_region F hfree env _ _ _ s1) (fun s2 _ => ?_)
  exact step_free_region F hfree env _ _ _ s2

theorem step_merge_list {E : Nat → WT_SNAPSHOT → WT_SNAPSHOT → Prop} {P : Call → Prop}
    (F : Frame E P) (env : Env) (a : WT_BLOCK_SNAPSHOT) (b : Si) (hb : AdmitsSi E b) (w : El) (s : St) :
    Step E P s (merge_list env a b w s).st := by
  unfold BlockSnap.merge_list
  split
  · split
    · exact step_refl F s
    · exact step_WT_ERR F env _ _ _ (F.call _ rfl) (fun t => step_modSi F b hb _ t)
  · exact step_refl F s

theorem step_match_lists {E : Nat → WT_SNAPSHOT → WT_SNAPSHOT → Prop} {P : Call → Prop}
    (F : Frame E P) (env : Env) (b : Si) (hb : AdmitsSi E b) (s : St) :
    Step E P s (match_lists env b s).st := by
  unfold BlockSnap.match_lists
  split
  · exact step_refl F s
  · exact step_WT_ERR F env _ _ _ (F.call _ rfl) (fun t => step_modSi F b hb _ t)

theorem admitsSi_to_si {E : Nat → WT_SNAPSHOT → WT_SNAPSHOT → Prop} (i : Nat)
    (hi : AdmitsPriv E (i + 1)) (s : St) : AdmitsSi E (to_si s i) := by
  unfold to_si
  split
  · trivial
  · exact hi

/-- The frees leave the snapshot array alone. -/
theorem free_region_snaps (env : Env) (off size : Nat) (d : Bool) (s : St) :
    (free_region env off size d s).st.snaps = s.snaps := by
  unfold free_region
  split
  · exact WT_ERR_rel (fun a b => b.snaps = a.snaps) (fun a b c h1 h2 => h2.trans h1) env _ _ _ rfl
      (fun t => rfl)
  · rfl

theorem free_lists_snaps (env : Env) (v : WT_BLOCK_SNAPSHOT) (s : St) :
    (free_lists env v s).st.snaps = s.snaps := by
  unfold free_lists
  refine flow_bind_rel (fun a b => b.snaps = a.snaps) (fun a b c h1 h2 => h2.trans h1) _ _ _
    (free_region_snaps env _ _ _ s) (fun s1 => ?_)
  refine flow_bind_rel (fun a b => b.snaps = a.snaps) (fun a b c h1 h2 => h2.trans h1) _ _ _
    (free_region_snaps env _ _ _ s1) (fun s2 => ?_)
  exact free_region_snaps env _ _ _ s2

theorem step_mark_update {E : Nat → WT_SNAPSHOT → WT_SNAPSHOT → Prop} {P : Call → Prop}
    (F : Frame E P) (i : Nat) (hu : AdmitsUpdate E (i + 1)) (s : St) (b : WT_BLOCK_SNAPSHOT)
    (hb : s.getSi (.priv (i + 1)) = some b) (hadd : (next_entry s i).flags.add = false)
    (hdel : (next_entry s i).flags.delete = false) :
    Step E P s (mark_update i s) := by
  unfold BlockSnap.mark_update
  cases he : s.snaps[i + 1]? with
  | none => exact step_refl F s
  | some e =>
    simp only [St.getSi, he, Option.some_bind] at hb
    simp only [next_entry, he, Option.getD_some] at hadd hdel
    exact step_of_set F _ _ (i + 1) e _ he (hu e (by simp [hb]) hadd hdel) rfl rfl

theorem frame_keepsKind : Frame KeepsKind (fun _ => True) :=
  ⟨fun _ _ => ⟨rfl, rfl⟩, fun _ _ _ _ h1 h2 => ⟨h2.1.trans h1.1, h2.2.trans h1.2⟩, fun _ _ => trivial⟩

theorem admitsSi_keepsKind (si : Si) : AdmitsSi KeepsKind si := by
  cases si with
  | live => trivial
  | priv i => exact fun _ _ => ⟨rfl, rfl⟩

/-- A step that keeps the `ADD` and `DELETE` flags keeps those of the entry `snap + 1`,
the terminator included. -/
theorem step_next_entry_kind {P : Call → Prop} (s s' : St) (h : Step KeepsKind P s s') (i : Nat) :
    (next_entry s' i).flags.add = (next_entry s i).flags.add ∧
      (next_entry s' i).flags.delete = (next_entry s i).flags.delete := by
  obtain ⟨hl, he, _⟩ := h
  unfold next_entry
  cases hx : s.snaps[i + 1]? with
  | some e =>
    obtain ⟨e', he', hk⟩ := he (i + 1) e hx
    simp [he', hk.1, hk.2]
  | none =>
    have : s'.snaps[i + 1]? = none := by
      rw [List.getElem?_eq_none_iff] at hx ⊢
      omega
    simp [this]

theorem step_delete_step {E : Nat → WT_SNAPSHOT → WT_SNAPSHOT → Prop} {P : Call → Prop}
    (F : Frame E P) (hfree : AdmitsFree P) (env : Env) (i : Nat) (hi : AdmitsPriv E (i + 1))
    (hu : AdmitsUpdate E (i + 1)) (s : St) :
    Step E P s (delete_step env i s).st := by
  unfold BlockSnap.delete_step
  split
  · exact step_refl F s
  · split
    · exact step_refl F s
    · refine step_bind F _ _ _ (step_delete_verbose F env _ s) (fun s1 _ => ?_)
      split
      · exact step_refl F s1
      · refine step_bind F _ _ _ (step_free_region F hfree env _ _ _ s1) (fun s2 _ => ?_)
        refine step_bind F _ _ _ (step_free_lists F hfree env _ s2) (fun s3 _ => ?_)
        refine step_bind F _ _ _ (step_merge_list F env _ _ (admitsSi_to_si i hi s3) _ s3) (fun s4 _ => ?_)
        refine step_bind F _ _ _ (step_merge_list F env _ _ (admitsSi_to_si i hi s4) _ s4) (fun s5 _ => ?_)
        by_cases hdel : (next_entry s5 i).flags.delete = true
        · rw [if_pos hdel]; exact step_refl F s5
        · rw [if_neg hdel]
          refine step_bind F _ _ _ (step_match_lists F env _ (admitsSi_to_si i hi s5) s5) (fun s6 h6 => ?_)
          have hk := step_match_lists frame_keepsKind env (to_si s5 i) (admitsSi_keepsKind _) s5
          rw [h6] at hk
          have hk6 := step_next_entry_kind s5 s6 hk i
          by_cases hadd : (next_entry s6 i).flags.add = true
          · rw [if_pos hadd]; exact step_refl F s6
          · rw [if_neg hadd]
            cases hb : s6.getSi (to_si s6 i) with
            | none => exact step_refl F s6
            | some b =>
              simp only
              have hto : to_si s6 i = .priv (i + 1) := by
                unfold to_si; simp [hadd]
              rw [hto] at hb
              refine step_bind F _ _ _ (step_free_lists F hfree env b s6) (fun s7 h7 => ?_)
              have hs : s7.snaps = s6.snaps := by
                have := free_lists_snaps env b s6
                rw [h7] at this; exact this
              refine step_mark_update F i hu s7 b ?_ ?_ ?_
              · simpa [St.getSi, hs] using hb
              · simpa [next_entry, hs] using hadd
              · rw [← hk6.2] at hdel
                simpa [next_entry, hs] using hdel

theorem step_check_lists {E : Nat → WT_SNAPSHOT → WT_SNAPSHOT → Prop} {P : Call → Prop}
    (F : Frame E P) (env : Env) (si : Si) (s : St) :
    Step E P s (check_lists env si s).st := by
  unfold BlockSnap.check_lists
  split
  · split
    · exact step_refl F s
    · exact step_WT_RET F env _ _ _ (F.call _ rfl) (fun t => step_refl F t)
  · exact step_refl F s

theorem step_write_effect {E : Nat → WT_SNAPSHOT → WT_SNAPSHOT → Prop} {P : Call → Prop}
    (F : Frame E P) (env : Env) (si : Si) (hsi : AdmitsSi E si) (w : El) (s : St) :
    Step E P s (write_effect env si w s) := by
  unfold BlockSnap.write_effect
  split
  · exact step_trans F _ _ _ (step_setSi F si hsi _ s) (step_of_eq F _ _ rfl rfl)
  · exact step_refl F s

theorem step_write_list {E : Nat → WT_SNAPSHOT → WT_SNAPSHOT → Prop} {P : Call → Prop}
    (F : Frame E P) (env : Env) (si : Si) (hsi : AdmitsSi E si) (w : El) (s : St) :
    Step E P s (write_list env si w s).st := by
  unfold BlockSnap.write_list
  split
  · exact step_refl F s
  · exact step_WT_RET F env _ _ _ (F.call _ rfl) (fun t => step_write_effect F env si hsi w t)

theorem step_raw_init {E : Nat → WT_SNAPSHOT → WT_SNAPSHOT → Prop} {P : Call → Prop}
    (F : Frame E P) (j : Nat) (hj : AdmitsRaw E j) (s : St) : Step E P s (raw_init j s) := by
  unfold BlockSnap.raw_init
  cases he : s.snaps[j]? with
  | some e => exact step_of_set F _ _ j e _ he (hj e _) rfl rfl
  | none => exact step_refl F s

theorem step_raw_store {E : Nat → WT_SNAPSHOT → WT_SNAPSHOT → Prop} {P : Call → Prop}
    (F : Frame E P) (env : Env) (j : Nat) (hj : AdmitsRaw E j) (v : WT_BLOCK_SNAPSHOT) (s : St) :
    Step E P s (raw_store env j v s) := by
  unfold BlockSnap.raw_store
  cases he : s.snaps[j]? with
  | some e => exact step_of_set F _ _ j e _ he (hj e _) rfl rfl
  | none => exact step_refl F s

theorem step_encode_cookie {E : Nat → WT_SNAPSHOT → WT_SNAPSHOT → Prop} {P : Call → Prop}
    (F : Frame E P) (env : Env) (j : Nat) (hj : AdmitsRaw E j) (hp : AdmitsEncode P j) (si : Si) (s : St) :
    Step E P s (encode_cookie env j si s).st := by
  unfold BlockSnap.encode_cookie
  split
  · exact step_refl F s
  · exact step_WT_RET F env _ _ _ (hp _) (fun t => step_raw_store F env j hj _ t)

theorem step_snapshot_update {E : Nat → WT_SNAPSHOT → WT_SNAPSHOT → Prop} {P : Call → Prop}
    (F : Frame E P) (env : Env) (j : Nat) (hj : AdmitsRaw E j) (hp : AdmitsEncode P j)
    (si : Si) (hsi : AdmitsSi E si) (s : St) :
    Step E P s (__snapshot_update env j si s).st := by
  unfold __snapshot_update
  refine step_bind F _ _ _ (step_check_lists F env si s) (fun s1 _ => ?_)
  refine step_bind F _ _ _ (step_write_list F env si hsi _ s1) (fun s2 _ => ?_)
  refine step_bind F _ _ _ (step_write_list F env si hsi _ s2) (fun s3 _ => ?_)
  refine step_bind F _ _ _ (step_write_list F env si hsi _ s3) (fun s4 _ => ?_)
  refine step_bind F _ _ _ ?_ (fun s5 _ => ?_)
  · exact step_WT_RET F env _ _ _ (F.call _ rfl) (fun t => step_modSi F si hsi _ t)
  refine step_bind F _ _ _ ?_ (fun s6 _ => ?_)
  · exact step_WT_RET F env _ _ _ (F.call _ rfl) (fun t => step_raw_init F j hj t)
  refine step_bind F _ _ _ (step_encode_cookie F env j hj hp si s6) (fun s7 _ => ?_)
  exact step_update_verbose F env j s7

theorem step_update_step {E : Nat → WT_SNAPSHOT → WT_SNAPSHOT → Prop} {P : Call → Prop}
    (F : Frame E P) (env : Env) (i : Nat) (hj : AdmitsRaw E i) (hp : AdmitsEncode P i)
    (hi : AdmitsPriv E i) (s : St) :
    Step E P s (update_step env i s).st := by
  unfold BlockSnap.update_step
  split
  · exact step_refl F s
  · split
    · exact step_refl F s
    · rw [flow_asErr_st]
      exact step_snapshot_update F env i hj hp (.priv i) hi s

theorem step_live_update_step {E : Nat → WT_SNAPSHOT → WT_SNAPSHOT → Prop} {P : Call → Prop}
    (F : Frame E P) (env : Env) (i : Nat) (hj : AdmitsRaw E i) (hp : AdmitsEncode P i) (s : St) :
    Step E P s (live_update_step env i s).st := by
  unfold BlockSnap.live_update_step
  split
  · exact step_refl F s
  · split
    · exact step_refl F s
    · refine step_bind F _ _ _ ?_ (fun s1 _ => ?_)
      · exact step_WT_RET F env _ _ _ (F.call _ rfl) (fun t => step_of_eq F _ _ rfl rfl)
      refine step_bind F _ _ _ ?_ (fun s2 _ => ?_)
      · rw [flow_asErr_st]
        exact step_snapshot_update F env i hj hp .live trivial s1
      · exact step_of_eq F _ _ rfl rfl

/-! ## Null pointers -/

theorem frame_keepsLoaded : Frame KeepsLoaded (fun _ => True) :=
  ⟨fun _ _ => ⟨rfl, rfl, id, Or.inl⟩,
   fun _ a b c h1 h2 => ⟨h2.1.trans h1.1, h2.2.1.trans h1.2.1, fun h => h2.2.2.1 (h1.2.2.1 h),
     fun h => by
       rcases h2.2.2.2 h with hb | hc
       · rcases h1.2.2.2 hb with ha | hb'
         · exact Or.inl ha
         · exact Or.inr (h2.2.2.1 hb')
       · exact Or.inr hc⟩,
   fun _ _ => trivial⟩

theorem admitsPriv_keepsLoaded (i : Nat) : AdmitsPriv KeepsLoaded i :=
  fun _ _ => ⟨rfl, rfl, fun _ => rfl, Or.inl⟩

theorem admitsSi_keepsLoaded (si : Si) : AdmitsSi KeepsLoaded si := by
  cases si with
  | live => trivial
  | priv i => exact admitsPriv_keepsLoaded i

theorem admitsRaw_keepsLoaded (j : Nat) : AdmitsRaw KeepsLoaded j :=
  fun _ _ => ⟨rfl, rfl, id, Or.inl⟩

theorem admitsUpdate_keepsLoaded (i : Nat) : AdmitsUpdate KeepsLoaded i :=
  fun _ h _ _ => ⟨rfl, rfl, id, fun _ => Or.inr h⟩

theorem admitsFree_true : AdmitsFree (fun _ => True) := fun _ _ _ _ => trivial

theorem admitsEncode_true (j : Nat) : AdmitsEncode (fun _ => True) j := fun _ => trivial

/-- The entries of the later state of a step come from the entries of the earlier one. -/
theorem step_entry_of {E : Nat → WT_SNAPSHOT → WT_SNAPSHOT → Prop} {P : Call → Prop} (s s' : St)
    (h : Step E P s s') (j : Nat) (e' : WT_SNAPSHOT) (he' : s'.snaps[j]? = some e') :
    ∃ e, s.snaps[j]? = some e ∧ E j e e' := by
  obtain ⟨hl, he, _⟩ := h
  have hlt : j < s.snaps.length := by
    rcases List.getElem?_eq_some_iff.mp he' with ⟨h, _⟩
    omega
  obtain ⟨e, hx⟩ : ∃ e, s.snaps[j]? = some e := ⟨s.snaps[j], List.getElem?_eq_getElem hlt⟩
  obtain ⟨e'', h1, h2⟩ := he j e hx
  rw [he'] at h1
  cases h1
  exact ⟨e, hx, h2⟩

theorem step_getSi_isSome {P : Call → Prop} (s s' : St) (h : Step KeepsLoaded P s s') (si : Si)
    (hs : (s.getSi si).isSome = true) : (s'.getSi si).isSome = true := by
  cases si with
  | live => rfl
  | priv i =>
    simp only [St.getSi] at hs ⊢
    cases hx : s.snaps[i]? with
    | none => simp [hx] at hs
    | some e =>
      obtain ⟨e', he', hk⟩ := h.2.1 i e hx
      simp only [hx, Option.some_bind] at hs
      simp only [he', Option.some_bind]
      exact hk.2.2.1 hs

theorem step_deleteReady {P : Call → Prop} (s s' : St) (h : Step KeepsLoaded P s s')
    (hd : DeleteReady s) : DeleteReady s' := by
  intro i e' he' hdel
  obtain ⟨e, he, hk⟩ := step_entry_of s s' h i e' he'
  obtain ⟨h1, n, hn, h2⟩ := hd i e he (by rw [← hk.2.1]; exact hdel)
  obtain ⟨n', hn', hk'⟩ := h.2.1 (i + 1) n hn
  refine ⟨hk.2.2.1 h1, n', hn', ?_⟩
  rcases h2 with h2 | h2
  · left; rw [hk'.1]; exact h2
  · right; exact hk'.2.2.1 h2

theorem step_updateReady {P : Call → Prop} (s s' : St) (h : Step KeepsLoaded P s s')
    (hu : UpdateReady s) : UpdateReady s' := by
  intro i e' he' hupd
  obtain ⟨e, he, hk⟩ := step_entry_of s s' h i e' he'
  rcases hk.2.2.2 hupd with h1 | h1
  · exact hk.2.2.1 (hu i e he h1)
  · exact h1

/-- A `Step` fact about the state a body ends in, from the fact about every outcome. -/
theorem step_of_next {E : Nat → WT_SNAPSHOT → WT_SNAPSHOT → Prop} {P : Call → Prop} (s s' : St)
    (x : Flow) (h : Step E P s x.st) (hx : x = .next s') : Step E P s s' := by
  rw [hx] at h; exact h

theorem read_list_isFault (env : Env) (si : Si) (w : El) (s : St)
    (hs : (s.getSi si).isSome = true) : (read_list env si w s).isFault = false := by
  unfold read_list
  cases hx : s.getSi si with
  | none => simp [hx] at hs
  | some v => exact WT_ERR_isFault env _ _ _

theorem write_list_isFault (env : Env) (si : Si) (w : El) (s : St)
    (hs : (s.getSi si).isSome = true) : (write_list env si w s).isFault = false := by
  unfold write_list
  cases hx : s.getSi si with
  | none => simp [hx] at hs
  | some v => exact WT_RET_isFault env _ _ _

theorem check_lists_isFault (env : Env) (si : Si) (s : St)
    (hs : (s.getSi si).isSome = true) : (check_lists env si s).isFault = false := by
  unfold check_lists
  split
  · cases hx : s.getSi si with
    | none => simp [hx] at hs
    | some v => exact WT_RET_isFault env _ _ _
  · rfl

theorem encode_cookie_isFault (env : Env) (j : Nat) (si : Si) (s : St)
    (hs : (s.getSi si).isSome = true) : (encode_cookie env j si s).isFault = false := by
  unfold encode_cookie
  cases hx : s.getSi si with
  | none => simp [hx] at hs
  | some v => exact WT_RET_isFault env _ _ _

theorem merge_list_isFault (env : Env) (a : WT_BLOCK_SNAPSHOT) (b : Si) (w : El) (s : St)
    (hs : (s.getSi b).isSome = true) : (merge_list env a b w s).isFault = false := by
  unfold merge_list
  split
  · cases hx : s.getSi b with
    | none => simp [hx] at hs
    | some v => exact WT_ERR_isFault env _ _ _
  · rfl

theorem match_lists_isFault (env : Env) (b : Si) (s : St)
    (hs : (s.getSi b).isSome = true) : (match_lists env b s).isFault = false := by
  unfold match_lists
  cases hx : s.getSi b with
  | none => simp [hx] at hs
  | some v => exact WT_ERR_isFault env _ _ _

theorem free_region_isFault (env : Env) (off size : Nat) (d : Bool) (s : St) :
    (free_region env off size d s).isFault = false := by
  unfold free_region
  split
  · exact WT_ERR_isFault env _ _ _
  · rfl

theorem free_lists_isFault (env : Env) (v : WT_BLOCK_SNAPSHOT) (s : St) :
    (free_lists env v s).isFault = false := by
  unfold free_lists
  refine flow_bind_isFault _ _ (free_region_isFault env _ _ _ _) (fun s1 _ => ?_)
  refine flow_bind_isFault _ _ (free_region_isFault env _ _ _ _) (fun s2 _ => ?_)
  exact free_region_isFault env _ _ _ _

theorem delete_verbose_isFault (env : Env) (a : List Nat) (s : St) :
    (delete_verbose env a s).isFault = false := by
  unfold delete_verbose
  split
  · refine flow_bind_isFault _ _ (WT_ERR_isFault env _ _ _) (fun s1 _ => ?_)
    have := snapshot_string_isFault env a s1
    cases hx : __snapshot_string env a s1 <;> simp_all [Flow.isFault]
  · rfl

theorem update_verbose_isFault (env : Env) (j : Nat) (s : St) :
    (update_verbose env j s).isFault = false := by
  unfold update_verbose
  split
  · refine flow_bind_isFault _ _ (WT_RET_isFault env _ _ _) (fun s1 _ => ?_)
    have := snapshot_string_isFault env ((s1.snaps[j]?).elim [] (fun e => e.raw.data)) s1
    cases hx : __snapshot_string env ((s1.snaps[j]?).elim [] (fun e => e.raw.data)) s1 <;>
      simp_all [Flow.isFault]
  · rfl

/-- The update of a snapshot does not use a null pointer when `si` is not null. -/
theorem snapshot_update_isFault (env : Env) (j : Nat) (si : Si) (s : St)
    (hs : (s.getSi si).isSome = true) : (__snapshot_update env j si s).isFault = false := by
  unfold __snapshot_update
  refine flow_bind_isFault _ _ (check_lists_isFault env si s hs) (fun s1 h1 => ?_)
  have q1 := step_of_next s s1 _ (step_check_lists frame_keepsLoaded env si s) h1
  have g1 := step_getSi_isSome s s1 q1 si hs
  refine flow_bind_isFault _ _ (write_list_isFault env si _ s1 g1) (fun s2 h2 => ?_)
  have q2 := step_of_next s1 s2 _ (step_write_list frame_keepsLoaded env si (admitsSi_keepsLoaded si) _ s1) h2
  have g2 := step_getSi_isSome s1 s2 q2 si g1
  refine flow_bind_isFault _ _ (write_list_isFault env si _ s2 g2) (fun s3 h3 => ?_)
  have q3 := step_of_next s2 s3 _ (step_write_list frame_keepsLoaded env si (admitsSi_keepsLoaded si) _ s2) h3
  have g3 := step_getSi_isSome s2 s3 q3 si g2
  refine flow_bind_isFault _ _ (write_list_isFault env si _ s3 g3) (fun s4 h4 => ?_)
  have q4 := step_of_next s3 s4 _ (step_write_list frame_keepsLoaded env si (admitsSi_keepsLoaded si) _ s3) h4
  have g4 := step_getSi_isSome s3 s4 q4 si g3
  refine flow_bind_isFault _ _ (WT_RET_isFault env _ _ _) (fun s5 h5 => ?_)
  have q5 := step_of_next (P := fun _ => True) s4 s5 _
    (step_WT_RET frame_keepsLoaded env _ _ s4 trivial
      (fun t => step_modSi frame_keepsLoaded si (admitsSi_keepsLoaded si) _ t)) h5
  have g5 := step_getSi_isSome s4 s5 q5 si g4
  refine flow_bind_isFault _ _ (WT_RET_isFault env _ _ _) (fun s6 h6 => ?_)
  have q6 := step_of_next (P := fun _ => True) s5 s6 _
    (step_WT_RET frame_keepsLoaded env _ _ s5 trivial
      (fun t => step_raw_init frame_keepsLoaded j (admitsRaw_keepsLoaded j) t)) h6
  have g6 := step_getSi_isSome s5 s6 q6 si g5
  refine flow_bind_isFault _ _ (encode_cookie_isFault env j si s6 g6) (fun s7 _ => ?_)
  exact update_verbose_isFault env j s7

/-- The invariant `Inv`, indexed by the list of the entries done, is carried through a
loop that runs to its end. -/
theorem forEach_next_inv (f : Nat → St → Flow) (Inv : List Nat → St → Prop) (l : List Nat) :
    ∀ (done : List Nat) (s s' : St), Inv done s →
      (∀ i d s1 s2, i ∈ l → Inv d s1 → f i s1 = .next s2 → Inv (d ++ [i]) s2) →
      forEach f l s = .next s' → Inv (done ++ l) s' := by
  induction l with
  | nil =>
    intro done s s' h0 _ h
    simp only [forEach, Flow.next.injEq] at h
    subst h
    simpa using h0
  | cons i is ih =>
    intro done s s' h0 hstep h
    simp only [forEach] at h
    rw [flow_bind_next_iff] at h
    obtain ⟨s1, h1, h2⟩ := h
    have := ih (done ++ [i]) s1 s' (hstep i done s s1 (List.mem_cons_self _ _) h0 h1)
      (fun j d a b hj => hstep j d a b (List.mem_cons_of_mem _ hj)) h2
    simpa using this

/-- A loop whose body keeps `Inv` and does not use a null pointer under `Inv` does not
use a null pointer, and keeps `Inv` when it runs to its end. -/
theorem forEach_isFault (f : Nat → St → Flow) (Inv : St → Prop) (l : List Nat)
    (hkeep : ∀ i s s', Inv s → f i s = .next s' → Inv s')
    (hnf : ∀ i s, Inv s → (f i s).isFault = false) :
    ∀ s, Inv s → (forEach f l s).isFault = false ∧ ∀ s', forEach f l s = .next s' → Inv s' := by
  induction l with
  | nil =>
    intro s h0
    refine ⟨rfl, fun s' h => ?_⟩
    simp only [forEach, Flow.next.injEq] at h
    subst h; exact h0
  | cons i is ih =>
    intro s h0
    simp only [forEach]
    constructor
    · exact flow_bind_isFault _ _ (hnf i s h0) (fun s1 h1 => (ih s1 (hkeep i s s1 h0 h1)).1)
    · intro s' h
      rw [flow_bind_next_iff] at h
      obtain ⟨s1, h1, h2⟩ := h
      exact (ih s1 (hkeep i s s1 h0 h1)).2 s' h2

theorem load_cond_eq_test (s : St) (i : Nat) (snap : WT_SNAPSHOT) (h : s.snaps[i]? = some snap) :
    (!snap.flags.delete && (i == 0 || snap.flags.add || !(prev_delete s i))) = !(load_cond s.snaps i) := by
  unfold load_cond prev_delete
  simp only [h]
  by_cases hi : i = 0
  · subst hi
    cases snap.flags.delete <;> cases snap.flags.add <;> cases s.snaps[0 - 1]? <;> rfl
  · have h0 : (i == 0) = false := by simp [hi]
    have h1 : (i != 0) = true := by simp [hi]
    rw [h0, h1]
    cases snap.flags.delete <;> cases snap.flags.add <;> cases s.snaps[i - 1]? <;> simp

theorem preload_step_skip (env : Env) (i : Nat) (s : St) (h : load_cond s.snaps i = false) :
    preload_step env i s = .next s := by
  unfold preload_step
  cases hx : s.snaps[i]? with
  | none => rfl
  | some snap =>
    simp only
    rw [load_cond_eq_test s i snap hx, h]
    rfl

theorem setSi_found (s : St) (si : Si) (v : WT_BLOCK_SNAPSHOT) : (s.setSi si v).found = s.found := by
  cases si with
  | live => rfl
  | priv i =>
    simp only [St.setSi]
    cases s.snaps[i]? <;> rfl

theorem modSi_found (s : St) (si : Si) (f : WT_BLOCK_SNAPSHOT → WT_BLOCK_SNAPSHOT) :
    (s.modSi si f).found = s.found := by
  unfold St.modSi
  cases s.getSi si with
  | none => rfl
  | some v => exact setSi_found s si _

theorem read_list_found (env : Env) (si : Si) (w : El) (s : St) :
    (read_list env si w s).st.found = s.found := by
  unfold read_list
  split
  · rfl
  · exact WT_ERR_rel (fun a b => b.found = a.found) (fun a b c h1 h2 => h2.trans h1) env _ _ _ rfl
      (fun t => modSi_found t si _)

theorem getSi_calloc_effect (i : Nat) (s : St) (snap : WT_SNAPSHOT) (h : s.snaps[i]? = some snap) :
    ((calloc_effect i s).getSi (.priv i)).isSome = true := by
  have hlt : i < s.snaps.length := (List.getElem?_eq_some_iff.mp h).1
  simp [calloc_effect, h, St.getSi, List.getElem?_set, hlt]

/-- The first loop on an entry that meets the load test: no null pointer is used, and
when the body runs to its end the state block is loaded and `found` is set. -/
theorem preload_step_load (env : Env) (i : Nat) (s : St) (h : load_cond s.snaps i = true) :
    (preload_step env i s).isFault = false ∧
      ∀ s', preload_step env i s = .next s' →
        (s'.getSi (.priv i)).isSome = true ∧ s'.found = true := by
  unfold preload_step
  cases hx : s.snaps[i]? with
  | none => simp [load_cond, hx] at h
  | some snap =>
    simp only
    rw [load_cond_eq_test s i snap hx, h]
    simp only [Bool.not_true, Bool.false_eq_true, if_false]
    have key : ∀ s1, WT_ERR env (.calloc i) (calloc_effect i) { s with found := true } = .next s1 →
        (s1.getSi (.priv i)).isSome = true ∧ s1.found = true := by
      intro s1 h1
      rw [WT_ERR_next_iff] at h1
      rw [h1.2]
      refine ⟨getSi_calloc_effect i _ snap (by simpa [St.call] using hx), ?_⟩
      simp only [calloc_effect, St.call]
      cases s.snaps[i]? <;> rfl
    have tail : ∀ s1, (s1.getSi (.priv i)).isSome = true →
        ((init_priv i s1).bind fun s =>
          (WT_ERR env (.buffer_to_snapshot snap.raw.data)
            (fun s => s.modSi (.priv i) (env.decode snap.raw.data)) s).bind fun s =>
          (read_list env (.priv i) .alloc s).bind fun s =>
          (read_list env (.priv i) .avail s).bind fun s =>
          read_list env (.priv i) .discard s).isFault = false ∧
        ∀ s', ((init_priv i s1).bind fun s =>
          (WT_ERR env (.buffer_to_snapshot snap.raw.data)
            (fun s => s.modSi (.priv i) (env.decode snap.raw.data)) s).bind fun s =>
          (read_list env (.priv i) .alloc s).bind fun s =>
          (read_list env (.priv i) .avail s).bind fun s =>
          read_list env (.priv i) .discard s) = .next s' →
          (s'.getSi (.priv i)).isSome = true ∧ s'.found = s1.found := by
      intro s1 g1
      have hi := admitsPriv_keepsLoaded i
      have F := frame_keepsLoaded
      have a2 : ∀ s2, init_priv i s1 = .next s2 → (s2.getSi (.priv i)).isSome = true ∧ s2.found = s1.found := by
        intro s2 h2
        refine ⟨step_getSi_isSome s1 s2 (step_of_next s1 s2 _ (step_init_priv F i hi s1) h2) _ g1, ?_⟩
        simp only [init_priv, __wt_block_snap_init, Bool.false_eq_true, if_false, if_true,
          Flow.next.injEq] at h2
        rw [← h2]; exact setSi_found s1 _ _
      have a3 : ∀ s2 s3, (s2.getSi (.priv i)).isSome = true →
          WT_ERR env (.buffer_to_snapshot snap.raw.data)
            (fun s => s.modSi (.priv i) (env.decode snap.raw.data)) s2 = .next s3 →
          (s3.getSi (.priv i)).isSome = true ∧ s3.found = s2.found := by
        intro s2 s3 g2 h3
        refine ⟨step_getSi_isSome s2 s3 (step_of_next (P := fun _ => True) s2 s3 _
          (step_WT_ERR F env _ _ s2 trivial (fun t => step_modSi F (.priv i) hi _ t)) h3) _ g2, ?_⟩
        rw [WT_ERR_next_iff] at h3
        rw [h3.2]; exact modSi_found _ _ _
      have a4 : ∀ w s2 s3, (s2.getSi (.priv i)).isSome = true →
          read_list env (.priv i) w s2 = .next s3 →
          (s3.getSi (.priv i)).isSome = true ∧ s3.found = s2.found := by
        intro w s2 s3 g2 h3
        refine ⟨step_getSi_isSome s2 s3 (step_of_next (P := fun _ => True) s2 s3 _
          (step_read_list F env (.priv i) hi w s2) h3) _ g2, ?_⟩
        have := read_list_found env (.priv i) w s2
        rw [h3] at this; exact this
      constructor
      · refine flow_bind_isFault _ _ ?_ (fun s2 h2 => ?_)
        · unfold init_priv; split <;> rfl
        refine flow_bind_isFault _ _ (WT_ERR_isFault env _ _ _) (fun s3 h3 => ?_)
        have g3 := (a3 s2 s3 (a2 s2 h2).1 h3).1
        refine flow_bind_isFault _ _ (read_list_isFault env _ _ _ g3) (fun s4 h4 => ?_)
        have g4 := (a4 _ s3 s4 g3 h4).1
        refine flow_bind_isFault _ _ (read_list_isFault env _ _ _ g4) (fun s5 h5 => ?_)
        have g5 := (a4 _ s4 s5 g4 h5).1
        exact read_list_isFault env _ _ _ g5
      · intro s' h'
        rw [flow_bind_next_iff] at h'
        obtain ⟨s2, h2, h'⟩ := h'
        rw [flow_bind_next_iff] at h'
        obtain ⟨s3, h3, h'⟩ := h'
        rw [flow_bind_next_iff] at h'
        obtain ⟨s4, h4, h'⟩ := h'
        rw [flow_bind_next_iff] at h'
        obtain ⟨s5, h5, h6⟩ := h'
        have b2 := a2 s2 h2
        have b3 := a3 s2 s3 b2.1 h3
        have b4 := a4 _ s3 s4 b3.1 h4
        have b5 := a4 _ s4 s5 b4.1 h5
        have b6 := a4 _ s5 s' b5.1 h6
        exact ⟨b6.1, by rw [b6.2, b5.2, b4.2, b3.2, b2.2]⟩
    constructor
    · refine flow_bind_isFault _ _ (WT_ERR_isFault env _ _ _) (fun s1 h1 => ?_)
      exact (tail s1 (key s1 h1).1).1
    · intro s' h'
      rw [flow_bind_next_iff] at h'
      obtain ⟨s1, h1, h'⟩ := h'
      have k1 := key s1 h1
      have t1 := (tail s1 k1.1).2 s' h'
      exact ⟨t1.1, by rw [t1.2]; exact k1.2⟩

theorem preload_step_isFault (env : Env) (i : Nat) (s : St) :
    (preload_step env i s).isFault = false := by
  cases h : load_cond s.snaps i with
  | false => rw [preload_step_skip env i s h]; rfl
  | true => exact (preload_step_load env i s h).1

theorem step_load_cond_eq {P : Call → Prop} (s s' : St) (h : Step KeepsLoaded P s s') (i : Nat) :
    load_cond s'.snaps i = load_cond s.snaps i := by
  unfold load_cond
  cases hx : s.snaps[i]? with
  | none =>
    have : s'.snaps[i]? = none := by
      rw [List.getElem?_eq_none_iff] at hx ⊢
      rw [h.1]; exact hx
    rw [this]
  | some e =>
    obtain ⟨e', he', hk⟩ := h.2.1 i e hx
    rw [he']
    simp only [hk.1, hk.2.1]
    cases hp : s.snaps[i - 1]? with
    | none =>
      have : s'.snaps[i - 1]? = none := by
        rw [List.getElem?_eq_none_iff] at hp ⊢
        rw [h.1]; exact hp
      rw [this]
    | some p =>
      obtain ⟨p', hp', hk'⟩ := h.2.1 (i - 1) p hp
      rw [hp']
      simp only [hk'.2.1]

/-- The "to" pointer of a deletion is not null when every `DELETE` entry is ready. -/
theorem getSi_to_si (s : St) (i : Nat) (e : WT_SNAPSHOT) (he : s.snaps[i]? = some e)
    (hdel : e.flags.delete = true) (hd : DeleteReady s) : (s.getSi (to_si s i)).isSome = true := by
  obtain ⟨_, n, hn, h2⟩ := hd i e he hdel
  unfold to_si next_entry
  simp only [hn, Option.getD_some]
  by_cases hadd : n.flags.add = true
  · simp [hadd, St.getSi]
  · rcases h2 with h2 | h2
    · exact absurd h2 hadd
    · simp [hadd, St.getSi, hn, h2]

theorem step_to_si_eq {P : Call → Prop} (s s' : St) (h : Step KeepsLoaded P s s') (i : Nat) :
    to_si s' i = to_si s i := by
  have hk : Step KeepsKind P s s' :=
    ⟨h.1, fun j e he => by
      obtain ⟨e', he', hk⟩ := h.2.1 j e he
      exact ⟨e', he', hk.1, hk.2.1⟩, h.2.2⟩
  unfold to_si
  rw [(step_next_entry_kind s s' hk i).1]

/-- The deletion loop does not use a null pointer when every `DELETE` entry is ready. -/
theorem delete_step_isFault (env : Env) (i : Nat) (s : St) (hd : DeleteReady s) :
    (delete_step env i s).isFault = false := by
  have F := frame_keepsLoaded
  have hfree := admitsFree_true
  unfold delete_step
  cases hx : s.snaps[i]? with
  | none => rfl
  | some snap =>
    simp only
    by_cases hdel : snap.flags.delete = false
    · rw [if_pos hdel]; rfl
    · rw [if_neg hdel]
      simp only [Bool.not_eq_false] at hdel
      have hb0 := getSi_to_si s i snap hx hdel hd
      obtain ⟨ha, _⟩ := hd i snap hx hdel
      refine flow_bind_isFault _ _ (delete_verbose_isFault env _ s) (fun s1 h1 => ?_)
      have q1 := step_of_next s s1 _ (step_delete_verbose F env snap.raw.data s) h1
      cases hbp : snap.bpriv with
      | none => simp [hbp] at ha
      | some a =>
        simp only
        refine flow_bind_isFault _ _ (free_region_isFault env _ _ _ _) (fun s2 h2 => ?_)
        have q2 := step_trans F _ _ _ q1 (step_of_next s1 s2 _ (step_free_region F hfree env _ _ _ s1) h2)
        refine flow_bind_isFault _ _ (free_lists_isFault env _ _) (fun s3 h3 => ?_)
        have q3 := step_trans F _ _ _ q2 (step_of_next s2 s3 _ (step_free_lists F hfree env _ s2) h3)
        have g3 : (s3.getSi (to_si s3 i)).isSome = true := by
          rw [step_to_si_eq s s3 q3 i]; exact step_getSi_isSome s s3 q3 _ hb0
        refine flow_bind_isFault _ _ (merge_list_isFault env _ _ _ _ g3) (fun s4 h4 => ?_)
        have q4 := step_trans F _ _ _ q3 (step_of_next s3 s4 _
          (step_merge_list F env a _ (admitsSi_keepsLoaded _) .alloc s3) h4)
        have g4 : (s4.getSi (to_si s4 i)).isSome = true := by
          rw [step_to_si_eq s s4 q4 i]; exact step_getSi_isSome s s4 q4 _ hb0
        refine flow_bind_isFault _ _ (merge_list_isFault env _ _ _ _ g4) (fun s5 h5 => ?_)
        have q5 := step_trans F _ _ _ q4 (step_of_next s4 s5 _
          (step_merge_list F env a _ (admitsSi_keepsLoaded _) .discard s4) h5)
        have g5 : (s5.getSi (to_si s5 i)).isSome = true := by
          rw [step_to_si_eq s s5 q5 i]; exact step_getSi_isSome s s5 q5 _ hb0
        split
        · rfl
        · refine flow_bind_isFault _ _ (match_lists_isFault env _ _ g5) (fun s6 h6 => ?_)
          have q6 := step_trans F _ _ _ q5 (step_of_next s5 s6 _
            (step_match_lists F env _ (admitsSi_keepsLoaded _) s5) h6)
          have g6 : (s6.getSi (to_si s6 i)).isSome = true := by
            rw [step_to_si_eq s s6 q6 i]; exact step_getSi_isSome s s6 q6 _ hb0
          split
          · rfl
          · cases hb : s6.getSi (to_si s6 i) with
            | none => simp [hb] at g6
            | some b =>
              simp only
              refine flow_bind_isFault _ _ (free_lists_isFault env _ _) (fun s7 _ => rfl)

/-- The update loop does not use a null pointer when every `UPDATE` entry is ready. -/
theorem update_step_isFault (env : Env) (i : Nat) (s : St) (hu : UpdateReady s) :
    (update_step env i s).isFault = false := by
  unfold update_step
  cases hx : s.snaps[i]? with
  | none => rfl
  | some snap =>
    simp only
    by_cases hupd : snap.flags.update = false
    · rw [if_pos hupd]; rfl
    · rw [if_neg hupd, flow_asErr_isFault]
      simp only [Bool.not_eq_false] at hupd
      refine snapshot_update_isFault env i (.priv i) s ?_
      have := hu i snap hx hupd
      simp [St.getSi, hx, this]

theorem live_update_step_isFault (env : Env) (i : Nat) (s : St) :
    (live_update_step env i s).isFault = false := by
  unfold live_update_step
  split
  · rfl
  · split
    · rfl
    · refine flow_bind_isFault _ _ (WT_RET_isFault env _ _ _) (fun s1 _ => ?_)
      refine flow_bind_isFault _ _ ?_ (fun s2 _ => rfl)
      rw [flow_asErr_isFault]
      exact snapshot_update_isFault env i .live s1 rfl

/-- The part of the processing after the preload does not use a null pointer when the
`DELETE` and the `UPDATE` entries are ready. -/
theorem process_found_isFault (env : Env) (s : St) (hd : DeleteReady s) (hu : UpdateReady s) :
    (process_found env s).isFault = false := by
  have F := frame_keepsLoaded
  unfold process_found
  have hloop := forEach_isFault (delete_step env) (fun t => DeleteReady t ∧ UpdateReady t)
    (List.range s.snaps.length)
    (fun i a b hab h =>
      have q := step_of_next a b _ (step_delete_step F admitsFree_true env i
        (admitsPriv_keepsLoaded _) (admitsUpdate_keepsLoaded _) a) h
      ⟨step_deleteReady a b q hab.1, step_updateReady a b q hab.2⟩)
    (fun i a hab => delete_step_isFault env i a hab.1) s ⟨hd, hu⟩
  refine flow_bind_isFault _ _ hloop.1 (fun s1 h1 => ?_)
  have hu1 := (hloop.2 s1 h1).2
  refine flow_bind_isFault _ _ (check_lists_isFault env .live s1 rfl) (fun s2 h2 => ?_)
  have q2 := step_of_next s1 s2 _ (step_check_lists F env .live s1) h2
  have hu2 := step_updateReady s1 s2 q2 hu1
  exact (forEach_isFault (update_step env) UpdateReady (List.range s2.snaps.length)
    (fun i a b hab h =>
      step_updateReady a b (step_of_next a b _ (step_update_step F env i
        (admitsRaw_keepsLoaded _) (admitsEncode_true _) (admitsPriv_keepsLoaded _) a) h) hab)
    (fun i a hab => update_step_isFault env i a hab) s2 hu2).1

/-- The state block of every entry that meets the load test is loaded when the first
loop has run to its end. -/
theorem preload_loaded (env : Env) (s s' : St) (h : preload env s = .next s') :
    Step KeepsLoaded (fun _ => True) s s' ∧
      ∀ j, load_cond s.snaps j = true → (s'.getSi (.priv j)).isSome = true := by
  have F := frame_keepsLoaded
  unfold preload at h
  have h0 : PreloadInv s [] { s with tmp := false, locked := false, found := false } :=
    ⟨step_of_eq F _ _ rfl rfl, by simp⟩
  have := forEach_next_inv (preload_step env) (PreloadInv s) (List.range s.snaps.length) [] _ s' h0
    (fun i d s1 s2 _ hinv hs => by
      have q := step_of_next s1 s2 _ (step_preload_step F env i (admitsPriv_keepsLoaded i) s1) hs
      refine ⟨step_trans F _ _ _ hinv.1 q, fun j hj hc => ?_⟩
      rcases List.mem_append.mp hj with hj | hj
      · exact step_getSi_isSome s1 s2 q _ (hinv.2 j hj hc)
      · simp only [List.mem_singleton] at hj
        subst hj
        have hc1 : load_cond s1.snaps j = true := by
          rw [step_load_cond_eq s s1 hinv.1 j]; exact hc
        exact ((preload_step_load env j s1 hc1).2 s2 hs).1) h
  refine ⟨this.1, fun j hc => this.2 j ?_ hc⟩
  simp only [List.nil_append, List.mem_range]
  unfold load_cond at hc
  cases hx : s.snaps[j]? with
  | none => simp [hx] at hc
  | some e => exact (List.getElem?_eq_some_iff.mp hx).1

theorem preload_isFault (env : Env) (s : St) : (preload env s).isFault = false := by
  unfold preload
  exact (forEach_isFault (preload_step env) (fun _ => True) _ (fun _ _ _ _ _ => trivial)
    (fun i a _ => preload_step_isFault env i a) _ trivial).1

/-- After the preload every `DELETE` entry is ready, when every `DELETE` entry has an
entry after it. -/
theorem preload_deleteReady (env : Env) (s s' : St) (h : preload env s = .next s')
    (hsucc : ∀ (i : Nat) (e : WT_SNAPSHOT), s.snaps[i]? = some e → e.flags.delete = true →
      i + 1 < s.snaps.length) : DeleteReady s' := by
  obtain ⟨q, hl⟩ := preload_loaded env s s' h
  intro i e' he' hdel
  obtain ⟨e, he, hk⟩ := step_entry_of s s' q i e' he'
  have hdel0 : e.flags.delete = true := by rw [← hk.2.1]; exact hdel
  have hc : load_cond s.snaps i = true := by simp [load_cond, he, hdel0]
  have g := hl i hc
  simp only [St.getSi, he', Option.some_bind] at g
  refine ⟨g, ?_⟩
  have hlt := hsucc i e he hdel0
  obtain ⟨n, hn⟩ : ∃ n, s.snaps[i + 1]? = some n := ⟨s.snaps[i + 1], List.getElem?_eq_getElem hlt⟩
  obtain ⟨n', hn', hkn⟩ := q.2.1 (i + 1) n hn
  refine ⟨n', hn', ?_⟩
  by_cases hadd : n.flags.add = true
  · left; rw [hkn.1]; exact hadd
  · right
    have hc1 : load_cond s.snaps (i + 1) = true := by
      simp only [Bool.not_eq_true] at hadd
      simp [load_cond, hn, he, hdel0, hadd]
    have g1 := hl (i + 1) hc1
    simpa [St.getSi, hn'] using g1

theorem preload_updateReady (env : Env) (s s' : St) (h : preload env s = .next s')
    (hupd : ∀ e ∈ s.snaps, e.flags.update = false) : UpdateReady s' := by
  obtain ⟨q, _⟩ := preload_loaded env s s' h
  refine step_updateReady s s' q ?_
  intro i e he hu
  have := hupd e (List.getElem?_mem he)
  rw [this] at hu; cases hu

theorem take_lock_step (s : St) : Step KeepsLoaded (fun _ => True) s (take_lock s) :=
  step_of_eq frame_keepsLoaded _ _ rfl rfl

/-- The processing does not use a null pointer on a list in which every `DELETE` entry
has an entry after it and no entry is flagged `UPDATE`. -/
theorem process_body_isFault (env : Env) (s : St)
    (hsucc : ∀ (i : Nat) (e : WT_SNAPSHOT), s.snaps[i]? = some e → e.flags.delete = true →
      i + 1 < s.snaps.length)
    (hupd : ∀ e ∈ s.snaps, e.flags.update = false) :
    (process_body env s).isFault = false := by
  have hp : process_body env s = (preload env s).bind fun s =>
      (if (take_lock s).found = false then .next (take_lock s) else process_found env (take_lock s)).bind
        fun s => forEach (live_update_step env) (List.range s.snaps.length) s := rfl
  rw [hp]
  refine flow_bind_isFault _ _ (preload_isFault env s) (fun s1 h1 => ?_)
  have hd := step_deleteReady s1 _ (take_lock_step s1) (preload_deleteReady env s s1 h1 hsucc)
  have hu := step_updateReady s1 _ (take_lock_step s1) (preload_updateReady env s s1 h1 hupd)
  refine flow_bind_isFault _ _ ?_ (fun s2 _ => ?_)
  · split
    · rfl
    · exact process_found_isFault env _ hd hu
  · exact (forEach_isFault (live_update_step env) (fun _ => True) _ (fun _ _ _ _ _ => trivial)
      (fun i a _ => live_update_step_isFault env i a) _ trivial).1

theorem wellFormed_succ (l : List WT_SNAPSHOT) (h : WellFormed l) (i : Nat) (e : WT_SNAPSHOT)
    (he : l[i]? = some e) (hdel : e.flags.delete = true) : i + 1 < l.length := by
  obtain ⟨⟨init, last, hl, hlast, _⟩, hboth, _⟩ := h
  subst hl
  have hlt := (List.getElem?_eq_some_iff.mp he).1
  simp only [List.length_append, List.length_singleton] at hlt ⊢
  by_contra hcon
  have hi : i = init.length := by omega
  subst hi
  simp at he
  subst he
  exact hboth last (by simp) ⟨hlast, hdel⟩

/-- C10.  On a well-formed snapshot list (exactly one `ADD` entry, the last one; no entry
flagged both `ADD` and `DELETE`; no entry flagged `UPDATE`), whatever the
collaborators return: when the preload has succeeded, every `DELETE` entry has its
own state block loaded and is followed by an entry that is the `ADD` entry or has
its state block loaded; when the deletion loop has run to its end, every entry
flagged `UPDATE`, which is what the update loop hands to `__snapshot_update`, has
its state block loaded; and `__snapshot_process` never uses a null `bpriv`. -/
theorem process_uses_loaded_priv (env : Env) (s : St) (hwf : WellFormed s.snaps) :
    (∀ s1, preload env s = .next s1 → DeleteReady s1) ∧
    (∀ s1 s2, preload env s = .next s1 →
      forEach (delete_step env) (List.range (take_lock s1).snaps.length) (take_lock s1) = .next s2 →
      UpdateReady s2) ∧
    (∀ s', __snapshot_process env s ≠ .fault s') := by
  have hsucc := wellFormed_succ s.snaps hwf
  have hupd := hwf.2.2
  refine ⟨fun s1 h1 => preload_deleteReady env s s1 h1 hsucc, fun s1 s2 h1 h2 => ?_, fun s' h => ?_⟩
  · have hd := step_deleteReady s1 _ (take_lock_step s1) (preload_deleteReady env s s1 h1 hsucc)
    have hu := step_updateReady s1 _ (take_lock_step s1) (preload_updateReady env s s1 h1 hupd)
    exact ((forEach_isFault (delete_step env) (fun t => DeleteReady t ∧ UpdateReady t)
      (List.range (take_lock s1).snaps.length)
      (fun i a b hab h =>
        have q := step_of_next a b _ (step_delete_step frame_keepsLoaded admitsFree_true env i
          (admitsPriv_keepsLoaded _) (admitsUpdate_keepsLoaded _) a) h
        ⟨step_deleteReady a b q hab.1, step_updateReady a b q hab.2⟩)
      (fun i a hab => delete_step_isFault env i a hab.1) (take_lock s1) ⟨hd, hu⟩).2 s2 h2).2
  · have hf := process_body_isFault env s hsucc hupd
    unfold __snapshot_process at h
    cases hb : process_body env s with
    | next s1 => rw [hb] at h; simp at h
    | err r s1 => rw [hb] at h; simp at h
    | ret r s1 => rw [hb] at h; simp at h
    | fault s1 => rw [hb] at hf; simp [Flow.isFault] at hf

/-- Witness of `process_uses_loaded_priv`: the list `[s1, s2 DELETE, s3, s4 ADD]`. -/
theorem process_uses_loaded_priv_witness :
    WellFormed (ex_state (ex_block true false) ex_delete_middle).snaps ∧
    ∀ s', __snapshot_process (ex_env fun _ => 0) (ex_state (ex_block true false) ex_delete_middle)
      ≠ .fault s' :=
  have hwf : WellFormed (ex_state (ex_block true false) ex_delete_middle).snaps :=
    ⟨⟨[ex_entry "s1" ex_c1 false false, ex_entry "s2" ex_c2 false true, ex_entry "s3" ex_c3 false false],
      ex_entry "s4" [] true false, rfl, rfl, by decide⟩, by decide, by decide⟩
  ⟨hwf, (process_uses_loaded_priv (ex_env fun _ => 0)
    (ex_state (ex_block true false) ex_delete_middle) hwf).2.2⟩

theorem frame_keepsUnloaded (l : List WT_SNAPSHOT) : Frame (KeepsUnloaded l) (fun _ => True) :=
  ⟨fun _ _ _ => rfl, fun _ _ _ _ h1 h2 h => (h2 h).trans (h1 h), fun _ _ => trivial⟩

/-- What the first loop does to `found` and to the entries that do not meet the load
test. -/
theorem preload_found (env : Env) (s s' : St) (h : preload env s = .next s') :
    Step (KeepsUnloaded s.snaps) (fun _ => True) s s' ∧
      (s'.found = true ↔ ∃ j, load_cond s.snaps j = true) := by
  unfold preload at h
  have h0 : FoundInv s [] { s with tmp := false, locked := false, found := false } :=
    ⟨step_of_eq (frame_keepsUnloaded _) _ _ rfl rfl, step_of_eq frame_keepsLoaded _ _ rfl rfl, by simp⟩
  have := forEach_next_inv (preload_step env) (FoundInv s) (List.range s.snaps.length) [] _ s' h0
    (fun i d s1 s2 _ hinv hs => by
      obtain ⟨hu, hl, hf⟩ := hinv
      have hc1 : load_cond s1.snaps i = load_cond s.snaps i := step_load_cond_eq s s1 hl i
      have ql := step_of_next s1 s2 _
        (step_preload_step frame_keepsLoaded env i (admitsPriv_keepsLoaded i) s1) hs
      cases hc : load_cond s.snaps i with
      | false =>
        rw [hc] at hc1
        rw [preload_step_skip env i s1 hc1] at hs
        cases hs
        refine ⟨hu, hl, ?_⟩
        rw [hf]
        constructor
        · rintro ⟨j, hj, hcj⟩
          exact ⟨j, by simp [hj], hcj⟩
        · rintro ⟨j, hj, hcj⟩
          rcases List.mem_append.mp hj with hj | hj
          · exact ⟨j, hj, hcj⟩
          · simp only [List.mem_singleton] at hj
            subst hj
            rw [hc] at hcj; cases hcj
      | true =>
        rw [hc] at hc1
        have qu := step_of_next s1 s2 _
          (step_preload_step (frame_keepsUnloaded s.snaps) env i
            (fun _ _ hcon => by rw [hc] at hcon; cases hcon) s1) hs
        refine ⟨step_trans (frame_keepsUnloaded _) _ _ _ hu qu,
          step_trans frame_keepsLoaded _ _ _ hl ql, ?_⟩
        have := ((preload_step_load env i s1 hc1).2 s2 hs).2
        simp only [this, true_iff]
        exact ⟨i, by simp, hc⟩) h
  refine ⟨this.1, ?_⟩
  rw [this.2.2]
  constructor
  · rintro ⟨j, _, hcj⟩; exact ⟨j, hcj⟩
  · rintro ⟨j, hcj⟩
    refine ⟨j, ?_, hcj⟩
    simp only [List.nil_append, List.mem_range]
    unfold load_cond at hcj
    cases hx : s.snaps[j]? with
    | none => simp [hx] at hcj
    | some e => exact (List.getElem?_eq_some_iff.mp hx).1

/-! ## The frees of the deletion loop -/

theorem frees_append (a b : List Call) : frees (a ++ b) = frees a ++ frees b := by
  induction a with
  | nil => rfl
  | cons c t ih => cases c <;> simp [frees, ih]

theorem sameObs_refl (s : St) : SameObs s s := ⟨fun _ => rfl, rfl⟩

theorem sameObs_trans (a b c : St) (h1 : SameObs a b) (h2 : SameObs b c) : SameObs a c :=
  ⟨fun j => (h2.1 j).trans (h1.1 j), h2.2.trans h1.2⟩

theorem sameObs_call (env : Env) (c : Call) (s : St) (hc : c.plain = true) :
    SameObs s (s.call env c).2 := by
  refine ⟨fun _ => rfl, ?_⟩
  simp only [St.call, frees_append]
  cases c <;> simp_all [frees, Call.plain]

theorem sameObs_setSi (s : St) (si : Si) (v w : WT_BLOCK_SNAPSHOT) (hv : s.getSi si = some v)
    (hw : list_frees w = list_frees v) : SameObs s (s.setSi si w) := by
  cases si with
  | live => exact ⟨fun _ => rfl, rfl⟩
  | priv i =>
    simp only [St.getSi] at hv
    cases he : s.snaps[i]? with
    | none => simp [he] at hv
    | some e =>
      simp only [he, Option.some_bind] at hv
      simp only [St.setSi, he]
      refine ⟨fun j => ?_, rfl⟩
      by_cases hij : i = j
      · subst hij
        have hlt : i < s.snaps.length := (List.getElem?_eq_some_iff.mp he).1
        simp [List.getElem?_set, hlt, he, entry_obs, hv, hw]
      · simp [List.getElem?_set, hij]

theorem sameObs_modSi (s : St) (si : Si) (f : WT_BLOCK_SNAPSHOT → WT_BLOCK_SNAPSHOT)
    (hf : ∀ v, list_frees (f v) = list_frees v) : SameObs s (s.modSi si f) := by
  unfold St.modSi
  cases hv : s.getSi si with
  | none => exact sameObs_refl s
  | some v => exact sameObs_setSi s si v _ hv (hf v)

theorem sameObs_WT_ERR (env : Env) (c : Call) (eff : St → St) (s : St) (hc : c.plain = true)
    (heff : ∀ t, SameObs t (eff t)) : SameObs s (WT_ERR env c eff s).st :=
  WT_ERR_rel SameObs sameObs_trans env c eff s (sameObs_call env c s hc) heff

theorem sameObs_WT_RET (env : Env) (c : Call) (eff : St → St) (s : St) (hc : c.plain = true)
    (heff : ∀ t, SameObs t (eff t)) : SameObs s (WT_RET env c eff s).st :=
  WT_RET_rel SameObs sameObs_trans env c eff s (sameObs_call env c s hc) heff

theorem sameObs_snapshot_string (env : Env) (a : List Nat) (s : St) :
    SameObs s (__snapshot_string env a s).st := by
  unfold __snapshot_string
  repeat (first
    | exact sameObs_WT_RET env _ _ _ rfl (fun t => sameObs_refl t)
    | refine flow_bind_rel SameObs sameObs_trans _ _ _ ?_ (fun s1 => ?_))

theorem sameObs_delete_verbose (env : Env) (a : List Nat) (s : St) :
    SameObs s (delete_verbose env a s).st := by
  unfold BlockSnap.delete_verbose
  split
  · refine flow_bind_rel SameObs sameObs_trans _ _ _ ?_ (fun s1 => ?_)
    · exact sameObs_WT_ERR env _ _ _ rfl (fun t => ⟨fun _ => rfl, rfl⟩)
    · have h := sameObs_snapshot_string env a s1
      cases hx : __snapshot_string env a s1 <;> rw [hx] at h <;>
        exact sameObs_trans _ _ _ h ⟨fun _ => rfl, rfl⟩
  · exact sameObs_refl s

theorem list_frees_set_merge (w : El) (bv : WT_BLOCK_SNAPSHOT) (x : WT_EXTLIST) :
    list_frees (w.set bv (extlist_merge x (w.get bv))) = list_frees bv := by
  cases w <;> rfl

theorem sameObs_merge_list (env : Env) (a : WT_BLOCK_SNAPSHOT) (b : Si) (w : El) (s : St) :
    SameObs s (merge_list env a b w s).st := by
  unfold BlockSnap.merge_list
  split
  · split
    · exact sameObs_refl s
    · exact sameObs_WT_ERR env _ _ _ rfl
        (fun t => sameObs_modSi t b _ (fun v => list_frees_set_merge w v _))
  · exact sameObs_refl s

theorem sameObs_match_lists (env : Env) (b : Si) (s : St) :
    SameObs s (match_lists env b s).st := by
  unfold BlockSnap.match_lists
  split
  · exact sameObs_refl s
  · exact sameObs_WT_ERR env _ _ _ rfl (fun t => sameObs_modSi t b _ (fun v => rfl))

theorem sameObs_of_next (s s' : St) (x : Flow) (h : SameObs s x.st) (hx : x = .next s') :
    SameObs s s' := by
  rw [hx] at h; exact h

/-- The entry `snap + 1` looks the same to the frees after a step that changes nothing
they depend on. -/
theorem next_entry_obs (s s' : St)
    (h : ∀ j : Nat, (s'.snaps[j]?).map entry_obs = (s.snaps[j]?).map entry_obs) (i : Nat) :
    entry_obs (next_entry s' i) = entry_obs (next_entry s i) := by
  have := h (i + 1)
  unfold BlockSnap.next_entry
  cases hx : s.snaps[i + 1]? <;> cases hy : s'.snaps[i + 1]? <;> simp_all

theorem mark_update_trace (i : Nat) (s : St) : (mark_update i s).trace = s.trace := by
  unfold mark_update
  cases s.snaps[i + 1]? <;> rfl

theorem free_region_next (env : Env) (off size : Nat) (d : Bool) (s s' : St)
    (h : free_region env off size d s = .next s') :
    s'.snaps = s.snaps ∧
      frees s'.trace = frees s.trace ++
        (if off ≠ WT_BLOCK_INVALID_OFFSET then [(off, size, d)] else []) := by
  unfold free_region at h
  by_cases hoff : off ≠ WT_BLOCK_INVALID_OFFSET
  · rw [if_pos hoff, WT_ERR_next_iff] at h
    rw [h.2, if_pos hoff]
    simp [St.setSi, St.call, frees_append, frees]
  · rw [if_neg hoff] at h
    cases h
    simp [hoff]

theorem free_lists_next (env : Env) (v : WT_BLOCK_SNAPSHOT) (s s' : St)
    (h : free_lists env v s = .next s') :
    s'.snaps = s.snaps ∧ frees s'.trace = frees s.trace ++ list_frees v := by
  unfold free_lists at h
  rw [flow_bind_next_iff] at h
  obtain ⟨s1, h1, h⟩ := h
  rw [flow_bind_next_iff] at h
  obtain ⟨s2, h2, h3⟩ := h
  have a1 := free_region_next env _ _ _ s s1 h1
  have a2 := free_region_next env _ _ _ s1 s2 h2
  have a3 := free_region_next env _ _ _ s2 s' h3
  refine ⟨by rw [a3.1, a2.1, a1.1], ?_⟩
  rw [a3.2, a2.2, a1.2]
  simp [list_frees, list_free, List.append_assoc]

/-- The frees a completed step of the deletion loop has issued. -/
theorem delete_step_next_frees (env : Env) (i : Nat) (s s' : St)
    (h : delete_step env i s = .next s') :
    frees s'.trace = frees s.trace ++ delete_frees s i := by
  unfold delete_step at h
  unfold delete_frees
  cases hx : s.snaps[i]? with
  | none =>
    rw [hx] at h
    cases h; simp
  | some snap =>
    rw [hx] at h
    simp only at h ⊢
    by_cases hdel : snap.flags.delete = false
    · rw [if_pos hdel] at h ⊢
      cases h; simp
    · rw [if_neg hdel] at h ⊢
      rw [flow_bind_next_iff] at h
      obtain ⟨s1, h1, h⟩ := h
      have q1 := sameObs_of_next s s1 _ (sameObs_delete_verbose env _ s) h1
      cases hbp : snap.bpriv with
      | none => rw [hbp] at h; simp at h
      | some a =>
        rw [hbp] at h
        simp only at h ⊢
        rw [flow_bind_next_iff] at h
        obtain ⟨s2, h2, h⟩ := h
        rw [flow_bind_next_iff] at h
        obtain ⟨s3, h3, h⟩ := h
        rw [flow_bind_next_iff] at h
        obtain ⟨s4, h4, h⟩ := h
        rw [flow_bind_next_iff] at h
        obtain ⟨s5, h5, h⟩ := h
        have a2 := free_region_next env _ _ _ s1 s2 h2
        have a3 := free_lists_next env a s2 s3 h3
        have q4 := sameObs_of_next s3 s4 _ (sameObs_merge_list env a _ _ s3) h4
        have q5 := sameObs_of_next s4 s5 _ (sameObs_merge_list env a _ _ s4) h5
        have o5 : ∀ j : Nat, (s5.snaps[j]?).map entry_obs = (s.snaps[j]?).map entry_obs := by
          intro j
          rw [q5.1 j, q4.1 j, a3.1, a2.1]
          exact q1.1 j
        have f5 : frees s5.trace = frees s.trace ++ (root_free a ++ list_frees a) := by
          rw [q5.2, q4.2, a3.2, a2.2, q1.2]
          simp [root_free, List.append_assoc]
        have n5 := next_entry_obs s s5 o5 i
        simp only [entry_obs, Prod.mk.injEq] at n5
        by_cases hnd : (next_entry s5 i).flags.delete = true
        · rw [if_pos hnd] at h
          cases h
          rw [if_pos (Or.inl (by rw [← n5.2.1]; exact hnd)), f5]
          simp
        · rw [if_neg hnd, flow_bind_next_iff] at h
          obtain ⟨s6, h6, h⟩ := h
          have q6 := sameObs_of_next s5 s6 _ (sameObs_match_lists env _ s5) h6
          have o6 : ∀ j : Nat, (s6.snaps[j]?).map entry_obs = (s.snaps[j]?).map entry_obs := by
            intro j; rw [q6.1 j]; exact o5 j
          have n6 := next_entry_obs s s6 o6 i
          simp only [entry_obs, Prod.mk.injEq] at n6
          by_cases hna : (next_entry s6 i).flags.add = true
          · rw [if_pos hna] at h
            cases h
            rw [if_pos (Or.inr (by rw [← n6.1]; exact hna)), q6.2, f5]
            simp
          · rw [if_neg hna] at h
            have hto : to_si s6 i = .priv (i + 1) := by
              unfold to_si; simp [hna]
            rw [hto] at h
            cases hb : s6.getSi (.priv (i + 1)) with
            | none => rw [hb] at h; simp at h
            | some b =>
              rw [hb] at h
              simp only at h
              rw [flow_bind_next_iff] at h
              obtain ⟨s7, h7, h⟩ := h
              cases h
              have a7 := free_lists_next env b s6 s7 h7
              have hno : ¬ ((next_entry s i).flags.delete = true ∨ (next_entry s i).flags.add = true) := by
                rw [← n6.1, ← n5.2.1]
                exact fun hcon => hcon.elim hnd hna
              rw [if_neg hno, mark_update_trace, a7.2, q6.2, f5]
              have hbb : (next_entry s6 i).bpriv = some b := by
                simp only [St.getSi] at hb
                unfold BlockSnap.next_entry
                cases he : s6.snaps[i + 1]? with
                | none => simp [he] at hb
                | some e6 => simpa [he] using hb
              have hb0 := n6.2.2
              rw [hbb] at hb0
              cases hb00 : (next_entry s i).bpriv with
              | none => rw [hb00] at hb0; simp at hb0
              | some b0 =>
                rw [hb00] at hb0
                simp only [Option.map_some', Option.some.injEq] at hb0
                simp [Option.elim, hb0, List.append_assoc]

theorem step_process_found {E : Nat → WT_SNAPSHOT → WT_SNAPSHOT → Prop} {P : Call → Prop}
    (F : Frame E P) (hfree : AdmitsFree P) (hp : ∀ i, AdmitsPriv E i) (hr : ∀ i, AdmitsRaw E i)
    (hu : ∀ i, AdmitsUpdate E i) (he : ∀ i, AdmitsEncode P i) (env : Env) (s : St) :
    Step E P s (process_found env s).st := by
  unfold BlockSnap.process_found
  refine step_bind F _ _ _ ?_ (fun s1 _ => ?_)
  · exact step_forEach F _ _ (fun i _ t => step_delete_step F hfree env i (hp _) (hu _) t) s
  refine step_bind F _ _ _ (step_check_lists F env .live s1) (fun s2 _ => ?_)
  exact step_forEach F _ _ (fun i _ t => step_update_step F env i (hr i) (he i) (hp i) t) s2

theorem step_process_body {E : Nat → WT_SNAPSHOT → WT_SNAPSHOT → Prop} {P : Call → Prop}
    (F : Frame E P) (hfree : AdmitsFree P) (hp : ∀ i, AdmitsPriv E i) (hr : ∀ i, AdmitsRaw E i)
    (hu : ∀ i, AdmitsUpdate E i) (he : ∀ i, AdmitsEncode P i) (env : Env) (s : St) :
    Step E P s (process_body env s).st := by
  unfold BlockSnap.process_body
  refine step_bind F _ _ _ ?_ (fun s1 _ => ?_)
  · exact step_trans F _ _ _ (step_of_eq F s { s with tmp := false, locked := false, found := false } rfl rfl)
      (step_forEach F _ _ (fun i _ t => step_preload_step F env i (hp i) t) _)
  refine step_bind F _ _ _ ?_ (fun s2 _ => ?_)
  · split
    · exact step_of_eq F _ _ rfl rfl
    · exact step_trans F _ _ _ (step_of_eq F s1 (take_lock s1) rfl rfl)
        (step_process_found F hfree hp hr hu he env _)
  · exact step_forEach F _ _ (fun i _ t => step_live_update_step F env i (hr i) (he i) t) s2

theorem frame_noSentinelFree : Frame (fun _ _ _ => True) NoSentinelFree :=
  ⟨fun _ _ => trivial, fun _ _ _ _ _ _ => trivial, fun c hc off size d h => by
    subst h; simp [Call.plain] at hc⟩

theorem delete_frees_ne_sentinel (s : St) (i : Nat) :
    ∀ f ∈ delete_frees s i, f.1 ≠ WT_BLOCK_INVALID_OFFSET := by
  have hl : ∀ el : WT_EXTLIST, ∀ f ∈ list_free el, f.1 ≠ WT_BLOCK_INVALID_OFFSET := by
    intro el f hf
    unfold list_free at hf
    split at hf
    · simp only [List.mem_singleton] at hf; subst hf; assumption
    · simp at hf
  have hls : ∀ v : WT_BLOCK_SNAPSHOT, ∀ f ∈ list_frees v, f.1 ≠ WT_BLOCK_INVALID_OFFSET := by
    intro v f hf
    unfold list_frees at hf
    simp only [List.mem_append] at hf
    rcases hf with (hf | hf) | hf <;> exact hl _ f hf
  intro f hf
  unfold delete_frees at hf
  split at hf
  · simp at hf
  · split at hf
    · simp at hf
    · split at hf
      · simp at hf
      · rename_i a _
        simp only [List.mem_append] at hf
        rcases hf with (hf | hf) | hf
        · unfold root_free at hf
          split at hf
          · simp only [List.mem_singleton] at hf; subst hf; assumption
          · simp at hf
        · exact hls a f hf
        · split at hf
          · simp at hf
          · cases hb : (next_entry s i).bpriv with
            | none => simp [hb] at hf
            | some b => rw [hb] at hf; exact hls b f hf

/-- C4.  When the body of the deletion loop has run to its end for the entry at index `i`,
the frees it has issued are exactly `delete_frees s i`: for a `DELETE` entry with state
block `A`, the root region `(root_offset, root_size)` as an ordinary free
(`free_extent = false`) exactly when `A.root_offset` is not the sentinel, then the
region of each of `A.alloc`, `A.avail`, `A.discard` as a free directly to avail
(`free_extent = true`) exactly when the offset of that list is not the sentinel, then,
when the next entry is flagged neither `DELETE` nor `ADD`, the regions of the three
lists of its state block `B` under the same test, and nothing of the next entry when
it is flagged `DELETE` or `ADD`.  None of these frees is at the sentinel offset; and
whatever the outcome of the processing from any state `s0`, no free it issues is at
the sentinel offset. -/
theorem delete_step_frees (env : Env) (i : Nat) (s s' : St)
    (h : delete_step env i s = .next s') :
    frees s'.trace = frees s.trace ++ delete_frees s i ∧
    (∀ f ∈ delete_frees s i, f.1 ≠ WT_BLOCK_INVALID_OFFSET) ∧
    (∀ s0 : St, ∃ t, (process_body env s0).st.trace = s0.trace ++ t ∧
      ∀ off size d, Call.free_ext off size d ∈ t → off ≠ WT_BLOCK_INVALID_OFFSET) := by
  refine ⟨delete_step_next_frees env i s s' h, delete_frees_ne_sentinel s i, fun s0 => ?_⟩
  obtain ⟨_, _, t, ht, hP⟩ := step_process_body frame_noSentinelFree
    (fun off size d hoff o z d' heq => by cases heq; exact hoff)
    (fun _ _ _ => trivial) (fun _ _ _ => trivial) (fun _ _ _ _ _ => trivial)
    (fun _ _ _ _ _ heq => by cases heq) env s0
  exact ⟨t, ht, fun off size d hc => hP _ hc off size d rfl⟩

/-- Witness of `delete_step_frees`: the deletion of `s2` in `[s1, s2 DELETE, s3, s4 ADD]`
after the preload: the root, the avail list and the discard list of `s2` (its alloc
list has the sentinel locator), then the three lists of `s3`. -/
theorem delete_step_frees_witness :
    delete_step (ex_env fun _ => 0) 1
        (take_lock (preload (ex_env fun _ => 0) (ex_state (ex_block true false) ex_delete_middle)).st)
      = .next (delete_step (ex_env fun _ => 0) 1
        (take_lock (preload (ex_env fun _ => 0) (ex_state (ex_block true false) ex_delete_middle)).st)).st ∧
    frees (delete_step (ex_env fun _ => 0) 1
        (take_lock (preload (ex_env fun _ => 0)
          (ex_state (ex_block true false) ex_delete_middle)).st)).st.trace
      = [(11, 2, false), (31, 2, true), (41, 2, true), (22, 2, true), (32, 2, true), (42, 2, true)] :=
  ⟨rfl, (delete_step_frees (ex_env fun _ => 0) 1
      (take_lock (preload (ex_env fun _ => 0) (ex_state (ex_block true false) ex_delete_middle)).st) _
      rfl).1.trans (by decide)⟩

/-! ## Status codes of the processing -/

theorem flow_bind_nz (x : Flow) (k : St → Flow) (hx : x.nz) (hk : ∀ s1, (k s1).nz) :
    (x.bind k).nz := by
  cases x with
  | next s1 => exact hk s1
  | err r s1 => exact hx
  | ret r s1 => exact hx
  | fault s1 => trivial

theorem WT_ERR_nz (env : Env) (c : Call) (eff : St → St) (s : St) : (WT_ERR env c eff s).nz := by
  unfold WT_ERR
  split
  · trivial
  · assumption

theorem WT_RET_nz (env : Env) (c : Call) (eff : St → St) (s : St) : (WT_RET env c eff s).nz := by
  unfold WT_RET
  split
  · trivial
  · assumption

theorem flow_asErr_nz (x : Flow) (h : x.nz) : x.asErr.nz := by
  cases x <;> exact h

theorem snapshot_string_nz (env : Env) (a : List Nat) (s : St) : (__snapshot_string env a s).nz := by
  unfold __snapshot_string
  repeat (first
    | exact WT_RET_nz env _ _ _
    | refine flow_bind_nz _ _ ?_ (fun s1 => ?_))

theorem delete_verbose_nz (env : Env) (a : List Nat) (s : St) : (delete_verbose env a s).nz := by
  unfold delete_verbose
  split
  · refine flow_bind_nz _ _ (WT_ERR_nz env _ _ _) (fun s1 => ?_)
    have := snapshot_string_nz env a s1
    cases hx : __snapshot_string env a s1 <;> rw [hx] at this <;> exact this
  · trivial

theorem update_verbose_nz (env : Env) (j : Nat) (s : St) : (update_verbose env j s).nz := by
  unfold update_verbose
  split
  · refine flow_bind_nz _ _ (WT_RET_nz env _ _ _) (fun s1 => ?_)
    have := snapshot_string_nz env ((s1.snaps[j]?).elim [] (fun e => e.raw.data)) s1
    cases hx : __snapshot_string env ((s1.snaps[j]?).elim [] (fun e => e.raw.data)) s1 <;>
      rw [hx] at this <;> exact this
  · trivial

theorem init_priv_nz (i : Nat) (s : St) : (init_priv i s).nz := by
  unfold init_priv
  split
  · trivial
  · assumption

theorem read_list_nz (env : Env) (si : Si) (w : El) (s : St) : (read_list env si w s).nz := by
  unfold read_list
  split
  · trivial
  · exact WT_ERR_nz env _ _ _

theorem preload_step_nz (env : Env) (i : Nat) (s : St) : (preload_step env i s).nz := by
  unfold preload_step
  split
  · trivial
  · split
    · trivial
    · refine flow_bind_nz _ _ (WT_ERR_nz env _ _ _) (fun s1 => ?_)
      refine flow_bind_nz _ _ (init_priv_nz i _) (fun s2 => ?_)
      refine flow_bind_nz _ _ (WT_ERR_nz env _ _ _) (fun s3 => ?_)
      refine flow_bind_nz _ _ (read_list_nz env _ _ _) (fun s4 => ?_)
      refine flow_bind_nz _ _ (read_list_nz env _ _ _) (fun s5 => ?_)
      exact read_list_nz env _ _ _

theorem free_region_nz (env : Env) (off size : Nat) (d : Bool) (s : St) :
    (free_region env off size d s).nz := by
  unfold free_region
  split
  · exact WT_ERR_nz env _ _ _
  · trivial

theorem free_lists_nz (env : Env) (v : WT_BLOCK_SNAPSHOT) (s : St) : (free_lists env v s).nz := by
  unfold free_lists
  refine flow_bind_nz _ _ (free_region_nz env _ _ _ _) (fun s1 => ?_)
  refine flow_bind_nz _ _ (free_region_nz env _ _ _ _) (fun s2 => ?_)
  exact free_region_nz env _ _ _ _

theorem merge_list_nz (env : Env) (a : WT_BLOCK_SNAPSHOT) (b : Si) (w : El) (s : St) :
    (merge_list env a b w s).nz := by
  unfold merge_list
  split
  · split
    · trivial
    · exact WT_ERR_nz env _ _ _
  · trivial

theorem match_lists_nz (env : Env) (b : Si) (s : St) : (match_lists env b s).nz := by
  unfold match_lists
  split
  · trivial
  · exact WT_ERR_nz env _ _ _

theorem delete_step_nz (env : Env) (i : Nat) (s : St) : (delete_step env i s).nz := by
  unfold delete_step
  split
  · trivial
  · split
    · trivial
    · refine flow_bind_nz _ _ (delete_verbose_nz env _ _) (fun s1 => ?_)
      split
      · trivial
      · refine flow_bind_nz _ _ (free_region_nz env _ _ _ _) (fun s2 => ?_)
        refine flow_bind_nz _ _ (free_lists_nz env _ _) (fun s3 => ?_)
        refine flow_bind_nz _ _ (merge_list_nz env _ _ _ _) (fun s4 => ?_)
        refine flow_bind_nz _ _ (merge_list_nz env _ _ _ _) (fun s5 => ?_)
        split
        · trivial
        · refine flow_bind_nz _ _ (match_lists_nz env _ _) (fun s6 => ?_)
          split
          · trivial
          · split
            · trivial
            · exact flow_bind_nz _ _ (free_lists_nz env _ _) (fun s7 => trivial)

theorem check_lists_nz (env : Env) (si : Si) (s : St) : (check_lists env si s).nz := by
  unfold check_lists
  split
  · split
    · trivial
    · exact WT_RET_nz env _ _ _
  · trivial

theorem write_list_nz (env : Env) (si : Si) (w : El) (s : St) : (write_list env si w s).nz := by
  unfold write_list
  split
  · trivial
  · exact WT_RET_nz env _ _ _

theorem encode_cookie_nz (env : Env) (j : Nat) (si : Si) (s : St) :
    (encode_cookie env j si s).nz := by
  unfold encode_cookie
  split
  · trivial
  · exact WT_RET_nz env _ _ _

theorem snapshot_update_nz (env : Env) (j : Nat) (si : Si) (s : St) :
    (__snapshot_update env j si s).nz := by
  unfold __snapshot_update
  refine flow_bind_nz _ _ (check_lists_nz env _ _) (fun s1 => ?_)
  refine flow_bind_nz _ _ (write_list_nz env _ _ _) (fun s2 => ?_)
  refine flow_bind_nz _ _ (write_list_nz env _ _ _) (fun s3 => ?_)
  refine flow_bind_nz _ _ (write_list_nz env _ _ _) (fun s4 => ?_)
  refine flow_bind_nz _ _ (WT_RET_nz env _ _ _) (fun s5 => ?_)
  refine flow_bind_nz _ _ (WT_RET_nz env _ _ _) (fun s6 => ?_)
  refine flow_bind_nz _ _ (encode_cookie_nz env _ _ _) (fun s7 => ?_)
  exact update_verbose_nz env _ _

theorem update_step_nz (env : Env) (i : Nat) (s : St) : (update_step env i s).nz := by
  unfold update_step
  split
  · trivial
  · split
    · trivial
    · exact flow_asErr_nz _ (snapshot_update_nz env _ _ _)

theorem live_update_step_nz (env : Env) (i : Nat) (s : St) : (live_update_step env i s).nz := by
  unfold live_update_step
  split
  · trivial
  · split
    · trivial
    · refine flow_bind_nz _ _ (WT_RET_nz env _ _ _) (fun s1 => ?_)
      exact flow_bind_nz _ _ (flow_asErr_nz _ (snapshot_update_nz env _ _ _)) (fun s2 => trivial)

theorem forEach_nz (f : Nat → St → Flow) (hf : ∀ i s, (f i s).nz) (l : List Nat) (s : St) :
    (forEach f l s).nz := by
  induction l generalizing s with
  | nil => trivial
  | cons i is ih => exact flow_bind_nz _ _ (hf i s) (fun s1 => ih s1)

theorem process_found_nz (env : Env) (s : St) : (process_found env s).nz := by
  unfold process_found
  refine flow_bind_nz _ _ (forEach_nz _ (delete_step_nz env) _ _) (fun s1 => ?_)
  refine flow_bind_nz _ _ (check_lists_nz env _ _) (fun s2 => ?_)
  exact forEach_nz _ (update_step_nz env) _ _

theorem process_body_nz (env : Env) (s : St) : (process_body env s).nz := by
  unfold process_body
  refine flow_bind_nz _ _ (forEach_nz _ (preload_step_nz env) _ _) (fun s1 => ?_)
  refine flow_bind_nz _ _ ?_ (fun s2 => forEach_nz _ (live_update_step_nz env) _ _)
  split
  · trivial
  · exact process_found_nz env _

/-- A successful `__snapshot_process` is a body that ran to its end, followed by the
cleanup. -/
theorem snapshot_process_ok (env : Env) (s s' : St) (h : __snapshot_process env s = .ret 0 s') :
    ∃ sB, process_body env s = .next sB ∧ s' = process_cleanup sB := by
  have hnz := process_body_nz env s
  unfold __snapshot_process at h
  cases hb : process_body env s with
  | next s1 =>
    rw [hb] at h
    simp only [Out.ret.injEq, true_and] at h
    exact ⟨s1, rfl, h.symm⟩
  | err r s1 =>
    rw [hb] at h hnz
    simp only [Out.ret.injEq] at h
    exact absurd h.1 hnz
  | ret r s1 =>
    rw [hb] at h hnz
    simp only [Out.ret.injEq] at h
    exact absurd h.1 hnz
  | fault s1 => rw [hb] at h; simp at h

/-! ## Rewritten snapshots -/

theorem encoded_append (j : Nat) (a b : List Call) : encoded j (a ++ b) = encoded j a ++ encoded j b := by
  induction a with
  | nil => rfl
  | cons c t ih =>
    cases c with
    | snapshot_to_buffer k v =>
      simp only [List.cons_append, encoded]
      split <;> simp [ih]
    | _ => simpa [encoded] using ih

theorem encoded_noEncodeAt (j : Nat) (t : List Call) (h : ∀ c ∈ t, NoEncodeAt j c) :
    encoded j t = [] := by
  induction t with
  | nil => rfl
  | cons c t ih =>
    have hc := h c (List.mem_cons_self _ _)
    have ht := ih (fun d hd => h d (List.mem_cons_of_mem _ hd))
    cases c with
    | snapshot_to_buffer k v =>
      simp only [encoded, ht]
      split
      · rename_i hk
        subst hk
        exact absurd rfl (hc v)
      · rfl
    | _ => simp only [encoded, ht]

/-- A step that encodes no cookie for the entry at index `j` leaves the list of the
state blocks encoded for it as it is. -/
theorem step_encoded {E : Nat → WT_SNAPSHOT → WT_SNAPSHOT → Prop} (j : Nat) (s s' : St)
    (h : Step E (NoEncodeAt j) s s') : encoded j s'.trace = encoded j s.trace := by
  obtain ⟨_, _, t, ht, hP⟩ := h
  rw [ht, encoded_append, encoded_noEncodeAt j t hP, List.append_nil]

/-- A step within a relation and a predicate is a step within weaker ones. -/
theorem step_mono {E1 E2 : Nat → WT_SNAPSHOT → WT_SNAPSHOT → Prop} {P1 P2 : Call → Prop}
    (s s' : St) (h : Step E1 P1 s s')
    (hE : ∀ j e e', s.snaps[j]? = some e → E1 j e e' → E2 j e e') (hP : ∀ c, P1 c → P2 c) :
    Step E2 P2 s s' := by
  obtain ⟨hl, he, t, ht, hp⟩ := h
  refine ⟨hl, fun j e hx => ?_, t, ht, fun c hc => hP c (hp c hc)⟩
  obtain ⟨e', he', hr⟩ := he j e hx
  exact ⟨e', he', hE j e e' hx hr⟩

theorem step_rewrite_cond_eq {P : Call → Prop} (s s' : St) (h : Step KeepsKind P s s') (j : Nat) :
    rewrite_cond s'.snaps j = rewrite_cond s.snaps j := by
  unfold rewrite_cond
  cases hx : s.snaps[j]? with
  | none =>
    have : s'.snaps[j]? = none := by
      rw [List.getElem?_eq_none_iff] at hx ⊢
      rw [h.1]; exact hx
    rw [this]
  | some e =>
    obtain ⟨e', he', hk⟩ := h.2.1 j e hx
    rw [he']
    simp only [hk.1, hk.2]
    cases hp : s.snaps[j - 1]? with
    | none =>
      have : s'.snaps[j - 1]? = none := by
        rw [List.getElem?_eq_none_iff] at hp ⊢
        rw [h.1]; exact hp
      rw [this]
    | some p =>
      obtain ⟨p', hp', hk'⟩ := h.2.1 (j - 1) p hp
      rw [hp']
      simp only [hk'.2]

theorem forEach_append (f : Nat → St → Flow) (l1 l2 : List Nat) (s : St) :
    forEach f (l1 ++ l2) s = (forEach f l1 s).bind (forEach f l2) := by
  induction l1 generalizing s with
  | nil => rfl
  | cons i is ih =>
    simp only [List.cons_append, forEach]
    cases f i s <;> simp [Flow.bind, ih]

/-- The indices below `n` are those below `k`, then `k`, then indices other than `k`. -/
theorem range_split (n k : Nat) (hk : k < n) :
    ∃ l, List.range n = List.range k ++ k :: l ∧ (∀ i ∈ l, i ≠ k) ∧ ∀ i ∈ List.range k, i ≠ k := by
  refine ⟨(List.range (n - k - 1)).map (fun x => k + 1 + x), ?_, ?_, ?_⟩
  · have h1 : n = k + (1 + (n - k - 1)) := by omega
    conv_lhs => rw [h1]
    rw [List.range_add, List.range_add]
    simp [List.range_succ, Nat.add_assoc]
  · intro i hi
    simp only [List.mem_map, List.mem_range] at hi
    obtain ⟨x, _, hx⟩ := hi
    omega
  · intro i hi
    simp only [List.mem_range] at hi
    omega

/-- A loop over the indices below `n` that runs to its end, cut at the index `k`. -/
theorem forEach_split (f : Nat → St → Flow) (n k : Nat) (hk : k < n) (s s' : St)
    (h : forEach f (List.range n) s = .next s') :
    ∃ l a b, (∀ i ∈ l, i ≠ k) ∧ forEach f (List.range k) s = .next a ∧ f k a = .next b ∧
      forEach f l b = .next s' := by
  obtain ⟨l, hl, h1, _⟩ := range_split n k hk
  rw [hl, forEach_append, flow_bind_next_iff] at h
  obtain ⟨a, ha, h⟩ := h
  simp only [forEach] at h
  rw [flow_bind_next_iff] at h
  obtain ⟨b, hb, h⟩ := h
  exact ⟨l, a, b, h1, ha, hb, h⟩

/-- A completed step of the deletion loop for a `DELETE` entry whose next entry is
flagged neither `DELETE` nor `ADD` has set `UPDATE` on the next entry. -/
theorem delete_step_marks (env : Env) (i : Nat) (s s' : St)
    (h : delete_step env i s = .next s') (e : WT_SNAPSHOT) (he : s.snaps[i]? = some e)
    (hdel : e.flags.delete = true) (hnd : (next_entry s i).flags.delete = false)
    (hna : (next_entry s i).flags.add = false) :
    ∃ e', s'.snaps[i + 1]? = some e' ∧ e'.flags.update = true := by
  unfold delete_step at h
  rw [he] at h
  simp only at h
  have hdel' : ¬ (e.flags.delete = false) := by simp [hdel]
  rw [if_neg hdel', flow_bind_next_iff] at h
  obtain ⟨s1, h1, h⟩ := h
  have q1 := sameObs_of_next s s1 _ (sameObs_delete_verbose env _ s) h1
  cases hbp : e.bpriv with
  | none => rw [hbp] at h; simp at h
  | some a =>
    rw [hbp] at h
    simp only at h
    rw [flow_bind_next_iff] at h
    obtain ⟨s2, h2, h⟩ := h
    rw [flow_bind_next_iff] at h
    obtain ⟨s3, h3, h⟩ := h
    rw [flow_bind_next_iff] at h
    obtain ⟨s4, h4, h⟩ := h
    rw [flow_bind_next_iff] at h
    obtain ⟨s5, h5, h⟩ := h
    have a2 := free_region_next env _ _ _ s1 s2 h2
    have a3 := free_lists_next env a s2 s3 h3
    have q4 := sameObs_of_next s3 s4 _ (sameObs_merge_list env a _ _ s3) h4
    have q5 := sameObs_of_next s4 s5 _ (sameObs_merge_list env a _ _ s4) h5
    have o5 : ∀ j : Nat, (s5.snaps[j]?).map entry_obs = (s.snaps[j]?).map entry_obs := by
      intro j
      rw [q5.1 j, q4.1 j, a3.1, a2.1]
      exact q1.1 j
    have n5 := next_entry_obs s s5 o5 i
    simp only [entry_obs, Prod.mk.injEq] at n5
    have hnd5 : ¬ ((next_entry s5 i).flags.delete = true) := by rw [n5.2.1, hnd]; simp
    rw [if_neg hnd5, flow_bind_next_iff] at h
    obtain ⟨s6, h6, h⟩ := h
    have q6 := sameObs_of_next s5 s6 _ (sameObs_match_lists env _ s5) h6
    have o6 : ∀ j : Nat, (s6.snaps[j]?).map entry_obs = (s.snaps[j]?).map entry_obs := by
      intro j; rw [q6.1 j]; exact o5 j
    have n6 := next_entry_obs s s6 o6 i
    simp only [entry_obs, Prod.mk.injEq] at n6
    have hna6 : ¬ ((next_entry s6 i).flags.add = true) := by rw [n6.1, hna]; simp
    rw [if_neg hna6] at h
    have hto : to_si s6 i = .priv (i + 1) := by
      unfold to_si; simp [hna6]
    rw [hto] at h
    cases hb : s6.getSi (.priv (i + 1)) with
    | none => rw [hb] at h; simp at h
    | some b =>
      rw [hb] at h
      simp only at h
      rw [flow_bind_next_iff] at h
      obtain ⟨s7, h7, h⟩ := h
      cases h
      have a7 := free_lists_next env b s6 s7 h7
      simp only [St.getSi] at hb
      cases he6 : s6.snaps[i + 1]? with
      | none => simp [he6] at hb
      | some e6 =>
        have hlt : i + 1 < s7.snaps.length := by
          rw [a7.1]; exact (List.getElem?_eq_some_iff.mp he6).1
        refine ⟨{ e6 with flags := { e6.flags with update := true } }, ?_, rfl⟩
        simp [mark_update, a7.1, he6, List.getElem?_set, hlt, a7.1 ▸ hlt]

theorem frame_marksOnly (i : Nat) : Frame (MarksOnly i) (fun _ => True) :=
  ⟨fun _ _ => ⟨⟨rfl, rfl⟩, Or.inl⟩,
   fun _ a b c h1 h2 => ⟨⟨h2.1.1.trans h1.1.1, h2.1.2.trans h1.1.2⟩, fun hc => by
     rcases h2.2 hc with hb | ⟨hk, hadd, hdel⟩
     · exact h1.2 hb
     · exact Or.inr ⟨hk, by rw [← h1.1.1]; exact hadd, by rw [← h1.1.2]; exact hdel⟩⟩,
   fun _ _ => trivial⟩

/-- What a step of the deletion loop does to the flags. -/
theorem delete_step_marksOnly (env : Env) (i : Nat) (s : St) :
    Step (MarksOnly i) (fun _ => True) s (delete_step env i s).st :=
  step_delete_step (frame_marksOnly i) admitsFree_true env i
    (fun _ _ => ⟨⟨rfl, rfl⟩, Or.inl⟩)
    (fun _ _ hadd hdel => ⟨⟨rfl, rfl⟩, fun _ => Or.inr ⟨rfl, hadd, hdel⟩⟩) s

theorem delete_step_skip (env : Env) (i : Nat) (s : St)
    (h : ∀ e, s.snaps[i]? = some e → e.flags.delete = false) : delete_step env i s = .next s := by
  unfold delete_step
  cases hx : s.snaps[i]? with
  | none => rfl
  | some e => simp [h e hx]

theorem step_keepsKind_of_marksOnly (i : Nat) (s s' : St)
    (h : Step (MarksOnly i) (fun _ => True) s s') : Step KeepsKind (fun _ => True) s s' :=
  step_mono s s' h (fun _ _ _ _ hr => hr.1) (fun _ hc => hc)

/-- After the deletion loop every entry flagged `UPDATE` meets the rewrite condition,
when none was flagged at the start. -/
theorem delete_loop_marks_only (env : Env) (s1 s' : St) (l : List Nat)
    (hupd : ∀ e ∈ s1.snaps, e.flags.update = false)
    (h : forEach (delete_step env) l s1 = .next s') :
    Step KeepsKind (fun _ => True) s1 s' ∧
    ∀ (k : Nat) (e : WT_SNAPSHOT), s'.snaps[k]? = some e → e.flags.update = true →
      rewrite_cond s1.snaps k = true := by
  have F := frame_keepsKind
  have h0 : MarkInv s1 [] s1 :=
    ⟨step_refl F s1, fun k e he hu => by rw [hupd e (List.getElem?_mem he)] at hu; cases hu⟩
  exact forEach_next_inv (delete_step env) (MarkInv s1) l [] s1 s' h0
    (fun i d a b _ hinv hs => by
      obtain ⟨hk, hm⟩ := hinv
      have qm := step_of_next a b _ (delete_step_marksOnly env i a) hs
      have qk := step_keepsKind_of_marksOnly i a b qm
      refine ⟨step_trans F _ _ _ hk qk, fun k e' he' hu' => ?_⟩
      obtain ⟨e, he, hr⟩ := step_entry_of a b qm k e' he'
      rcases hr.2 hu' with hu | ⟨hki, hadd, hdel⟩
      · exact hm k e he hu
      · subst hki
        cases hx : a.snaps[i]? with
        | none =>
          have := delete_step_skip env i a (fun x hx' => by rw [hx] at hx'; cases hx')
          rw [this] at hs
          cases hs
          exact hm _ e' he' hu'
        | some x =>
          cases hxd : x.flags.delete with
          | false =>
            have := delete_step_skip env i a (fun y hy => by rw [hx] at hy; cases hy; exact hxd)
            rw [this] at hs
            cases hs
            exact hm _ e' he' hu'
          | true =>
            rw [← step_rewrite_cond_eq s1 a hk (i + 1)]
            simp [rewrite_cond, he, hx, hxd, hadd, hdel]) h

theorem frame_updateMono : Frame UpdateMono (fun _ => True) :=
  ⟨fun _ _ h => h, fun _ _ _ _ h1 h2 h => h2 (h1 h), fun _ _ => trivial⟩

/-- After the deletion loop over all the entries, every entry that meets the rewrite
condition is flagged `UPDATE`. -/
theorem delete_loop_marks (env : Env) (s1 s' : St)
    (h : forEach (delete_step env) (List.range s1.snaps.length) s1 = .next s') (j : Nat)
    (hc : rewrite_cond s1.snaps j = true) :
    ∃ e', s'.snaps[j]? = some e' ∧ e'.flags.update = true := by
  have F := frame_keepsKind
  unfold rewrite_cond at hc
  cases hj : s1.snaps[j]? with
  | none => simp [hj] at hc
  | some ej =>
    rw [hj] at hc
    cases hp : s1.snaps[j - 1]? with
    | none => simp [hp] at hc
    | some p =>
      rw [hp] at hc
      simp only [Bool.and_eq_true, bne_iff_ne, ne_eq, Bool.not_eq_true'] at hc
      obtain ⟨⟨⟨hj0, hpd⟩, hjd⟩, hja⟩ := hc
      have hjlt : j < s1.snaps.length := (List.getElem?_eq_some_iff.mp hj).1
      have hk : j - 1 < s1.snaps.length := by omega
      have hj1 : j - 1 + 1 = j := by omega
      obtain ⟨l, a, b, _, ha, hb, hl⟩ := forEach_split (delete_step env) _ (j - 1) hk s1 s' h
      have qa : Step KeepsKind (fun _ => True) s1 a := by
        have := step_forEach F (delete_step env) (List.range (j - 1))
          (fun i _ t => step_delete_step F admitsFree_true env i (fun _ _ => ⟨rfl, rfl⟩)
            (fun _ _ _ _ => ⟨rfl, rfl⟩) t) s1
        rw [ha] at this; exact this
      obtain ⟨pa, hpa, hkp⟩ := qa.2.1 (j - 1) p hp
      obtain ⟨eja, heja, hkj⟩ := qa.2.1 j ej hj
      have hne : next_entry a (j - 1) = eja := by
        unfold next_entry; rw [hj1, heja]; rfl
      obtain ⟨eb, heb, hub⟩ := delete_step_marks env (j - 1) a b hb pa hpa
        (by rw [hkp.2]; exact hpd) (by rw [hne, hkj.2]; exact hjd) (by rw [hne, hkj.1]; exact hja)
      rw [hj1] at heb
      have qb : Step UpdateMono (fun _ => True) b s' := by
        have := step_forEach frame_updateMono (delete_step env) l
          (fun i _ t => step_delete_step frame_updateMono admitsFree_true env i (fun _ _ h => h)
            (fun _ _ _ _ _ => rfl) t) b
        rw [hl] at this; exact this
      obtain ⟨e', he', hm⟩ := qb.2.1 j eb heb
      exact ⟨e', he', hm hub⟩

theorem frame_keepsButPriv : Frame KeepsButPriv NoEncode :=
  ⟨fun _ _ => ⟨rfl, rfl, rfl⟩,
   fun _ _ _ _ h1 h2 => ⟨h2.1.trans h1.1, h2.2.1.trans h1.2.1, h2.2.2.trans h1.2.2⟩,
   fun c hc k v h => by subst h; simp [Call.plain] at hc⟩

theorem frame_keepsAll : Frame KeepsAll NoEncode :=
  ⟨fun _ _ => rfl, fun _ _ _ _ h1 h2 => h2.trans h1,
   fun c hc k v h => by subst h; simp [Call.plain] at hc⟩

theorem frame_keepsRaw : Frame KeepsRaw NoEncode :=
  ⟨fun _ _ => ⟨rfl, rfl, rfl⟩,
   fun _ _ _ _ h1 h2 => ⟨h2.1.trans h1.1, h2.2.1.trans h1.2.1, h2.2.2.trans h1.2.2⟩,
   fun c hc k v h => by subst h; simp [Call.plain] at hc⟩

theorem frame_keepsEntry (j : Nat) : Frame (KeepsEntry j) (NoEncodeAt j) :=
  ⟨fun _ _ _ => rfl, fun _ _ _ _ h1 h2 h => (h2 h).trans (h1 h),
   fun c hc v h => by subst h; simp [Call.plain] at hc⟩

theorem noEncode_at (j : Nat) (c : Call) (h : NoEncode c) : NoEncodeAt j c := fun v => h j v

theorem admitsSi_keepsButPriv (si : Si) : AdmitsSi KeepsButPriv si := by
  cases si with
  | live => trivial
  | priv i => exact fun _ _ => ⟨rfl, rfl, rfl⟩

/-- A completed `__snapshot_update` of the entry at index `j` from its own state block
has encoded exactly one cookie for it, that of a state block `v`, and has stored the
cookie in `raw` and left `v` in `bpriv`. -/
theorem snapshot_update_next (env : Env) (j : Nat) (s s' : St) (e : WT_SNAPSHOT)
    (h : __snapshot_update env j (.priv j) s = .next s') (he : s.snaps[j]? = some e) :
    ∃ v, encoded j s'.trace = encoded j s.trace ++ [v] ∧
      s'.snaps[j]? = some { e with
        raw := { data := env.encode v, size := (env.encode v).length }, bpriv := some v } := by
  have F := frame_keepsButPriv
  have hsi := admitsSi_keepsButPriv (.priv j)
  unfold __snapshot_update at h
  rw [flow_bind_next_iff] at h
  obtain ⟨s1, h1, h⟩ := h
  rw [flow_bind_next_iff] at h
  obtain ⟨s2, h2, h⟩ := h
  rw [flow_bind_next_iff] at h
  obtain ⟨s3, h3, h⟩ := h
  rw [flow_bind_next_iff] at h
  obtain ⟨s4, h4, h⟩ := h
  rw [flow_bind_next_iff] at h
  obtain ⟨s5, h5, h⟩ := h
  rw [flow_bind_next_iff] at h
  obtain ⟨s6, h6, h⟩ := h
  rw [flow_bind_next_iff] at h
  obtain ⟨s7, h7, h8⟩ := h
  have q1 := step_of_next s s1 _ (step_check_lists F env _ s) h1
  have q2 := step_of_next s1 s2 _ (step_write_list F env _ hsi _ s1) h2
  have q3 := step_of_next s2 s3 _ (step_write_list F env _ hsi _ s2) h3
  have q4 := step_of_next s3 s4 _ (step_write_list F env _ hsi _ s3) h4
  have q5 := step_of_next (P := NoEncode) s4 s5 _
    (step_WT_RET F env _ _ s4 (F.call .filesize rfl) (fun t => step_modSi F _ hsi _ t)) h5
  have q := step_trans F _ _ _ (step_trans F _ _ _ (step_trans F _ _ _ (step_trans F _ _ _ q1 q2) q3) q4) q5
  obtain ⟨e5, he5, hk5⟩ := q.2.1 j e he
  have enc5 : encoded j s5.trace = encoded j s.trace :=
    step_encoded j s s5 (step_mono s s5 q (fun _ _ _ _ hr => hr) (noEncode_at j))
  rw [WT_RET_next_iff] at h6
  obtain ⟨_, h6⟩ := h6
  have hlt5 : j < s5.snaps.length := (List.getElem?_eq_some_iff.mp he5).1
  have he6 : s6.snaps[j]? = some { e5 with raw := { data := [], size := 0 } } := by
    rw [h6]
    simp [raw_init, St.call, he5, List.getElem?_set, hlt5]
  have enc6 : encoded j s6.trace = encoded j s5.trace := by
    rw [h6]
    have : (raw_init j (s5.call env (.buf_init j)).2).trace = s5.trace ++ [.buf_init j] := by
      simp only [raw_init, St.call]
      cases s5.snaps[j]? <;> rfl
    rw [this, encoded_append]
    simp [encoded]
  unfold encode_cookie at h7
  cases hv : s6.getSi (.priv j) with
  | none => rw [hv] at h7; simp at h7
  | some v =>
    rw [hv] at h7
    simp only at h7
    rw [WT_RET_next_iff] at h7
    obtain ⟨_, h7⟩ := h7
    have hbv : e5.bpriv = some v := by
      simpa [St.getSi, he6] using hv
    have hlt6 : j < s6.snaps.length := (List.getElem?_eq_some_iff.mp he6).1
    have he7 : s7.snaps[j]? = some { e5 with
        raw := { data := env.encode v, size := (env.encode v).length } } := by
      rw [h7]
      simp [raw_store, St.call, he6, List.getElem?_set, hlt6]
    have enc7 : encoded j s7.trace = encoded j s6.trace ++ [v] := by
      rw [h7]
      have : (raw_store env j v (s6.call env (.snapshot_to_buffer j v)).2).trace
          = s6.trace ++ [.snapshot_to_buffer j v] := by
        simp only [raw_store, St.call]
        cases s6.snaps[j]? <;> rfl
      rw [this, encoded_append]
      simp [encoded]
    have q8 := step_of_next s7 s' _ (step_update_verbose frame_keepsAll env j s7) h8
    obtain ⟨e8, he8, hk8⟩ := q8.2.1 j _ he7
    have enc8 : encoded j s'.trace = encoded j s7.trace :=
      step_encoded j s7 s' (step_mono s7 s' q8 (fun _ _ _ _ hr => hr) (noEncode_at j))
    refine ⟨v, by rw [enc8, enc7, enc6, enc5], ?_⟩
    rw [he8, hk8]
    obtain ⟨hn, _, hf⟩ := hk5
    cases e5
    cases e
    simp only at hn hf hbv
    simp [hn, hf, hbv]

/-- A loop whose step for the entry at index `j` is skipped in every state in which that
entry is `e`, and whose other steps leave that entry alone and encode no cookie for
it, leaves the entry alone and encodes no cookie for it. -/
theorem untouched_loop (f : Nat → St → Flow) (j : Nat) (e : WT_SNAPSHOT)
    (hskip : ∀ s, s.snaps[j]? = some e → f j s = .next s)
    (hother : ∀ i, i ≠ j → ∀ s, Step (KeepsEntry j) (NoEncodeAt j) s (f i s).st)
    (l : List Nat) (s1 s' : St) (he : s1.snaps[j]? = some e) (h : forEach f l s1 = .next s') :
    Step (KeepsEntry j) (NoEncodeAt j) s1 s' := by
  have F := frame_keepsEntry j
  exact forEach_next_inv f (UntouchedInv j s1) l [] s1 s' (step_refl F s1)
    (fun i d a b _ hinv hs => by
      by_cases hij : i = j
      · subst hij
        obtain ⟨ea, hea, hk⟩ := hinv.2.1 i e he
        have := hk rfl
        subst this
        rw [hskip a hea] at hs
        cases hs
        exact hinv
      · exact step_trans F _ _ _ hinv (step_of_next a b _ (hother i hij a) hs)) h

theorem update_step_other (env : Env) (j i : Nat) (hij : i ≠ j) (s : St) :
    Step (KeepsEntry j) (NoEncodeAt j) s (update_step env i s).st :=
  step_update_step (frame_keepsEntry j) env i (fun _ _ h => absurd h hij)
    (fun _ _ h => by cases h; exact hij rfl) (fun _ _ h => absurd h hij) s

theorem live_update_step_other (env : Env) (j i : Nat) (hij : i ≠ j) (s : St) :
    Step (KeepsEntry j) (NoEncodeAt j) s (live_update_step env i s).st :=
  step_live_update_step (frame_keepsEntry j) env i (fun _ _ h => absurd h hij)
    (fun _ _ h => by cases h; exact hij rfl) s

theorem update_step_skip (env : Env) (j : Nat) (e : WT_SNAPSHOT) (hu : e.flags.update = false)
    (s : St) (he : s.snaps[j]? = some e) : update_step env j s = .next s := by
  unfold update_step
  rw [he]
  simp [hu]

theorem live_update_step_skip (env : Env) (j : Nat) (e : WT_SNAPSHOT) (ha : e.flags.add = false)
    (s : St) (he : s.snaps[j]? = some e) : live_update_step env j s = .next s := by
  unfold live_update_step
  rw [he]
  simp [ha]

/-- The update loop over all the entries, for an entry flagged `UPDATE`: one cookie is
encoded for it and stored in its `raw`. -/
theorem update_loop_rewrites (env : Env) (s s' : St) (j : Nat) (e : WT_SNAPSHOT)
    (he : s.snaps[j]? = some e) (hu : e.flags.update = true)
    (h : forEach (update_step env) (List.range s.snaps.length) s = .next s') :
    ∃ v, encoded j s'.trace = encoded j s.trace ++ [v] ∧
      s'.snaps[j]? = some { e with
        raw := { data := env.encode v, size := (env.encode v).length }, bpriv := some v } := by
  have F := frame_keepsEntry j
  have hj : j < s.snaps.length := (List.getElem?_eq_some_iff.mp he).1
  obtain ⟨l, a, b, hl, ha, hb, hr⟩ := forEach_split (update_step env) _ j hj s s' h
  have qa : Step (KeepsEntry j) (NoEncodeAt j) s a := by
    have := step_forEach F (update_step env) (List.range j)
      (fun i hi t => update_step_other env j i (by simp only [List.mem_range] at hi; omega) t) s
    rw [ha] at this; exact this
  obtain ⟨ea, hea, hka⟩ := qa.2.1 j e he
  have := hka rfl
  subst this
  have hb' : __snapshot_update env j (.priv j) a = .next b := by
    unfold update_step at hb
    rw [hea] at hb
    simp only [hu, Bool.true_eq_false, if_false] at hb
    exact (flow_asErr_next_iff _ _).mp hb
  obtain ⟨v, henc, hev⟩ := snapshot_update_next env j a b ea hb' hea
  have qb : Step (KeepsEntry j) (NoEncodeAt j) b s' := by
    have := step_forEach F (update_step env) l
      (fun i hi t => update_step_other env j i (hl i hi) t) b
    rw [hr] at this; exact this
  obtain ⟨e', he', hk'⟩ := qb.2.1 j _ hev
  refine ⟨v, ?_, ?_⟩
  · rw [step_encoded j b s' qb, henc, step_encoded j s a qa]
  · rw [he', hk' rfl]

theorem preload_keeps (env : Env) (s s1 : St) (h : preload env s = .next s1) :
    Step KeepsButPriv NoEncode s s1 := by
  have F := frame_keepsButPriv
  unfold preload at h
  have := step_forEach F (preload_step env) (List.range s.snaps.length)
    (fun i _ t => step_preload_step F env i (fun _ _ => ⟨rfl, rfl, rfl⟩) t)
    { s with tmp := false, locked := false, found := false }
  rw [h] at this
  exact step_trans F _ _ _ (step_of_eq F s _ rfl rfl) this

theorem delete_loop_keepsRaw (env : Env) (l : List Nat) (s : St) :
    Step KeepsRaw NoEncode s (forEach (delete_step env) l s).st :=
  step_forEach frame_keepsRaw (delete_step env) l
    (fun i _ t => step_delete_step frame_keepsRaw (fun _ _ _ _ _ _ h => by cases h) env i
      (fun _ _ => ⟨rfl, rfl, rfl⟩) (fun _ _ _ _ => ⟨rfl, rfl, rfl⟩) t) s

/-- The part of the processing between the taking of the lock and the `live_update`
label, for the entry at index `j`. -/
theorem middle_rewrites (env : Env) (t s2 : St)
    (hupd : ∀ e ∈ t.snaps, e.flags.update = false)
    (hfound : t.found = false → ∀ j, rewrite_cond t.snaps j = false)
    (h : (if t.found = false then Flow.next t else process_found env t) = .next s2)
    (j : Nat) (e : WT_SNAPSHOT) (he : t.snaps[j]? = some e) :
    ∃ e2, s2.snaps[j]? = some e2 ∧ e2.flags.add = e.flags.add ∧
      (e2.flags.update = true ↔ rewrite_cond t.snaps j = true) ∧
      (rewrite_cond t.snaps j = true →
        ∃ v, encoded j s2.trace = encoded j t.trace ++ [v] ∧
          e2.raw = { data := env.encode v, size := (env.encode v).length } ∧ e2.bpriv = some v) ∧
      (rewrite_cond t.snaps j = false →
        encoded j s2.trace = encoded j t.trace ∧ e2.raw = e.raw) := by
  by_cases hf : t.found = false
  · rw [if_pos hf] at h
    cases h
    have hc := hfound hf j
    have hu := hupd e (List.getElem?_mem he)
    refine ⟨e, he, rfl, ?_, ?_, ?_⟩
    · rw [hu, hc]
    · intro hcon; rw [hc] at hcon; cases hcon
    · intro _; exact ⟨rfl, rfl⟩
  · rw [if_neg hf] at h
    unfold process_found at h
    rw [flow_bind_next_iff] at h
    obtain ⟨sD, hD, h⟩ := h
    rw [flow_bind_next_iff] at h
    obtain ⟨sC, hC, hU⟩ := h
    have qD := step_of_next t sD _ (delete_loop_keepsRaw env _ t) hD
    obtain ⟨eD, heD, hkD⟩ := qD.2.1 j e he
    obtain ⟨_, hmk⟩ := delete_loop_marks_only env t sD _ hupd hD
    have hmarks := delete_loop_marks env t sD hD j
    have qC := step_of_next sD sC _ (step_check_lists frame_keepsAll env .live sD) hC
    obtain ⟨eC, heC, hkC⟩ := qC.2.1 j eD heD
    have hkC' : eC = eD := hkC
    subst hkC'
    have encC : encoded j sC.trace = encoded j t.trace := by
      rw [step_encoded j sD sC (step_mono sD sC qC (fun _ _ _ _ hr => hr) (noEncode_at j)),
        step_encoded j t sD (step_mono t sD qD (fun _ _ _ _ hr => hr) (noEncode_at j))]
    cases hu : eC.flags.update with
    | false =>
      have hc : rewrite_cond t.snaps j = false := by
        cases hcc : rewrite_cond t.snaps j with
        | false => rfl
        | true =>
          obtain ⟨x, hx, hxu⟩ := hmarks hcc
          rw [heD] at hx
          cases hx
          rw [hu] at hxu
          cases hxu
      have qU := untouched_loop (update_step env) j eC
        (fun a ha => update_step_skip env j eC hu a ha)
        (fun i hij a => update_step_other env j i hij a) _ sC s2 heC hU
      obtain ⟨e2, he2, hk2⟩ := qU.2.1 j eC heC
      have := hk2 rfl
      subst this
      refine ⟨e2, he2, hkD.2.1, ?_, ?_, ?_⟩
      · rw [hu, hc]
      · intro hcon; rw [hc] at hcon; cases hcon
      · intro _
        exact ⟨by rw [step_encoded j sC s2 qU, encC], hkD.1⟩
    | true =>
      have hc : rewrite_cond t.snaps j = true := hmk j eC heD hu
      obtain ⟨v, henc, hev⟩ := update_loop_rewrites env sC s2 j eC heC hu hU
      refine ⟨_, hev, hkD.2.1, ?_, ?_, ?_⟩
      · simp [hu, hc]
      · intro _
        exact ⟨v, by rw [henc, encC], rfl, rfl⟩
      · intro hcon; rw [hc] at hcon; cases hcon

/-- C3.  On a snapshot list none of whose entries is flagged `UPDATE` on entry (as in every
well-formed list) on which `__snapshot_process` succeeds, for every entry `s_j` that
is not flagged `ADD`: `s_j` ends up flagged `UPDATE` if and only if `j > 0`, `s_{j-1}`
is flagged `DELETE`, and `s_j` is flagged neither `DELETE` nor `ADD`; in that case
exactly one cookie was encoded for `s_j` (one `__snapshot_update` of it), from its own
state block `v`, and `raw` holds that encoding; otherwise no cookie was encoded for
it and its `raw` is unchanged. -/
theorem process_rewrites (env : Env) (s s' : St)
    (hupd : ∀ e ∈ s.snaps, e.flags.update = false)
    (h : __snapshot_process env s = .ret 0 s')
    (j : Nat) (e : WT_SNAPSHOT) (he : s.snaps[j]? = some e) (hadd : e.flags.add = false) :
    ∃ e', s'.snaps[j]? = some e' ∧
      (e'.flags.update = true ↔ rewrite_cond s.snaps j = true) ∧
      (rewrite_cond s.snaps j = true →
        ∃ v, encoded j s'.trace = encoded j s.trace ++ [v] ∧
          e'.raw = { data := env.encode v, size := (env.encode v).length } ∧
          e'.bpriv = (discard_priv { e with bpriv := some v }).bpriv) ∧
      (rewrite_cond s.snaps j = false →
        encoded j s'.trace = encoded j s.trace ∧ e'.raw = e.raw) := by
  obtain ⟨sB, hB, hs'⟩ := snapshot_process_ok env s s' h
  have hp : process_body env s = (preload env s).bind fun s =>
      (if (take_lock s).found = false then .next (take_lock s) else process_found env (take_lock s)).bind
        fun s => forEach (live_update_step env) (List.range s.snaps.length) s := rfl
  rw [hp, flow_bind_next_iff] at hB
  obtain ⟨s1, h1, hB⟩ := hB
  rw [flow_bind_next_iff] at hB
  obtain ⟨s2, hmid, hlive⟩ := hB
  have q1 := preload_keeps env s s1 h1
  obtain ⟨e1, he1, hk1⟩ := q1.2.1 j e he
  have enc1 : encoded j s1.trace = encoded j s.trace :=
    step_encoded j s s1 (step_mono s s1 q1 (fun _ _ _ _ hr => hr) (noEncode_at j))
  have qk : Step KeepsKind NoEncode s s1 :=
    step_mono s s1 q1 (fun _ _ _ _ hr => ⟨by rw [hr.2.2], by rw [hr.2.2]⟩) (fun _ hc => hc)
  have hrc : ∀ k, rewrite_cond (take_lock s1).snaps k = rewrite_cond s.snaps k :=
    fun k => step_rewrite_cond_eq s s1 qk k
  have hupd1 : ∀ x ∈ (take_lock s1).snaps, x.flags.update = false := by
    intro x hx
    obtain ⟨k, hk⟩ := List.mem_iff_getElem?.mp hx
    obtain ⟨x0, hx0, hr⟩ := step_entry_of s s1 q1 k x hk
    rw [hr.2.2]
    exact hupd x0 (List.getElem?_mem hx0)
  have hfound : (take_lock s1).found = false → ∀ k, rewrite_cond (take_lock s1).snaps k = false := by
    intro hf k
    rw [hrc k]
    cases hcc : rewrite_cond s.snaps k with
    | false => rfl
    | true =>
      exfalso
      have hfd := (preload_found env s s1 h1).2
      have : s1.found = true := by
        rw [hfd]
        unfold rewrite_cond at hcc
        cases hx : s.snaps[k]? with
        | none => simp [hx] at hcc
        | some x =>
          rw [hx] at hcc
          cases hp : s.snaps[k - 1]? with
          | none => simp [hp] at hcc
          | some p =>
            rw [hp] at hcc
            simp only [Bool.and_eq_true] at hcc
            exact ⟨k - 1, by simp [load_cond, hp, hcc.1.1.2]⟩
      have hf' : s1.found = false := hf
      rw [this] at hf'
      cases hf'
  obtain ⟨e2, he2, hadd2, hiff, htrue, hfalse⟩ :=
    middle_rewrites env (take_lock s1) s2 hupd1 hfound hmid j e1 he1
  have hadd2' : e2.flags.add = false := by rw [hadd2, hk1.2.2]; exact hadd
  have qL := untouched_loop (live_update_step env) j e2
    (fun a ha => live_update_step_skip env j e2 hadd2' a ha)
    (fun i hij a => live_update_step_other env j i hij a) _ s2 sB he2 hlive
  obtain ⟨eB, heB, hkB⟩ := qL.2.1 j e2 he2
  have := hkB rfl
  subst this
  have encB : encoded j sB.trace = encoded j s2.trace := step_encoded j s2 sB qL
  have he' : s'.snaps[j]? = some (discard_priv eB) := by
    rw [hs']
    simp [process_cleanup, heB]
  have htr : s'.trace = sB.trace := by rw [hs']; rfl
  refine ⟨discard_priv eB, he', ?_, ?_, ?_⟩
  · rw [← hrc j]; exact hiff
  · intro hc
    rw [← hrc j] at hc
    obtain ⟨v, henc, hraw, hbp⟩ := htrue hc
    refine ⟨v, ?_, hraw, ?_⟩
    · rw [htr, encB, henc]
      exact congrArg (· ++ [v]) enc1
    · simp [discard_priv, hbp]
  · intro hc
    rw [← hrc j] at hc
    obtain ⟨henc, hraw⟩ := hfalse hc
    exact ⟨by rw [htr, encB, henc]; exact enc1, by
      show eB.raw = e.raw
      rw [hraw, hk1.2.1]⟩

/-- Witness of `process_rewrites`: in `[s1, s2 DELETE, s3, s4 ADD]` the entry `s3` at
index 2 meets the rewrite condition and is rewritten; `s1` does not and keeps its
cookie. -/
theorem process_rewrites_witness :
    (∀ e ∈ (ex_state (ex_block true false) ex_delete_middle).snaps, e.flags.update = false) ∧
    __snapshot_process (ex_env fun _ => 0) (ex_state (ex_block true false) ex_delete_middle)
      = .ret 0 (__snapshot_process (ex_env fun _ => 0)
          (ex_state (ex_block true false) ex_delete_middle)).st ∧
    rewrite_cond (ex_state (ex_block true false) ex_delete_middle).snaps 2 = true ∧
    rewrite_cond (ex_state (ex_block true false) ex_delete_middle).snaps 0 = false ∧
    ((__snapshot_process (ex_env fun _ => 0)
        (ex_state (ex_block true false) ex_delete_middle)).st.snaps.map (fun e => e.raw.data))
      = [ex_c1, ex_c2, [1, 12, 2, 5, 100, 2, 9, 102, 2, 9, 104, 4, 11, 108, 3],
         [0, 0, 0, 0, 0, 0, 0, 108, 10, 17, 118, 2, 9, 120, 0]] ∧
    ∃ e', (__snapshot_process (ex_env fun _ => 0)
        (ex_state (ex_block true false) ex_delete_middle)).st.snaps[2]? = some e' ∧
      (e'.flags.update = true ↔
        rewrite_cond (ex_state (ex_block true false) ex_delete_middle).snaps 2 = true) :=
  ⟨by decide, rfl, by decide, by decide, by decide,
   (process_rewrites (ex_env fun _ => 0) (ex_state (ex_block true false) ex_delete_middle) _
      (by decide) rfl 2 (ex_entry "s3" ex_c3 false false) rfl rfl).imp
      (fun _ hx => ⟨hx.1, hx.2.1⟩)⟩

/-! ## Lists without an entry to add -/

theorem flow_bind_fails (x : Flow) (k : St → Flow) (hx : x.fails = false)
    (hk : ∀ s1, (k s1).fails = false) : (x.bind k).fails = false := by
  cases x with
  | next s1 => exact hk s1
  | err r s1 => exact hx
  | ret r s1 => exact hx
  | fault s1 => rfl

theorem WT_ERR_fails (env : Env) (hrc : ∀ n, env.rc n = 0) (c : Call) (eff : St → St) (s : St) :
    (WT_ERR env c eff s).fails = false := by
  unfold WT_ERR
  simp [St.call, hrc, Flow.fails]

theorem WT_RET_fails (env : Env) (hrc : ∀ n, env.rc n = 0) (c : Call) (eff : St → St) (s : St) :
    (WT_RET env c eff s).fails = false := by
  unfold WT_RET
  simp [St.call, hrc, Flow.fails]

theorem snapshot_string_fails (env : Env) (hrc : ∀ n, env.rc n = 0) (a : List Nat) (s : St) :
    (__snapshot_string env a s).fails = false := by
  unfold __snapshot_string
  repeat (first
    | exact WT_RET_fails env hrc _ _ _
    | refine flow_bind_fails _ _ ?_ (fun s1 => ?_))

theorem delete_verbose_fails (env : Env) (hrc : ∀ n, env.rc n = 0) (a : List Nat) (s : St) :
    (delete_verbose env a s).fails = false := by
  unfold delete_verbose
  split
  · refine flow_bind_fails _ _ (WT_ERR_fails env hrc _ _ _) (fun s1 => ?_)
    have := snapshot_string_fails env hrc a s1
    cases hx : __snapshot_string env a s1 <;> rw [hx] at this <;> first | rfl | exact this
  · rfl

theorem update_verbose_fails (env : Env) (hrc : ∀ n, env.rc n = 0) (j : Nat) (s : St) :
    (update_verbose env j s).fails = false := by
  unfold update_verbose
  split
  · refine flow_bind_fails _ _ (WT_RET_fails env hrc _ _ _) (fun s1 => ?_)
    have := snapshot_string_fails env hrc ((s1.snaps[j]?).elim [] (fun e => e.raw.data)) s1
    cases hx : __snapshot_string env ((s1.snaps[j]?).elim [] (fun e => e.raw.data)) s1 <;>
      rw [hx] at this <;> first | rfl | exact this
  · rfl

theorem init_priv_fails (i : Nat) (s : St) : (init_priv i s).fails = false := by
  unfold init_priv __wt_block_snap_init
  simp [Flow.fails]

theorem read_list_fails (env : Env) (hrc : ∀ n, env.rc n = 0) (si : Si) (w : El) (s : St) :
    (read_list env si w s).fails = false := by
  unfold read_list
  split
  · rfl
  · exact WT_ERR_fails env hrc _ _ _

theorem preload_step_fails (env : Env) (hrc : ∀ n, env.rc n = 0) (i : Nat) (s : St) :
    (preload_step env i s).fails = false := by
  unfold preload_step
  split
  · rfl
  · split
    · rfl
    · refine flow_bind_fails _ _ (WT_ERR_fails env hrc _ _ _) (fun s1 => ?_)
      refine flow_bind_fails _ _ (init_priv_fails i _) (fun s2 => ?_)
      refine flow_bind_fails _ _ (WT_ERR_fails env hrc _ _ _) (fun s3 => ?_)
      refine flow_bind_fails _ _ (read_list_fails env hrc _ _ _) (fun s4 => ?_)
      refine flow_bind_fails _ _ (read_list_fails env hrc _ _ _) (fun s5 => ?_)
      exact read_list_fails env hrc _ _ _

theorem free_region_fails (env : Env) (hrc : ∀ n, env.rc n = 0) (off size : Nat) (d : Bool) (s : St) :
    (free_region env off size d s).fails = false := by
  unfold free_region
  split
  · exact WT_ERR_fails env hrc _ _ _
  · rfl

theorem free_lists_fails (env : Env) (hrc : ∀ n, env.rc n = 0) (v : WT_BLOCK_SNAPSHOT) (s : St) :
    (free_lists env v s).fails = false := by
  unfold free_lists
  refine flow_bind_fails _ _ (free_region_fails env hrc _ _ _ _) (fun s1 => ?_)
  refine flow_bind_fails _ _ (free_region_fails env hrc _ _ _ _) (fun s2 => ?_)
  exact free_region_fails env hrc _ _ _ _

theorem merge_list_fails (env : Env) (hrc : ∀ n, env.rc n = 0) (a : WT_BLOCK_SNAPSHOT) (b : Si)
    (w : El) (s : St) : (merge_list env a b w s).fails = false := by
  unfold merge_list
  split
  · split
    · rfl
    · exact WT_ERR_fails env hrc _ _ _
  · rfl

theorem match_lists_fails (env : Env) (hrc : ∀ n, env.rc n = 0) (b : Si) (s : St) :
    (match_lists env b s).fails = false := by
  unfold match_lists
  split
  · rfl
  · exact WT_ERR_fails env hrc _ _ _

theorem delete_step_fails (env : Env) (hrc : ∀ n, env.rc n = 0) (i : Nat) (s : St) :
    (delete_step env i s).fails = false := by
  unfold delete_step
  split
  · rfl
  · split
    · rfl
    · refine flow_bind_fails _ _ (delete_verbose_fails env hrc _ _) (fun s1 => ?_)
      split
      · rfl
      · refine flow_bind_fails _ _ (free_region_fails env hrc _ _ _ _) (fun s2 => ?_)
        refine flow_bind_fails _ _ (free_lists_fails env hrc _ _) (fun s3 => ?_)
        refine flow_bind_fails _ _ (merge_list_fails env hrc _ _ _ _) (fun s4 => ?_)
        refine flow_bind_fails _ _ (merge_list_fails env hrc _ _ _ _) (fun s5 => ?_)
        split
        · rfl
        · refine flow_bind_fails _ _ (match_lists_fails env hrc _ _) (fun s6 => ?_)
          split
          · rfl
          · split
            · rfl
            · exact flow_bind_fails _ _ (free_lists_fails env hrc _ _) (fun s7 => rfl)

theorem check_lists_fails (env : Env) (hrc : ∀ n, env.rc n = 0) (si : Si) (s : St) :
    (check_lists env si s).fails = false := by
  unfold check_lists
  split
  · split
    · rfl
    · exact WT_RET_fails env hrc _ _ _
  · rfl

theorem write_list_fails (env : Env) (hrc : ∀ n, env.rc n = 0) (si : Si) (w : El) (s : St) :
    (write_list env si w s).fails = false := by
  unfold write_list
  split
  · rfl
  · exact WT_RET_fails env hrc _ _ _

theorem encode_cookie_fails (env : Env) (hrc : ∀ n, env.rc n = 0) (j : Nat) (si : Si) (s : St) :
    (encode_cookie env j si s).fails = false := by
  unfold encode_cookie
  split
  · rfl
  · exact WT_RET_fails env hrc _ _ _

theorem snapshot_update_fails (env : Env) (hrc : ∀ n, env.rc n = 0) (j : Nat) (si : Si) (s : St) :
    (__snapshot_update env j si s).fails = false := by
  unfold __snapshot_update
  refine flow_bind_fails _ _ (check_lists_fails env hrc _ _) (fun s1 => ?_)
  refine flow_bind_fails _ _ (write_list_fails env hrc _ _ _) (fun s2 => ?_)
  refine flow_bind_fails _ _ (write_list_fails env hrc _ _ _) (fun s3 => ?_)
  refine flow_bind_fails _ _ (write_list_fails env hrc _ _ _) (fun s4 => ?_)
  refine flow_bind_fails _ _ (WT_RET_fails env hrc _ _ _) (fun s5 => ?_)
  refine flow_bind_fails _ _ (WT_RET_fails env hrc _ _ _) (fun s6 => ?_)
  refine flow_bind_fails _ _ (encode_cookie_fails env hrc _ _ _) (fun s7 => ?_)
  exact update_verbose_fails env hrc _ _

theorem flow_asErr_fails (x : Flow) (h : x.fails = false) : x.asErr.fails = false := by
  cases x <;> first | rfl | exact h

theorem update_step_fails (env : Env) (hrc : ∀ n, env.rc n = 0) (i : Nat) (s : St) :
    (update_step env i s).fails = false := by
  unfold update_step
  split
  · rfl
  · split
    · rfl
    · exact flow_asErr_fails _ (snapshot_update_fails env hrc _ _ _)

theorem live_update_step_fails (env : Env) (hrc : ∀ n, env.rc n = 0) (i : Nat) (s : St) :
    (live_update_step env i s).fails = false := by
  unfold live_update_step
  split
  · rfl
  · split
    · rfl
    · refine flow_bind_fails _ _ (WT_RET_fails env hrc _ _ _) (fun s1 => ?_)
      exact flow_bind_fails _ _ (flow_asErr_fails _ (snapshot_update_fails env hrc _ _ _))
        (fun s2 => rfl)

theorem forEach_fails (f : Nat → St → Flow) (hf : ∀ i s, (f i s).fails = false) (l : List Nat)
    (s : St) : (forEach f l s).fails = false := by
  induction l generalizing s with
  | nil => rfl
  | cons i is ih => exact flow_bind_fails _ _ (hf i s) (fun s1 => ih s1)

theorem process_body_fails (env : Env) (hrc : ∀ n, env.rc n = 0) (s : St) :
    (process_body env s).fails = false := by
  unfold process_body
  refine flow_bind_fails _ _ (forEach_fails _ (preload_step_fails env hrc) _ _) (fun s1 => ?_)
  refine flow_bind_fails _ _ ?_ (fun s2 => forEach_fails _ (live_update_step_fails env hrc) _ _)
  split
  · rfl
  · unfold process_found
    refine flow_bind_fails _ _ (forEach_fails _ (delete_step_fails env hrc) _ _) (fun s3 => ?_)
    refine flow_bind_fails _ _ (check_lists_fails env hrc _ _) (fun s4 => ?_)
    exact forEach_fails _ (update_step_fails env hrc) _ _

/-- C8 (as amended).  The snapshot operation does not look for an entry flagged `ADD`: on
a snapshot list that has none, in which every `DELETE` entry has an entry after it
and no entry is flagged `UPDATE`, it returns 0, not an error, when every
collaborator call succeeds. -/
theorem snapshot_without_add (env : Env) (buf : Option WT_ITEM) (s : St)
    (_hadd : ∀ e ∈ s.snaps, e.flags.add = false)
    (hsucc : ∀ (i : Nat) (e : WT_SNAPSHOT), s.snaps[i]? = some e → e.flags.delete = true →
      i + 1 < s.snaps.length)
    (hupd : ∀ e ∈ s.snaps, e.flags.update = false)
    (hrc : ∀ n, env.rc n = 0) :
    (__wt_block_snapshot env buf s).rc = some 0 := by
  have key : ∀ t : St, t.snaps = s.snaps → ∃ t', __snapshot_process env t = .ret 0 t' := by
    intro t ht
    have hf := process_body_isFault env t (by rw [ht]; exact hsucc) (by rw [ht]; exact hupd)
    have hn := process_body_fails env hrc t
    unfold __snapshot_process
    cases hb : process_body env t with
    | next t1 => exact ⟨_, rfl⟩
    | err r t1 => rw [hb] at hn; cases hn
    | ret r t1 => rw [hb] at hn; cases hn
    | fault t1 => rw [hb] at hf; cases hf
  unfold __wt_block_snapshot
  cases buf with
  | none =>
    simp only [snapshot_root]
    obtain ⟨t', ht'⟩ := key (s.setSi .live { s.block.live with
      version := WT_BM_SNAPSHOT_VERSION, root_offset := WT_BLOCK_INVALID_OFFSET, root_size := 0,
      root_cksum := 0 }) rfl
    rw [ht']
    simp [St.call, hrc, Out.rc]
  | some b =>
    simp only [snapshot_root, WT_RET, St.call, hrc, if_true]
    obtain ⟨t', ht'⟩ := key (write_root env b
      { block := (s.setSi .live { s.block.live with version := WT_BM_SNAPSHOT_VERSION }).block
        snaps := (s.setSi .live { s.block.live with version := WT_BM_SNAPSHOT_VERSION }).snaps
        dsk := (s.setSi .live { s.block.live with version := WT_BM_SNAPSHOT_VERSION }).dsk
        ncalls := (s.setSi .live { s.block.live with version := WT_BM_SNAPSHOT_VERSION }).ncalls + 1
        trace := (s.setSi .live { s.block.live with version := WT_BM_SNAPSHOT_VERSION }).trace ++ [.write_off b]
        found := (s.setSi .live { s.block.live with version := WT_BM_SNAPSHOT_VERSION }).found
        locked := (s.setSi .live { s.block.live with version := WT_BM_SNAPSHOT_VERSION }).locked
        tmp := (s.setSi .live { s.block.live with version := WT_BM_SNAPSHOT_VERSION }).tmp }) rfl
    rw [ht']
    simp [St.call, hrc, Out.rc]

/-- Witness of `snapshot_without_add`: the list `[s1 DELETE, s2]`. -/
theorem snapshot_without_add_witness :
    (∀ e ∈ (ex_state (ex_block true false)
        [ex_entry "s1" ex_c1 false true, ex_entry "s2" ex_c2 false false]).snaps,
      e.flags.add = false) ∧
    (__wt_block_snapshot (ex_env fun _ => 0) none (ex_state (ex_block true false)
        [ex_entry "s1" ex_c1 false true, ex_entry "s2" ex_c2 false false])).rc = some 0 :=
  ⟨by decide, snapshot_without_add (ex_env fun _ => 0) none _ (by decide)
    (fun i e he hdel => by
      have h2 : i < 2 := (List.getElem?_eq_some_iff.mp he).1
      match i, h2 with
      | 0, _ => decide
      | 1, _ =>
        simp [ex_state, ex_entry] at he
        subst he
        cases hdel)
    (by decide) (fun _ => rfl)⟩

/-! ## What the preload loads -/

/-- A store through `bpriv` of the entry at index `i`, in a state whose snapshot array is
`l` with the state block `v` in that entry. -/
theorem modSi_priv_set (l : List WT_SNAPSHOT) (t : St) (i : Nat) (e : WT_SNAPSHOT)
    (v : WT_BLOCK_SNAPSHOT) (f : WT_BLOCK_SNAPSHOT → WT_BLOCK_SNAPSHOT) (hi : i < l.length)
    (ht : t.snaps = l.set i { e with bpriv := some v }) :
    (t.modSi (.priv i) f).snaps = l.set i { e with bpriv := some (f v) } ∧
      (t.modSi (.priv i) f).trace = t.trace ∧ t.getSi (.priv i) = some v := by
  have hx : t.snaps[i]? = some { e with bpriv := some v } := by
    rw [ht]; simp [List.getElem?_set, hi]
  have hg : t.getSi (.priv i) = some v := by simp [St.getSi, hx]
  refine ⟨?_, ?_, hg⟩
  · simp only [St.modSi, hg, St.setSi, hx]
    rw [ht, List.set_set]
  · simp only [St.modSi, hg, St.setSi, hx]

theorem read_list_exact (env : Env) (l : List WT_SNAPSHOT) (t t' : St) (i : Nat) (e : WT_SNAPSHOT)
    (v : WT_BLOCK_SNAPSHOT) (w : El) (hi : i < l.length)
    (ht : t.snaps = l.set i { e with bpriv := some v })
    (h : read_list env (.priv i) w t = .next t') :
    t'.snaps = l.set i { e with bpriv := some (read_one env w v) } ∧
      t'.trace = t.trace ++ [.extlist_read (w.get v)] := by
  have hg := (modSi_priv_set l t i e v id hi ht).2.2
  unfold read_list at h
  rw [hg] at h
  simp only at h
  rw [WT_ERR_next_iff] at h
  rw [h.2]
  have := modSi_priv_set l (t.call env (.extlist_read (w.get v))).2 i e v
    (fun v => w.set v (extlist_read env (w.get v))) hi ht
  exact ⟨this.1, this.2.1⟩

/-- A completed step of the first loop for an entry that meets the load test: `bpriv`
holds the loaded state block, and the calls made are the five loading calls. -/
theorem preload_step_exact (env : Env) (i : Nat) (s s' : St) (e : WT_SNAPSHOT)
    (he : s.snaps[i]? = some e) (hc : load_cond s.snaps i = true)
    (h : preload_step env i s = .next s') :
    s'.snaps = s.snaps.set i (loaded_entry env e) ∧
      s'.trace = s.trace ++ preload_calls env i e.raw.data := by
  have hi : i < s.snaps.length := (List.getElem?_eq_some_iff.mp he).1
  unfold preload_step at h
  rw [he] at h
  simp only at h
  rw [load_cond_eq_test s i e he, hc] at h
  simp only [Bool.not_true, Bool.false_eq_true, if_false] at h
  rw [flow_bind_next_iff] at h
  obtain ⟨s1, h1, h⟩ := h
  rw [flow_bind_next_iff] at h
  obtain ⟨s2, h2, h⟩ := h
  rw [flow_bind_next_iff] at h
  obtain ⟨s3, h3, h⟩ := h
  rw [flow_bind_next_iff] at h
  obtain ⟨s4, h4, h⟩ := h
  rw [flow_bind_next_iff] at h
  obtain ⟨s5, h5, h6⟩ := h
  rw [WT_ERR_next_iff] at h1
  have a1 : s1.snaps = s.snaps.set i { e with bpriv := some calloc_value } ∧
      s1.trace = s.trace ++ [.calloc i] := by
    rw [h1.2]
    simp [calloc_effect, St.call, he]
  have a2 : s2.snaps = s.snaps.set i { e with bpriv := some snap_init_value } ∧
      s2.trace = s1.trace := by
    simp only [init_priv, __wt_block_snap_init, Bool.false_eq_true, if_false, if_true,
      Flow.next.injEq] at h2
    rw [← h2]
    have hx : s1.snaps[i]? = some { e with bpriv := some calloc_value } := by
      rw [a1.1]; simp [List.getElem?_set, hi]
    simp only [St.setSi, hx]
    rw [a1.1, List.set_set]
    exact ⟨rfl, trivial⟩
  rw [WT_ERR_next_iff] at h3
  have a3 : s3.snaps = s.snaps.set i { e with bpriv := some (env.decode e.raw.data snap_init_value) } ∧
      s3.trace = s2.trace ++ [.buffer_to_snapshot e.raw.data] := by
    rw [h3.2]
    have := modSi_priv_set s.snaps (s2.call env (.buffer_to_snapshot e.raw.data)).2 i e
      snap_init_value (env.decode e.raw.data) hi a2.1
    exact ⟨this.1, this.2.1⟩
  have a4 := read_list_exact env s.snaps s3 s4 i e _ .alloc hi a3.1 h4
  have a5 := read_list_exact env s.snaps s4 s5 i e _ .avail hi a4.1 h5
  have a6 := read_list_exact env s.snaps s5 s' i e _ .discard hi a5.1 h6
  refine ⟨a6.1, ?_⟩
  rw [a6.2, a5.2, a4.2, a3.2, a2.2, a1.2]
  simp [preload_calls, El.get]

theorem preload_trace_append (env : Env) (l : List WT_SNAPSHOT) (d1 d2 : List Nat) :
    preload_trace env l (d1 ++ d2) = preload_trace env l d1 ++ preload_trace env l d2 := by
  unfold preload_trace
  exact List.flatMap_append _ _ _

/-- The state and the trace when the first loop has run to its end. -/
theorem preload_exact (env : Env) (s s' : St) (h : preload env s = .next s') :
    (∀ j : Nat, s'.snaps[j]? =
      (s.snaps[j]?).map (fun e => if load_cond s.snaps j = true then loaded_entry env e else e)) ∧
    s'.trace = s.trace ++ preload_trace env s.snaps (List.range s.snaps.length) := by
  have F := frame_keepsLoaded
  unfold preload at h
  have h0 : ExactInv env s [] { s with tmp := false, locked := false, found := false } :=
    ⟨step_of_eq F _ _ rfl rfl, fun j => by cases s.snaps[j]? <;> simp, by simp [preload_trace]⟩
  have hinv := forEach_next_inv (preload_step env) (ExactInv env s) (List.range s.snaps.length) [] _ s' h0
    (fun i d a b _ hinv hs => by
      obtain ⟨hl, hent, htr⟩ := hinv
      have hc1 : load_cond a.snaps i = load_cond s.snaps i := step_load_cond_eq s a hl i
      have ql := step_of_next a b _
        (step_preload_step frame_keepsLoaded env i (admitsPriv_keepsLoaded i) a) hs
      refine ⟨step_trans F _ _ _ hl ql, ?_, ?_⟩
      · intro j
        cases hc : load_cond s.snaps i with
        | false =>
          rw [hc] at hc1
          rw [preload_step_skip env i a hc1] at hs
          cases hs
          rw [hent j]
          cases hx : s.snaps[j]? with
          | none => rfl
          | some e0 =>
            simp only [Option.map_some', Option.some.injEq, List.mem_append, List.mem_singleton]
            by_cases hji : j = i
            · subst hji; simp [hc]
            · simp [hji]
        | true =>
          rw [hc] at hc1
          cases hai : a.snaps[i]? with
          | none => simp [load_cond, hai] at hc1
          | some ea =>
            obtain ⟨hb, _⟩ := preload_step_exact env i a b ea hai hc1 hs
            have hilt : i < a.snaps.length := (List.getElem?_eq_some_iff.mp hai).1
            rw [hb]
            by_cases hji : i = j
            · subst hji
              have h0i := hent i
              rw [hai] at h0i
              cases hx : s.snaps[i]? with
              | none => rw [hx] at h0i; simp at h0i
              | some e0 =>
                rw [hx] at h0i
                simp only [Option.map_some', Option.some.injEq] at h0i
                have hea : loaded_entry env ea = loaded_entry env e0 := by
                  rw [h0i]
                  split <;> rfl
                simp [List.getElem?_set, hilt, hc, hea]
            · rw [List.getElem?_set, if_neg hji, hent j]
              cases hx : s.snaps[j]? with
              | none => rfl
              | some e0 =>
                have hji' : ¬ j = i := fun hh => hji hh.symm
                simp [hji']
      · rw [preload_trace_append]
        cases hc : load_cond s.snaps i with
        | false =>
          rw [hc] at hc1
          rw [preload_step_skip env i a hc1] at hs
          cases hs
          rw [htr]
          have : preload_trace env s.snaps [i] = [] := by
            simp only [preload_trace, List.flatMap_cons, List.flatMap_nil, List.append_nil]
            cases s.snaps[i]? <;> simp [hc]
          rw [this, List.append_nil]
        | true =>
          rw [hc] at hc1
          cases hai : a.snaps[i]? with
          | none => simp [load_cond, hai] at hc1
          | some ea =>
            obtain ⟨_, hbt⟩ := preload_step_exact env i a b ea hai hc1 hs
            have h0i := hent i
            rw [hai] at h0i
            cases hx : s.snaps[i]? with
            | none => rw [hx] at h0i; simp at h0i
            | some e0 =>
              rw [hx] at h0i
              simp only [Option.map_some', Option.some.injEq] at h0i
              have hraw : ea.raw = e0.raw := by
                rw [h0i]
                split <;> rfl
              have : preload_trace env s.snaps [i] = preload_calls env i e0.raw.data := by
                simp [preload_trace, hx, hc]
              rw [this, hbt, htr, hraw, List.append_assoc]) h
  obtain ⟨_, hent, htr⟩ := hinv
  refine ⟨fun j => ?_, by simpa using htr⟩
  rw [hent j]
  cases hx : s.snaps[j]? with
  | none => rfl
  | some e0 =>
    have hj : j < s.snaps.length := (List.getElem?_eq_some_iff.mp hx).1
    simp [hj]

theorem calloc_mem_preload_trace (env : Env) (l : List WT_SNAPSHOT) (done : List Nat) (i : Nat)
    (h : Call.calloc i ∈ preload_trace env l done) : load_cond l i = true := by
  unfold preload_trace at h
  rw [List.mem_flatMap] at h
  obtain ⟨j, _, hj⟩ := h
  cases hx : l[j]? with
  | none => rw [hx] at hj; simp at hj
  | some e =>
    rw [hx] at hj
    simp only at hj
    by_cases hc : load_cond l j = true
    · rw [if_pos hc] at hj
      simp [preload_calls] at hj
      subst hj
      exact hc
    · rw [if_neg hc] at hj
      simp at hj

/-- For every entry, whatever its flags: it is loaded by the first loop exactly when it
meets the load test, and otherwise it is left as it is and nothing is allocated for
it. -/
theorem preload_loaded_cond (env : Env) (s s' : St) (h : preload env s = .next s')
    (i : Nat) (e : WT_SNAPSHOT) (he : s.snaps[i]? = some e) :
    (Loaded env i e (preload_trace env s.snaps (List.range s.snaps.length)) s' ↔
      load_cond s.snaps i = true) ∧
    (load_cond s.snaps i = false →
      s'.snaps[i]? = some e ∧
        Call.calloc i ∉ preload_trace env s.snaps (List.range s.snaps.length)) := by
  obtain ⟨hent, _⟩ := preload_exact env s s' h
  have hi : i < s.snaps.length := (List.getElem?_eq_some_iff.mp he).1
  have hst := hent i
  rw [he] at hst
  simp only [Option.map_some'] at hst
  constructor
  · constructor
    · intro hl
      obtain ⟨⟨a, b, hab⟩, _⟩ := hl
      apply calloc_mem_preload_trace env s.snaps (List.range s.snaps.length) i
      rw [← hab]
      simp [preload_calls]
    · intro hc
      refine ⟨?_, by rw [hst, if_pos hc]⟩
      obtain ⟨l, hl, _, _⟩ := range_split s.snaps.length i hi
      rw [hl, preload_trace_append]
      refine ⟨preload_trace env s.snaps (List.range i), preload_trace env s.snaps l, ?_⟩
      have : preload_trace env s.snaps (i :: l)
          = preload_calls env i e.raw.data ++ preload_trace env s.snaps l := by
        simp [preload_trace, he, hc]
      rw [this, List.append_assoc]
  · intro hc
    refine ⟨by rw [hst]; simp [hc], fun hmem => ?_⟩
    have := calloc_mem_preload_trace env s.snaps _ i hmem
    rw [hc] at this
    cases this

/-- C9 (as amended).  When the preload pass of `__snapshot_process` runs to its end, with
`t` the calls it has made: for every entry `s_i` not flagged `ADD`, the state block of
`s_i` is loaded (`bpriv` allocated, the cookie decoded, its alloc, avail and discard
lists read, and `bpriv` left holding the result) if and only if `s_i` is flagged
`DELETE`, or `i > 0` and `s_{i-1}` is flagged `DELETE`; otherwise the entry is left as
it is and nothing is allocated for it (the first entry is loaded only when it is
itself flagged `DELETE`); and `found` is set exactly when at least one entry was
loaded. -/
theorem preload_loads_exactly (env : Env) (s s' : St) (h : preload env s = .next s') :
    ∃ t, s'.trace = s.trace ++ t ∧
      (∀ (i : Nat) (e : WT_SNAPSHOT), s.snaps[i]? = some e → e.flags.add = false →
        (Loaded env i e t s' ↔ (e.flags.delete = true ∨ (0 < i ∧ prev_delete s i = true))) ∧
        (¬ (e.flags.delete = true ∨ (0 < i ∧ prev_delete s i = true)) →
          s'.snaps[i]? = some e ∧ Call.calloc i ∉ t)) ∧
      (s'.found = true ↔ ∃ (i : Nat) (e : WT_SNAPSHOT), s.snaps[i]? = some e ∧ Loaded env i e t s') := by
  refine ⟨preload_trace env s.snaps (List.range s.snaps.length), (preload_exact env s s' h).2, ?_, ?_⟩
  · intro i e he hadd
    have hcond : load_cond s.snaps i = true ↔
        (e.flags.delete = true ∨ (0 < i ∧ prev_delete s i = true)) := by
      unfold load_cond prev_delete
      simp only [he, hadd]
      by_cases hi : i = 0
      · subst hi; simp
      · have h1 : (i != 0) = true := by simp [hi]
        have h2 : 0 < i := Nat.pos_of_ne_zero hi
        rw [h1]
        cases s.snaps[i - 1]? <;> simp [h2]
    obtain ⟨hiff, hnot⟩ := preload_loaded_cond env s s' h i e he
    refine ⟨hiff.trans hcond, fun hn => hnot ?_⟩
    cases hc : load_cond s.snaps i with
    | false => rfl
    | true => exact absurd (hcond.mp hc) hn
  · rw [(preload_found env s s' h).2]
    constructor
    · rintro ⟨j, hj⟩
      cases hx : s.snaps[j]? with
      | none => simp [load_cond, hx] at hj
      | some e => exact ⟨j, e, hx, (preload_loaded_cond env s s' h j e hx).1.mpr hj⟩
    · rintro ⟨j, e, hx, hl⟩
      exact ⟨j, (preload_loaded_cond env s s' h j e hx).1.mp hl⟩

/-- Witness of `preload_loads_exactly`: in `[s1, s2 DELETE, s3, s4 ADD]` the entry `s2` is
loaded. -/
theorem preload_loads_exactly_witness :
    preload (ex_env fun _ => 0) (ex_state (ex_block true false) ex_delete_middle)
      = .next (preload (ex_env fun _ => 0) (ex_state (ex_block true false) ex_delete_middle)).st ∧
    ∃ t, (preload (ex_env fun _ => 0) (ex_state (ex_block true false) ex_delete_middle)).st.trace
        = (ex_state (ex_block true false) ex_delete_middle).trace ++ t ∧
      Loaded (ex_env fun _ => 0) 1 (ex_entry "s2" ex_c2 false true) t
        (preload (ex_env fun _ => 0) (ex_state (ex_block true false) ex_delete_middle)).st :=
  ⟨rfl, (preload_loads_exactly (ex_env fun _ => 0) (ex_state (ex_block true false) ex_delete_middle) _
      rfl).imp (fun _ ht => ⟨ht.1, ((ht.2.1 1 (ex_entry "s2" ex_c2 false true) rfl rfl).1).mpr (Or.inl rfl)⟩)⟩

end BlockSnap
